import Mathlib

/-! Third-person player controller (`Code/B_Player.h`).

A shallow embedding of the `Bullet`, `Gun` and `Player` behaviours of
`Code/B_Player.h`, followed by theorems about them.

Conventions of the embedding:

* C++ `float` values are exact rationals (`ℚ`); `int` values are integers (`ℤ`).
  Results therefore describe the arithmetic the source writes down, not IEEE
  rounding.
* A behaviour's `Update` is a pure step function from the state before the
  frame and the frame's inputs to the state after it.  Everything read from
  the engine during a frame (`Time.Deltatime`, keys, mouse, the capsule's
  collision event, direction vectors of transforms, the animator's clocks, the
  values returned by `B_irand`) is a field of `Frame`.
* Effects on other objects (bullets spawned, the collided object's `Destroy`
  flag, playback commands handed to the animator) are returned next to the
  new state.
-/

namespace BPlayer

/-! ## Engine helpers -/

/-- Three-component vector (`glm::vec3`). -/
structure Vec3 where
  x : ℚ
  y : ℚ
  z : ℚ
deriving DecidableEq

namespace Vec3

/-- The zero vector `glm::vec3(0)`. -/
def zero : Vec3 := ⟨0, 0, 0⟩

/-- Componentwise sum. -/
def add (a b : Vec3) : Vec3 := ⟨a.x + b.x, a.y + b.y, a.z + b.z⟩

/-- Componentwise difference. -/
def sub (a b : Vec3) : Vec3 := ⟨a.x - b.x, a.y - b.y, a.z - b.z⟩

/-- Product of a vector with a scalar. -/
def smul (a : Vec3) (t : ℚ) : Vec3 := ⟨a.x * t, a.y * t, a.z * t⟩

end Vec3

/-- Modelled from the spec: `B_clamp` is declared in `BanKEngine.h`, which is not
among the sources; it is the usual clamp of `x` to the interval `[lo, hi]`. -/
def B_clamp (x lo hi : ℚ) : ℚ :=
  if x < lo then lo else if hi < x then hi else x

/-- Modelled from the spec: `B_lerp` is declared in `BanKEngine.h`, which is not
among the sources; linear interpolation `a + (b - a) * t`. -/
def B_lerp (a b t : ℚ) : ℚ := a + (b - a) * t

/-- Modelled from the spec: `B_lerpVec3` is declared in `BanKEngine.h`, which is
not among the sources; `B_lerpVec3(a, b, t) = a + (b - a) * t`. -/
def B_lerpVec3 (a b : Vec3) (t : ℚ) : Vec3 := a.add ((b.sub a).smul t)

/-- The 4x4 matrices of the renderer (`glm::mat4`). -/
abbrev Mat4 := Matrix (Fin 4) (Fin 4) ℚ

/-- Modelled from the spec: `glm::inverse` belongs to the external GLM library.
GLM computes the cofactor (adjugate) matrix and multiplies it by
`1 / determinant`; here the reciprocal is the rational one, so a singular
matrix is sent to the zero matrix where IEEE arithmetic yields infinities and
NaNs. -/
def glm_inverse (M : Mat4) : Mat4 := (1 / M.det) • M.adjugate

/-- Modelled from the spec: `getDirectPosition` is an engine helper that is not
among the sources; it extracts the translation component of a model matrix. -/
def getDirectPosition (M : Mat4) : Vec3 := ⟨M 0 3, M 1 3, M 2 3⟩

/-! ## Bullet -/

/-- The `Bullet::Team` enumeration. -/
inductive Team where
  | Player
  | Enemy
deriving DecidableEq

/-- State of a `Bullet` behaviour together with the fields of its game
object that the behaviour touches. -/
structure Bullet where
  lifespan : ℚ
  Speed : ℚ
  Team : Team
  wPosition : Vec3
  Destroy : Bool

namespace Bullet

/-- A bullet as constructed by `new Bullet(...)` on a fresh game object placed
at `pos`: the member initialisers of the class. -/
def spawn (pos : Vec3) : Bullet :=
  { lifespan := 64 / 100, Speed := 8 / 10, Team := Team.Player, wPosition := pos,
    Destroy := false }

/-- Embedding of `Bullet::Update`.  `Deltatime` is `Time.Deltatime`, `forward` the value of
`GameObject->Transform.getForwardVector()`.  The body of the collision test is
commented out in the source, so a collision changes nothing.  The countdown
`lifespan -= Time.Deltatime` is single-precision in the source and exact here:
where the exact lifespan passes through 0 or within rounding error of it, the
rounded countdown can raise the flag one frame sooner or later than the exact
one. -/
def Update (b : Bullet) (Deltatime : ℚ) (forward : Vec3) : Bullet :=
  let b := { b with wPosition := b.wPosition.add (forward.smul b.Speed) }
  let b := { b with lifespan := b.lifespan - Deltatime }
  if b.lifespan < 0 then { b with Destroy := true } else b

/-- The bullet after `n` frames of constant `Deltatime`, flying along `forward`. -/
def frames (b : Bullet) (Deltatime : ℚ) (forward : Vec3) : Nat → Bullet
  | 0 => b
  | n + 1 => (frames b Deltatime forward n).Update Deltatime forward

end Bullet

/-! ## Player: data -/

/-- The animation clips held by the shared asset registry `Steve::Data_`. -/
inductive Clip where
  | idleAnimation
  | idleAnimation_NOGUN
  | walkAnimation
  | runAnimation
  | runAnimation_NOGUN
  | DeadAnimation
  | kickAnimation
  | HitAnimation
deriving DecidableEq

/-- One call `m_animator->PlayAnimation(primary, secondary, t1, t2, blend)`. -/
structure PlayCmd where
  primary : Clip
  secondary : Option Clip
  t1 : ℚ
  t2 : ℚ
  blend : ℚ
deriving DecidableEq

/-- The `Player::AnimState` enumeration. -/
inductive AnimState where
  | IDLE
  | IDLE_PUNCH
  | PUNCH_IDLE
  | IDLE_KICK
  | KICK_IDLE
  | IDLE_WALK
  | WALK_IDLE
  | WALK
deriving DecidableEq

/-- The `Player::Controls` record. -/
structure Controls where
  MOVE_FWD : Bool
  MOVE_BACK : Bool
  MOVE_LFT : Bool
  MOVE_RHT : Bool
  ATK_1 : Bool
  TURN_X : ℚ
  TURN_Y : ℚ
deriving DecidableEq

/-- The game object found behind `mCollider_Capsule->Event.Other`: the team of
its `Bullet` component if it carries one, whether it carries a `Gun`
component, and its `Destroy` flag. -/
structure OtherObj where
  bullet : Option Team
  gun : Bool
  Destroy : Bool
deriving DecidableEq

/-- Everything a frame reads from the engine. -/
structure Frame where
  /-- Value of `Time.Deltatime`. -/
  Deltatime : ℚ
  KEY_W : Bool
  KEY_S : Bool
  KEY_A : Bool
  KEY_D : Bool
  KEY_N : Bool
  MOUSE_BUTTON_1 : Bool
  /-- Result of `Input::getMousePosChange()`. -/
  mousePosChange : ℚ × ℚ
  KEY_E : Bool
  KEY_Q : Bool
  KEY_LEFT : Bool
  KEY_RIGHT : Bool
  KEY_UP : Bool
  KEY_DOWN : Bool
  KEY_F : Bool
  KEY_J : Bool
  KEY_K : Bool
  /-- Results of `Input::GetKeyDown(GLFW_KEY_1)` to `GLFW_KEY_4`. -/
  KEYDOWN_1 : Bool
  KEYDOWN_2 : Bool
  KEYDOWN_3 : Bool
  KEYDOWN_4 : Bool
  /-- Flag `mCollider_Capsule->Event.isCollided`. -/
  isCollided : Bool
  /-- Object `mCollider_Capsule->Event.Other->GameObject`. -/
  Other : OtherObj
  /-- Value of `BODY_RotProbe->Transform.getForwardVector()`. -/
  forwardVector : Vec3
  /-- Value of `BODY_RotProbe->Transform.getLeftVector()`. -/
  leftVector : Vec3
  /-- The value returned by `B_irand(-2,5)` if it is called this frame. -/
  irand_pitch : ℤ
  /-- The value returned by `B_irand(-5,5)` if it is called this frame. -/
  irand_yaw : ℤ
  /-- Value of `m_animator->m_CurrentTime` as read inside the `switch` of `Animate`. -/
  m_CurrentTime : ℚ
  /-- Value of `m_animator->m_CurrentTime2` as read inside the `switch` of `Animate`. -/
  m_CurrentTime2 : ℚ
  /-- Value of `m_animator->m_CurrentTime2` as read into `startTime`, after the blend
  command of the same branch has been issued. -/
  startTime : ℚ

/-- State of a `Player` behaviour together with the fields of its game object
and of its child transforms that the behaviour reads or writes. -/
structure Player where
  Dead : Bool
  DeadTimer : ℚ
  Controls : Controls
  Health : ℤ
  Gun_Matrix : Mat4
  Gun_AnimCooldown : ℚ
  Gun_Cooldown : ℚ
  HasGun : Bool
  BODY_RotProbe_TargetRot : ℚ
  BODY_TargetRot : ℚ
  charState : AnimState
  blendAmount : ℚ
  idleAnimation : Clip
  walkAnimation : Clip
  runAnimation : Clip
  DeadAnimation : Clip
  kickAnimation : Clip
  Velocity : Vec3
  Input : Bool
  /-- Field `GameObject->Transform.wPosition`. -/
  wPosition : Vec3
  /-- Flag `GameObject->Destroy`. -/
  Destroy : Bool
  /-- Field `CamArea->Transform.wRotation` (`x` is the pitch, `y` the yaw). -/
  CamArea_wRotation : Vec3
  /-- Field `BODY_RotProbe->Transform.wRotation.y`. -/
  BODY_RotProbe_wRotation_y : ℚ
  /-- Field `BODY->Transform.wRotation.y`. -/
  BODY_wRotation_y : ℚ

/-- What a frame of the player does to the rest of the world. -/
structure Effects where
  /-- Playback commands handed to the animator, in order. -/
  plays : List PlayCmd
  /-- Bullets created this frame. -/
  bullets : List Bullet
  /-- The collided object after the frame. -/
  Other : OtherObj

namespace Player

/-- Constant `Gun_AnimCooldownMax`. -/
def Gun_AnimCooldownMax : ℚ := 25 / 100

/-- Constant `Gun_CooldownMax`. -/
def Gun_CooldownMax : ℚ := 1 / 10

/-- The member initialisers of `Player` and the transforms set up by
`Player::Init`.  The class gives no initial value to `Velocity`,
`BODY_RotProbe_TargetRot`, `BODY_TargetRot`, `Gun_Matrix` and the position, so
a player is initial whatever they hold. -/
def Initial (p : Player) : Prop :=
  p.Dead = false ∧ p.DeadTimer = 3 ∧
  p.Controls = ⟨false, false, false, false, false, 0, 0⟩ ∧
  p.Health = 3 ∧ p.Gun_AnimCooldown = 0 ∧ p.Gun_Cooldown = 0 ∧ p.HasGun = false ∧
  p.charState = AnimState.IDLE ∧ p.blendAmount = 0 ∧
  p.idleAnimation = Clip.idleAnimation ∧ p.walkAnimation = Clip.walkAnimation ∧
  p.runAnimation = Clip.runAnimation ∧ p.DeadAnimation = Clip.DeadAnimation ∧
  p.kickAnimation = Clip.kickAnimation ∧
  p.Input = false ∧ p.Destroy = false ∧ p.CamArea_wRotation = Vec3.zero ∧
  p.BODY_RotProbe_wRotation_y = 0 ∧ p.BODY_wRotation_y = 0

/-- An initial player whose uninitialised members are zero, standing at the
origin. -/
def fresh : Player :=
  { Dead := false, DeadTimer := 3,
    Controls := ⟨false, false, false, false, false, 0, 0⟩,
    Health := 3, Gun_Matrix := 0, Gun_AnimCooldown := 0, Gun_Cooldown := 0,
    HasGun := false, BODY_RotProbe_TargetRot := 0, BODY_TargetRot := 0,
    charState := AnimState.IDLE, blendAmount := 0,
    idleAnimation := Clip.idleAnimation, walkAnimation := Clip.walkAnimation,
    runAnimation := Clip.runAnimation, DeadAnimation := Clip.DeadAnimation,
    kickAnimation := Clip.kickAnimation,
    Velocity := Vec3.zero, Input := false, wPosition := Vec3.zero, Destroy := false,
    CamArea_wRotation := Vec3.zero, BODY_RotProbe_wRotation_y := 0,
    BODY_wRotation_y := 0 }

/-! ## Player: `Animate` -/

/-- The four debugging commands at the head of `Animate` (keys 1 to 4). -/
def debugPlays (p : Player) (f : Frame) : List PlayCmd :=
  (if f.KEYDOWN_1 then [⟨p.idleAnimation, none, 0, 0, 0⟩] else []) ++
  (if f.KEYDOWN_2 then [⟨p.walkAnimation, none, 0, 0, 0⟩] else []) ++
  (if f.KEYDOWN_3 then [⟨p.DeadAnimation, none, 0, 0, 0⟩] else []) ++
  (if f.KEYDOWN_4 then [⟨p.kickAnimation, none, 0, 0, 0⟩] else [])

/-- The clip selection of `Animate`: with-gun or no-gun idle and run clips. -/
def selectClips (p : Player) : Player :=
  if p.HasGun then
    { p with idleAnimation := Clip.idleAnimation, runAnimation := Clip.runAnimation }
  else
    { p with idleAnimation := Clip.idleAnimation_NOGUN,
             runAnimation := Clip.runAnimation_NOGUN }

/-- The common shape of the blending branches of `Animate`'s `switch`:
advance `blendAmount` by `blendRate`, hand the blend of `a` into `b` to the
animator, and when the advanced value exceeds `0.9` reset `blendAmount`, play
`b` alone from `startTime` and move to state `next`. -/
def blendStep (p : Player) (f : Frame) (a b : Clip) (next : AnimState) :
    Player × List PlayCmd :=
  let blendRate := f.Deltatime * 4
  let p := { p with blendAmount := p.blendAmount + blendRate }
  let c1 : PlayCmd := ⟨a, some b, f.m_CurrentTime, f.m_CurrentTime2, p.blendAmount⟩
  if 9 / 10 < p.blendAmount then
    let p := { p with blendAmount := 0 }
    let c2 : PlayCmd := ⟨b, none, f.startTime, 0, p.blendAmount⟩
    ({ p with charState := next }, [c1, c2])
  else
    (p, [c1])

/-- The `switch (charState)` of `Animate`. -/
def animSwitch (p : Player) (f : Frame) : Player × List PlayCmd :=
  match p.charState with
  | AnimState.IDLE =>
    if p.Input then
      let p := { p with blendAmount := 0 }
      ({ p with charState := AnimState.IDLE_WALK },
        [⟨p.idleAnimation, some p.walkAnimation, f.m_CurrentTime, 0, p.blendAmount⟩])
    else if f.KEY_J then
      let p := { p with blendAmount := 0 }
      ({ p with charState := AnimState.IDLE_PUNCH },
        [⟨p.idleAnimation, some p.DeadAnimation, f.m_CurrentTime, 0, p.blendAmount⟩])
    else if f.KEY_K then
      let p := { p with blendAmount := 0 }
      ({ p with charState := AnimState.IDLE_KICK },
        [⟨p.idleAnimation, some p.kickAnimation, f.m_CurrentTime, 0, p.blendAmount⟩])
    else (p, [])
  | AnimState.IDLE_WALK =>
    blendStep p f p.idleAnimation p.runAnimation AnimState.WALK
  | AnimState.WALK =>
    let c : PlayCmd := ⟨p.runAnimation, none, f.m_CurrentTime, f.m_CurrentTime2, p.blendAmount⟩
    if !p.Input then ({ p with charState := AnimState.WALK_IDLE }, [c]) else (p, [c])
  | AnimState.WALK_IDLE =>
    blendStep p f p.runAnimation p.idleAnimation AnimState.IDLE
  | AnimState.IDLE_PUNCH =>
    blendStep p f p.idleAnimation p.DeadAnimation AnimState.PUNCH_IDLE
  | AnimState.PUNCH_IDLE =>
    if 7 / 10 < f.m_CurrentTime then
      blendStep p f p.DeadAnimation p.idleAnimation AnimState.IDLE
    else (p, [])
  | AnimState.IDLE_KICK =>
    blendStep p f p.idleAnimation p.kickAnimation AnimState.KICK_IDLE
  | AnimState.KICK_IDLE =>
    if 1 < f.m_CurrentTime then
      blendStep p f p.kickAnimation p.idleAnimation AnimState.IDLE
    else (p, [])

/-- Embedding of `Player::Animate`: the new state and the playback commands
handed to the animator, in order. -/
def Animate (p : Player) (f : Frame) : Player × List PlayCmd :=
  let dbg := debugPlays p f
  let r := animSwitch (selectClips p) f
  (r.1, dbg ++ r.2)

/-! ## Player: `Update_Behavior` -/

/-- Embedding of `Controls.Update()`: sample the keys and the mouse. -/
def Controls_Update (f : Frame) : BPlayer.Controls :=
  { MOVE_FWD := f.KEY_W, MOVE_BACK := f.KEY_S, MOVE_LFT := f.KEY_A, MOVE_RHT := f.KEY_D,
    ATK_1 := f.KEY_N || f.MOUSE_BUTTON_1,
    TURN_Y := f.mousePosChange.1, TURN_X := f.mousePosChange.2 }

/-- Lines 259-265 of `Update_Behavior`: sample the controls, clear `Input`,
advance the two gun timers. -/
def beginFrame (p : Player) (f : Frame) : Player :=
  let p := { p with Controls := Controls_Update f }
  let p := { p with Input := false }
  let p := { p with Gun_Cooldown := p.Gun_Cooldown + f.Deltatime }
  { p with Gun_AnimCooldown := p.Gun_AnimCooldown - f.Deltatime }

/-- The firing branch (`Controls.ATK_1 && HasGun`): lock the body to the camera,
restart the firing-animation lock, and when `Gun_Cooldown` exceeds
`Gun_CooldownMax` spawn a bullet at the gun and apply the recoil. -/
def fire (p : Player) (f : Frame) : Player × List Bullet :=
  let p := { p with BODY_RotProbe_TargetRot := p.CamArea_wRotation.y }
  let p := { p with BODY_TargetRot := 0 }
  let p := { p with Gun_AnimCooldown := Gun_AnimCooldownMax }
  if Gun_CooldownMax < p.Gun_Cooldown then
    let p := { p with Gun_Cooldown := 0 }
    let BulletOBJ := Bullet.spawn (getDirectPosition p.Gun_Matrix)
    let p := { p with CamArea_wRotation :=
      { p.CamArea_wRotation with x := p.CamArea_wRotation.x - (f.irand_pitch : ℚ) } }
    let p := { p with CamArea_wRotation :=
      { p.CamArea_wRotation with y := p.CamArea_wRotation.y + (f.irand_yaw : ℚ) } }
    (p, [BulletOBJ])
  else (p, [])

/-- The movement branch (`Gun_AnimCooldown <= 0`): forward/back keys, then
left/right keys. -/
def move (p : Player) (f : Frame) : Player :=
  let Accel := f.Deltatime * 32
  let p :=
    if p.Controls.MOVE_FWD then
      let p := { p with Input := true }
      let p := { p with Velocity := p.Velocity.add (f.forwardVector.smul Accel) }
      { p with BODY_TargetRot := B_lerp p.BODY_TargetRot 0 (f.Deltatime * 9) }
    else if p.Controls.MOVE_BACK then
      let p := { p with Input := true }
      let p := { p with Velocity := p.Velocity.sub (f.forwardVector.smul Accel) }
      { p with BODY_TargetRot := B_lerp p.BODY_TargetRot 180 (f.Deltatime * 9) }
    else p
  if p.Controls.MOVE_LFT then
    let p := { p with Input := true }
    let p := { p with Velocity := p.Velocity.add (f.leftVector.smul Accel) }
    { p with BODY_TargetRot := B_lerp p.BODY_TargetRot 90 (f.Deltatime * 9) }
  else if p.Controls.MOVE_RHT then
    let p := { p with Input := true }
    let p := { p with Velocity := p.Velocity.sub (f.leftVector.smul Accel) }
    if p.Controls.MOVE_BACK then
      { p with BODY_TargetRot := B_lerp p.BODY_TargetRot 270 (f.Deltatime * 9) }
    else
      { p with BODY_TargetRot := B_lerp p.BODY_TargetRot (-90) (f.Deltatime * 9) }
  else p

/-- Lines 266-318: fire, or else move when the firing-animation lock is over. -/
def fireOrMove (p : Player) (f : Frame) : Player × List Bullet :=
  if p.Controls.ATK_1 && p.HasGun then fire p f
  else if p.Gun_AnimCooldown ≤ 0 then (move p f, [])
  else (p, [])

/-- Lines 323-330: the flight keys E and Q. -/
def fly (p : Player) (f : Frame) : Player :=
  let Accel := f.Deltatime * 32
  if f.KEY_E then
    let p := { p with Input := true }
    { p with Velocity := { p.Velocity with y := p.Velocity.y + Accel } }
  else if f.KEY_Q then
    let p := { p with Input := true }
    { p with Velocity := { p.Velocity with y := p.Velocity.y - Accel } }
  else p

/-- Lines 333-344: the arrow keys turn the camera. -/
def arrows (p : Player) (f : Frame) : Player :=
  let p :=
    if f.KEY_LEFT then
      { p with CamArea_wRotation :=
          { p.CamArea_wRotation with y := p.CamArea_wRotation.y + 64 * f.Deltatime } }
    else if f.KEY_RIGHT then
      { p with CamArea_wRotation :=
          { p.CamArea_wRotation with y := p.CamArea_wRotation.y - 64 * f.Deltatime } }
    else p
  if f.KEY_UP then
    { p with CamArea_wRotation :=
        { p.CamArea_wRotation with x := p.CamArea_wRotation.x - 64 * f.Deltatime } }
  else if f.KEY_DOWN then
    { p with CamArea_wRotation :=
        { p.CamArea_wRotation with x := p.CamArea_wRotation.x + 64 * f.Deltatime } }
  else p

/-- Lines 349-354: clamp the velocity, damp it, integrate the position. -/
def integrate (p : Player) (f : Frame) : Player :=
  let MaxVel : ℚ := 5
  let p := { p with Velocity := { p.Velocity with x := B_clamp p.Velocity.x (-MaxVel) MaxVel } }
  let p := { p with Velocity := { p.Velocity with y := B_clamp p.Velocity.y (-MaxVel) MaxVel } }
  let p := { p with Velocity := { p.Velocity with z := B_clamp p.Velocity.z (-MaxVel) MaxVel } }
  let p := { p with Velocity := B_lerpVec3 p.Velocity Vec3.zero (f.Deltatime * 4) }
  { p with wPosition := p.wPosition.add (p.Velocity.smul f.Deltatime) }

/-- Lines 357-359: the mouse turns the camera; the pitch is clamped. -/
def turn (p : Player) : Player :=
  let p := { p with CamArea_wRotation :=
    { p.CamArea_wRotation with y := p.CamArea_wRotation.y - 25 / 100 * p.Controls.TURN_Y } }
  let p := { p with CamArea_wRotation :=
    { p.CamArea_wRotation with x := p.CamArea_wRotation.x + 25 / 100 * p.Controls.TURN_X } }
  { p with CamArea_wRotation :=
    { p.CamArea_wRotation with x := B_clamp p.CamArea_wRotation.x (-90) 90 } }

/-- Lines 362-371: the heading follows the camera while there is input; both
body rotations move towards their targets. -/
def rotate (p : Player) (f : Frame) : Player :=
  let p := if p.Input then { p with BODY_RotProbe_TargetRot := p.CamArea_wRotation.y } else p
  let RotSpd_A := 10 * f.Deltatime
  let RotSpd_B := 12 * f.Deltatime
  let probe := B_lerp p.BODY_RotProbe_wRotation_y p.BODY_RotProbe_TargetRot RotSpd_A
  let p := { p with BODY_RotProbe_wRotation_y := probe }
  { p with BODY_wRotation_y := B_lerp p.BODY_wRotation_y p.BODY_TargetRot RotSpd_B }

/-- Lines 375-399: consume the capsule's collision event.  Returns the player,
the collided object and the playback commands issued. -/
def collide (p : Player) (f : Frame) : Player × OtherObj × List PlayCmd :=
  if f.isCollided then
    match f.Other.bullet with
    | some team =>
      if team = Team.Enemy then
        let hit : PlayCmd := ⟨Clip.HitAnimation, none, 1 / 10, 0, 0⟩
        let other := { f.Other with Destroy := true }
        let p := { p with Health := p.Health - 1 }
        if p.Health ≤ 0 then
          ({ p with Dead := true }, other, [hit, ⟨p.DeadAnimation, none, 0, 0, 0⟩])
        else (p, other, [hit])
      else (p, f.Other, [])
    | none =>
      if f.Other.gun then
        ({ p with HasGun := true }, { f.Other with Destroy := true }, [])
      else (p, f.Other, [])
  else (p, f.Other, [])

/-- Lines 402-405: the F key kills the player. -/
def cheatF (p : Player) (f : Frame) : Player × List PlayCmd :=
  if f.KEY_F then ({ p with Dead := true }, [⟨p.DeadAnimation, none, 0, 0, 0⟩])
  else (p, [])

/-- Embedding of `Player::Update_Behavior`. -/
def Update_Behavior (p : Player) (f : Frame) : Player × Effects :=
  let p := beginFrame p f
  let r := fireOrMove p f
  let p := fly r.1 f
  let p := arrows p f
  let p := integrate p f
  let p := turn p
  let p := rotate p f
  let c := collide p f
  let k := cheatF c.1 f
  (k.1, { plays := c.2.2 ++ k.2, bullets := r.2, Other := c.2.1 })

/-! ## Player: `Update` and `Render` -/

/-- Embedding of `Player::Update`.  A dead player only counts `DeadTimer` down
and is flagged for destruction once it is negative; a living one runs `Animate`
and then `Update_Behavior`.  The closing `m_animator->UpdateAnimation` acts on
the animator only. -/
def Update (p : Player) (f : Frame) : Player × Effects :=
  if p.Dead then
    let p := { p with DeadTimer := p.DeadTimer - f.Deltatime }
    let p := if p.DeadTimer < 0 then { p with Destroy := true } else p
    (p, { plays := [], bullets := [], Other := f.Other })
  else
    let a := Animate p f
    let b := Update_Behavior a.1 f
    (b.1, { plays := a.2 ++ b.2.plays, bullets := b.2.bullets, Other := b.2.Other })

/-- The player after a sequence of frames, oldest first. -/
def run (p : Player) : List Frame → Player
  | [] => p
  | f :: fs => run (p.Update f).1 fs

/-- The number of bullets spawned over a sequence of frames. -/
def bulletsSpawned (p : Player) : List Frame → Nat
  | [] => 0
  | f :: fs => (p.Update f).2.bullets.length + bulletsSpawned (p.Update f).1 fs

/-- The `Gun_Matrix` computed by `Player::Render` from BODY's model matrix
`mm_Parent`, Gun_OBJ's model matrix `mm_Child` and the final bone matrix
`T_asLocal` of the right hand. -/
def Render_Gun_Matrix (mm_Parent mm_Child T_asLocal : Mat4) : Mat4 :=
  let T_asWorld := mm_Parent * T_asLocal * glm_inverse mm_Parent
  T_asWorld * mm_Child

/-- Embedding of the state change of `Player::Render`: with a gun in hand the
attachment matrix is recomputed, otherwise nothing changes. -/
def Render (p : Player) (mm_Parent mm_Child T_asLocal : Mat4) : Player :=
  if p.HasGun then { p with Gun_Matrix := Render_Gun_Matrix mm_Parent mm_Child T_asLocal }
  else p

/-! ## Auxiliary notions used by the proofs -/

/-- The velocity that enters the integration block of `Update_Behavior`. -/
def preVelocity (p : Player) (f : Frame) : Vec3 :=
  (arrows (fly (fireOrMove (beginFrame p f) f).1 f) f).Velocity

/-- The invariant behind the health bounds: health is between 0 and 3, and a
living player has at least one point left. -/
def HealthInv (p : Player) : Prop :=
  0 ≤ p.Health ∧ p.Health ≤ 3 ∧ (p.Dead = false → 1 ≤ p.Health)

end Player

/-- A frame of length `dt` in which no key is pressed, the mouse does not
move and the capsule reports no collision. -/
def Frame.quiet (dt : ℚ) : Frame :=
  { Deltatime := dt, KEY_W := false, KEY_S := false, KEY_A := false, KEY_D := false,
    KEY_N := false, MOUSE_BUTTON_1 := false, mousePosChange := (0, 0),
    KEY_E := false, KEY_Q := false, KEY_LEFT := false, KEY_RIGHT := false,
    KEY_UP := false, KEY_DOWN := false, KEY_F := false, KEY_J := false, KEY_K := false,
    KEYDOWN_1 := false, KEYDOWN_2 := false, KEYDOWN_3 := false, KEYDOWN_4 := false,
    isCollided := false, Other := ⟨none, false, false⟩,
    forwardVector := ⟨0, 0, 1⟩, leftVector := ⟨1, 0, 0⟩,
    irand_pitch := 0, irand_yaw := 0,
    m_CurrentTime := 0, m_CurrentTime2 := 0, startTime := 0 }

/-- A quiet frame of length `dt` whose capsule reports a collision with a bullet
of the enemy team. -/
def Frame.enemyBullet (dt : ℚ) : Frame :=
  { Frame.quiet dt with isCollided := true, Other := ⟨some Team.Enemy, false, false⟩ }

/-- A quiet frame of length `dt` in which the attack key N is held. -/
def Frame.attack (dt : ℚ) : Frame :=
  { Frame.quiet dt with KEY_N := true }

/-- The sum of `Time.Deltatime` over a sequence of frames. -/
def wallTime (fs : List Frame) : ℚ := (fs.map Frame.Deltatime).sum

end BPlayer

namespace BPlayer

namespace Player

/-! ## The animation state machine on its own -/

/-- What the `switch` of `Animate` does to `charState` and `blendAmount`, as a
function of the values that decide it: the state `s`, the blend amount `b`, the
`Input` flag, the keys J and K, `Time.Deltatime` and the animator's
`m_CurrentTime`.  `Animate_core` proves that `Animate` computes exactly this. -/
def animNext (s : AnimState) (b : ℚ) (input J K : Bool) (dt t : ℚ) : AnimState × ℚ :=
  match s with
  | AnimState.IDLE =>
    if input then (AnimState.IDLE_WALK, 0)
    else if J then (AnimState.IDLE_PUNCH, 0)
    else if K then (AnimState.IDLE_KICK, 0)
    else (AnimState.IDLE, b)
  | AnimState.IDLE_WALK =>
    if 9 / 10 < b + dt * 4 then (AnimState.WALK, 0) else (AnimState.IDLE_WALK, b + dt * 4)
  | AnimState.WALK => if input then (AnimState.WALK, b) else (AnimState.WALK_IDLE, b)
  | AnimState.WALK_IDLE =>
    if 9 / 10 < b + dt * 4 then (AnimState.IDLE, 0) else (AnimState.WALK_IDLE, b + dt * 4)
  | AnimState.IDLE_PUNCH =>
    if 9 / 10 < b + dt * 4 then (AnimState.PUNCH_IDLE, 0)
    else (AnimState.IDLE_PUNCH, b + dt * 4)
  | AnimState.PUNCH_IDLE =>
    if 7 / 10 < t then
      if 9 / 10 < b + dt * 4 then (AnimState.IDLE, 0) else (AnimState.PUNCH_IDLE, b + dt * 4)
    else (AnimState.PUNCH_IDLE, b)
  | AnimState.IDLE_KICK =>
    if 9 / 10 < b + dt * 4 then (AnimState.KICK_IDLE, 0)
    else (AnimState.IDLE_KICK, b + dt * 4)
  | AnimState.KICK_IDLE =>
    if 1 < t then
      if 9 / 10 < b + dt * 4 then (AnimState.IDLE, 0) else (AnimState.KICK_IDLE, b + dt * 4)
    else (AnimState.KICK_IDLE, b)

/-- The player after a sequence of `Animate` calls, oldest first. -/
def animRun (p : Player) : List Frame → Player
  | [] => p
  | f :: fs => animRun (p.Animate f).1 fs

/-- The `charState` after each frame of a sequence of `Player::Update` calls. -/
def charStates (p : Player) : List Frame → List AnimState
  | [] => []
  | f :: fs => (p.Update f).1.charState :: charStates (p.Update f).1 fs

/-- The frame budget for reaching IDLE from a state when one blend takes at
most `N` frames: `N` for each blending state on the way and one frame for
WALK. -/
def settleBound (N : Nat) : AnimState → Nat
  | AnimState.IDLE => 0
  | AnimState.WALK_IDLE => N
  | AnimState.WALK => N + 1
  | AnimState.IDLE_WALK => 2 * N + 1
  | AnimState.PUNCH_IDLE => N
  | AnimState.IDLE_PUNCH => 2 * N
  | AnimState.KICK_IDLE => N
  | AnimState.IDLE_KICK => 2 * N

/-- The animator's clock lets the return blend start: past 0.7 on the punch
path, past 1.0 on the kick path, no condition on the walk path. -/
def clockPast (s : AnimState) (f : Frame) : Prop :=
  match s with
  | AnimState.IDLE_PUNCH => 7 / 10 < f.m_CurrentTime
  | AnimState.PUNCH_IDLE => 7 / 10 < f.m_CurrentTime
  | AnimState.IDLE_KICK => 1 < f.m_CurrentTime
  | AnimState.KICK_IDLE => 1 < f.m_CurrentTime
  | _ => True

end Player

end BPlayer

namespace BPlayer

/-- A frame of length `d` of the walking scenario: of the keys that steer the
player only W may be down (S, A, D, E, Q, J, K and F are up), and the capsule
reports no collision.  Mouse, arrow keys, attack key, direction vectors and
the animator's clocks are free. -/
def Frame.onlyForward (d : ℚ) (f : Frame) : Prop :=
  f.Deltatime = d ∧ f.KEY_S = false ∧ f.KEY_A = false ∧ f.KEY_D = false ∧
  f.KEY_E = false ∧ f.KEY_Q = false ∧ f.KEY_J = false ∧ f.KEY_K = false ∧
  f.KEY_F = false ∧ f.isCollided = false

/-- A quiet frame of length `dt` with the W key held. -/
def Frame.forward (dt : ℚ) : Frame :=
  { Frame.quiet dt with KEY_W := true }

namespace Player

/-- A living player without the gun whose firing-animation lock is over. -/
def Unarmed (p : Player) : Prop :=
  p.Dead = false ∧ p.HasGun = false ∧ p.Gun_AnimCooldown ≤ 0

/-- The states of the walk cycle, computed by `animNext` alone: `Animate` sees
the `Input` flag left by the previous frame, and the frame then sets the flag
to its W key; frames are 1/60 s long, J and K are up. -/
def walkStates (s : AnimState) (b : ℚ) (i : Bool) : List Bool → List AnimState
  | [] => []
  | w :: ws =>
    (animNext s b i false false (1 / 60) 0).1 ::
      walkStates (animNext s b i false false (1 / 60) 0).1
        (animNext s b i false false (1 / 60) 0).2 w ws

end Player

end BPlayer

namespace BPlayer

/-- The squared length of a vector. -/
def Vec3.normSq (v : Vec3) : ℚ := v.x * v.x + v.y * v.y + v.z * v.z

/-- Each component of `v` is at most `c` times the matching component of `u`
in absolute value. -/
def Vec3.within (v u : Vec3) (c : ℚ) : Prop :=
  |v.x| ≤ c * |u.x| ∧ |v.y| ≤ c * |u.y| ∧ |v.z| ≤ c * |u.z|

namespace Player

/-- The velocity after one frame of 1/60 s of the walking scenario: the push
along the forward vector `u` when W is down, the clamp of each component to
`[-5, 5]`, the damping. -/
def velNext (v u : Vec3) (w : Bool) : Vec3 :=
  B_lerpVec3
    ⟨B_clamp (if w = true then v.add (u.smul (1 / 60 * 32)) else v).x (-5) 5,
     B_clamp (if w = true then v.add (u.smul (1 / 60 * 32)) else v).y (-5) 5,
     B_clamp (if w = true then v.add (u.smul (1 / 60 * 32)) else v).z (-5) 5⟩
    Vec3.zero (1 / 60 * 4)

/-- The velocity after a sequence of such frames, given by their W keys. -/
def velTrack (v u : Vec3) : List Bool → Vec3
  | [] => v
  | w :: ws => velTrack (velNext v u w) u ws

/-- A bound on the speed gained per unit of forward vector after `n` frames of
pushing from rest. -/
def pushBound : Nat → ℚ
  | 0 => 0
  | n + 1 => (pushBound n + 8 / 15) * (14 / 15)

end Player

end BPlayer

namespace BPlayer

/-- A quiet frame of length `dt` whose capsule reports a collision with a gun
pickup (an object carrying a Gun and no Bullet component). -/
def Frame.gunPickup (dt : ℚ) : Frame :=
  { Frame.quiet dt with isCollided := true, Other := ⟨none, true, false⟩ }

/-- State of a `Gun` behaviour together with the fields of its game object
and collider that the behaviour touches. -/
structure Gun where
  FloatDir : ℤ
  /-- Field `GameObject->Transform.wScale`. -/
  wScale : Vec3
  /-- Field `GameObject->Transform.wRotation.y`. -/
  wRotation_y : ℚ
  /-- Field `mCollider_Capsule->Radius`. -/
  Radius : ℚ

namespace Gun

/-- A gun as constructed by `new Gun` on a fresh game object: `FloatDir` is
1; the engine's defaults for the transform and the collider are taken to be
unit scale, no rotation and radius 0. -/
def fresh : Gun := { FloatDir := 1, wScale := ⟨1, 1, 1⟩, wRotation_y := 0, Radius := 0 }

/-- Embedding of `Gun::Init`, acting on the global `GunCount` (a C++ `int`,
here an integer) and on the gun. -/
def Init (GunCount : ℤ) (g : Gun) : ℤ × Gun :=
  let GunCount := GunCount + 1
  let g := { g with wScale := ⟨5 / 100, 5 / 100, 5 / 100⟩ }
  (GunCount, { g with Radius := 1 / 2 })

/-- Embedding of `Gun::Update`: the pickup spins; the floating motion is
commented out in the source. -/
def Update (GunCount : ℤ) (g : Gun) (Deltatime : ℚ) : ℤ × Gun :=
  (GunCount, { g with wRotation_y := g.wRotation_y + Deltatime * 25 })

/-- Embedding of `Gun::Destruct`. -/
def Destruct (GunCount : ℤ) (g : Gun) : ℤ × Gun := (GunCount - 1, g)

end Gun

/-- A lifecycle event of the Gun instance numbered `id`. -/
inductive GunEvent where
  | Init (id : Nat)
  | Update (id : Nat) (Deltatime : ℚ)
  | Destruct (id : Nat)
deriving DecidableEq

/-- The global `GunCount` and the Gun instances, by number. -/
structure GunWorld where
  GunCount : ℤ
  guns : Nat → Gun

namespace GunWorld

/-- The program start: `int GunCount = 0`. -/
def start : GunWorld := { GunCount := 0, guns := fun _ => Gun.fresh }

/-- The host calls the method named by the event on the instance. -/
def step (w : GunWorld) : GunEvent → GunWorld
  | GunEvent.Init i =>
    { GunCount := (Gun.Init w.GunCount (w.guns i)).1,
      guns := Function.update w.guns i (Gun.Init w.GunCount (w.guns i)).2 }
  | GunEvent.Update i dt =>
    { GunCount := (Gun.Update w.GunCount (w.guns i) dt).1,
      guns := Function.update w.guns i (Gun.Update w.GunCount (w.guns i) dt).2 }
  | GunEvent.Destruct i =>
    { GunCount := (Gun.Destruct w.GunCount (w.guns i)).1,
      guns := Function.update w.guns i (Gun.Destruct w.GunCount (w.guns i)).2 }

/-- The world after a sequence of events, oldest first. -/
def run (w : GunWorld) : List GunEvent → GunWorld
  | [] => w
  | e :: es => run (w.step e) es

end GunWorld

namespace GunEvent

/-- The instance an event is about. -/
def id : GunEvent → Nat
  | Init i => i
  | Update i _ => i
  | Destruct i => i

/-- The instances that have been initialised and not yet destructed in the
history `es`. -/
def living (es : List GunEvent) : Finset Nat :=
  (es.map id).toFinset.filter (fun i => Init i ∈ es ∧ Destruct i ∉ es)

/-- An event respects the lifecycle after the history `past`: `Init` comes once,
`Destruct` at most once and only after the instance's `Init`. -/
def admissible (past : List GunEvent) : GunEvent → Prop
  | Init i => Init i ∉ past
  | Update _ _ => True
  | Destruct i => Init i ∈ past ∧ Destruct i ∉ past

/-- Every event of `es` respects the lifecycle, after the history `past`. -/
def WellFormedFrom (past : List GunEvent) : List GunEvent → Prop
  | [] => True
  | e :: es => admissible past e ∧ WellFormedFrom (past ++ [e]) es

/-- A well-formed sequence of lifecycle events, from the program start. -/
def WellFormed (es : List GunEvent) : Prop := WellFormedFrom [] es

end GunEvent

end BPlayer

/-! ## Frame lemmas: which block of `Update_Behavior` leaves which field alone -/

namespace BPlayer

namespace Player

@[simp] theorem beginFrame_Health (p : Player) (f : Frame) :
    (beginFrame p f).Health = p.Health := rfl

@[simp] theorem beginFrame_Dead (p : Player) (f : Frame) :
    (beginFrame p f).Dead = p.Dead := rfl

@[simp] theorem beginFrame_HasGun (p : Player) (f : Frame) :
    (beginFrame p f).HasGun = p.HasGun := rfl

@[simp] theorem beginFrame_blendAmount (p : Player) (f : Frame) :
    (beginFrame p f).blendAmount = p.blendAmount := rfl

@[simp] theorem beginFrame_charState (p : Player) (f : Frame) :
    (beginFrame p f).charState = p.charState := rfl

@[simp] theorem beginFrame_Velocity (p : Player) (f : Frame) :
    (beginFrame p f).Velocity = p.Velocity := rfl

@[simp] theorem beginFrame_CamArea_wRotation (p : Player) (f : Frame) :
    (beginFrame p f).CamArea_wRotation = p.CamArea_wRotation := rfl

@[simp] theorem beginFrame_DeadAnimation (p : Player) (f : Frame) :
    (beginFrame p f).DeadAnimation = p.DeadAnimation := rfl

@[simp] theorem fireOrMove_Health (p : Player) (f : Frame) :
    (fireOrMove p f).1.Health = p.Health := by
  unfold fireOrMove fire move
  simp only []
  split_ifs <;> rfl

@[simp] theorem fireOrMove_Dead (p : Player) (f : Frame) :
    (fireOrMove p f).1.Dead = p.Dead := by
  unfold fireOrMove fire move
  simp only []
  split_ifs <;> rfl

@[simp] theorem fireOrMove_HasGun (p : Player) (f : Frame) :
    (fireOrMove p f).1.HasGun = p.HasGun := by
  unfold fireOrMove fire move
  simp only []
  split_ifs <;> rfl

@[simp] theorem fireOrMove_blendAmount (p : Player) (f : Frame) :
    (fireOrMove p f).1.blendAmount = p.blendAmount := by
  unfold fireOrMove fire move
  simp only []
  split_ifs <;> rfl

@[simp] theorem fireOrMove_charState (p : Player) (f : Frame) :
    (fireOrMove p f).1.charState = p.charState := by
  unfold fireOrMove fire move
  simp only []
  split_ifs <;> rfl

@[simp] theorem fireOrMove_DeadAnimation (p : Player) (f : Frame) :
    (fireOrMove p f).1.DeadAnimation = p.DeadAnimation := by
  unfold fireOrMove fire move
  simp only []
  split_ifs <;> rfl

@[simp] theorem fly_Health (p : Player) (f : Frame) :
    (fly p f).Health = p.Health := by
  unfold fly
  simp only []
  split_ifs <;> rfl

@[simp] theorem fly_Dead (p : Player) (f : Frame) :
    (fly p f).Dead = p.Dead := by
  unfold fly
  simp only []
  split_ifs <;> rfl

@[simp] theorem fly_HasGun (p : Player) (f : Frame) :
    (fly p f).HasGun = p.HasGun := by
  unfold fly
  simp only []
  split_ifs <;> rfl

@[simp] theorem fly_blendAmount (p : Player) (f : Frame) :
    (fly p f).blendAmount = p.blendAmount := by
  unfold fly
  simp only []
  split_ifs <;> rfl

@[simp] theorem fly_charState (p : Player) (f : Frame) :
    (fly p f).charState = p.charState := by
  unfold fly
  simp only []
  split_ifs <;> rfl

@[simp] theorem fly_Gun_Cooldown (p : Player) (f : Frame) :
    (fly p f).Gun_Cooldown = p.Gun_Cooldown := by
  unfold fly
  simp only []
  split_ifs <;> rfl

@[simp] theorem fly_CamArea_wRotation (p : Player) (f : Frame) :
    (fly p f).CamArea_wRotation = p.CamArea_wRotation := by
  unfold fly
  simp only []
  split_ifs <;> rfl

@[simp] theorem fly_DeadAnimation (p : Player) (f : Frame) :
    (fly p f).DeadAnimation = p.DeadAnimation := by
  unfold fly
  simp only []
  split_ifs <;> rfl

@[simp] theorem arrows_Health (p : Player) (f : Frame) :
    (arrows p f).Health = p.Health := by
  unfold arrows
  simp only []
  split_ifs <;> rfl

@[simp] theorem arrows_Dead (p : Player) (f : Frame) :
    (arrows p f).Dead = p.Dead := by
  unfold arrows
  simp only []
  split_ifs <;> rfl

@[simp] theorem arrows_HasGun (p : Player) (f : Frame) :
    (arrows p f).HasGun = p.HasGun := by
  unfold arrows
  simp only []
  split_ifs <;> rfl

@[simp] theorem arrows_blendAmount (p : Player) (f : Frame) :
    (arrows p f).blendAmount = p.blendAmount := by
  unfold arrows
  simp only []
  split_ifs <;> rfl

@[simp] theorem arrows_charState (p : Player) (f : Frame) :
    (arrows p f).charState = p.charState := by
  unfold arrows
  simp only []
  split_ifs <;> rfl

@[simp] theorem arrows_Gun_Cooldown (p : Player) (f : Frame) :
    (arrows p f).Gun_Cooldown = p.Gun_Cooldown := by
  unfold arrows
  simp only []
  split_ifs <;> rfl

@[simp] theorem arrows_Velocity (p : Player) (f : Frame) :
    (arrows p f).Velocity = p.Velocity := by
  unfold arrows
  simp only []
  split_ifs <;> rfl

@[simp] theorem arrows_DeadAnimation (p : Player) (f : Frame) :
    (arrows p f).DeadAnimation = p.DeadAnimation := by
  unfold arrows
  simp only []
  split_ifs <;> rfl

@[simp] theorem integrate_Health (p : Player) (f : Frame) :
    (integrate p f).Health = p.Health := rfl

@[simp] theorem integrate_Dead (p : Player) (f : Frame) :
    (integrate p f).Dead = p.Dead := rfl

@[simp] theorem integrate_HasGun (p : Player) (f : Frame) :
    (integrate p f).HasGun = p.HasGun := rfl

@[simp] theorem integrate_blendAmount (p : Player) (f : Frame) :
    (integrate p f).blendAmount = p.blendAmount := rfl

@[simp] theorem integrate_charState (p : Player) (f : Frame) :
    (integrate p f).charState = p.charState := rfl

@[simp] theorem integrate_Gun_Cooldown (p : Player) (f : Frame) :
    (integrate p f).Gun_Cooldown = p.Gun_Cooldown := rfl

@[simp] theorem integrate_CamArea_wRotation (p : Player) (f : Frame) :
    (integrate p f).CamArea_wRotation = p.CamArea_wRotation := rfl

@[simp] theorem integrate_DeadAnimation (p : Player) (f : Frame) :
    (integrate p f).DeadAnimation = p.DeadAnimation := rfl

@[simp] theorem turn_Health (p : Player) :
    (turn p).Health = p.Health := rfl

@[simp] theorem turn_Dead (p : Player) :
    (turn p).Dead = p.Dead := rfl

@[simp] theorem turn_HasGun (p : Player) :
    (turn p).HasGun = p.HasGun := rfl

@[simp] theorem turn_blendAmount (p : Player) :
    (turn p).blendAmount = p.blendAmount := rfl

@[simp] theorem turn_charState (p : Player) :
    (turn p).charState = p.charState := rfl

@[simp] theorem turn_Gun_Cooldown (p : Player) :
    (turn p).Gun_Cooldown = p.Gun_Cooldown := rfl

@[simp] theorem turn_Velocity (p : Player) :
    (turn p).Velocity = p.Velocity := rfl

@[simp] theorem turn_DeadAnimation (p : Player) :
    (turn p).DeadAnimation = p.DeadAnimation := rfl

@[simp] theorem rotate_Health (p : Player) (f : Frame) :
    (rotate p f).Health = p.Health := by
  unfold rotate
  simp only []
  split_ifs <;> rfl

@[simp] theorem rotate_Dead (p : Player) (f : Frame) :
    (rotate p f).Dead = p.Dead := by
  unfold rotate
  simp only []
  split_ifs <;> rfl

@[simp] theorem rotate_HasGun (p : Player) (f : Frame) :
    (rotate p f).HasGun = p.HasGun := by
  unfold rotate
  simp only []
  split_ifs <;> rfl

@[simp] theorem rotate_blendAmount (p : Player) (f : Frame) :
    (rotate p f).blendAmount = p.blendAmount := by
  unfold rotate
  simp only []
  split_ifs <;> rfl

@[simp] theorem rotate_charState (p : Player) (f : Frame) :
    (rotate p f).charState = p.charState := by
  unfold rotate
  simp only []
  split_ifs <;> rfl

@[simp] theorem rotate_Gun_Cooldown (p : Player) (f : Frame) :
    (rotate p f).Gun_Cooldown = p.Gun_Cooldown := by
  unfold rotate
  simp only []
  split_ifs <;> rfl

@[simp] theorem rotate_Velocity (p : Player) (f : Frame) :
    (rotate p f).Velocity = p.Velocity := by
  unfold rotate
  simp only []
  split_ifs <;> rfl

@[simp] theorem rotate_CamArea_wRotation (p : Player) (f : Frame) :
    (rotate p f).CamArea_wRotation = p.CamArea_wRotation := by
  unfold rotate
  simp only []
  split_ifs <;> rfl

@[simp] theorem rotate_DeadAnimation (p : Player) (f : Frame) :
    (rotate p f).DeadAnimation = p.DeadAnimation := by
  unfold rotate
  simp only []
  split_ifs <;> rfl

@[simp] theorem collide_blendAmount (p : Player) (f : Frame) :
    (collide p f).1.blendAmount = p.blendAmount := by
  unfold collide
  cases f.Other.bullet <;> simp only [] <;> split_ifs <;> rfl

@[simp] theorem collide_charState (p : Player) (f : Frame) :
    (collide p f).1.charState = p.charState := by
  unfold collide
  cases f.Other.bullet <;> simp only [] <;> split_ifs <;> rfl

@[simp] theorem collide_Gun_Cooldown (p : Player) (f : Frame) :
    (collide p f).1.Gun_Cooldown = p.Gun_Cooldown := by
  unfold collide
  cases f.Other.bullet <;> simp only [] <;> split_ifs <;> rfl

@[simp] theorem collide_Velocity (p : Player) (f : Frame) :
    (collide p f).1.Velocity = p.Velocity := by
  unfold collide
  cases f.Other.bullet <;> simp only [] <;> split_ifs <;> rfl

@[simp] theorem collide_CamArea_wRotation (p : Player) (f : Frame) :
    (collide p f).1.CamArea_wRotation = p.CamArea_wRotation := by
  unfold collide
  cases f.Other.bullet <;> simp only [] <;> split_ifs <;> rfl

@[simp] theorem collide_DeadAnimation (p : Player) (f : Frame) :
    (collide p f).1.DeadAnimation = p.DeadAnimation := by
  unfold collide
  cases f.Other.bullet <;> simp only [] <;> split_ifs <;> rfl

@[simp] theorem cheatF_Health (p : Player) (f : Frame) :
    (cheatF p f).1.Health = p.Health := by
  unfold cheatF
  split_ifs <;> rfl

@[simp] theorem cheatF_HasGun (p : Player) (f : Frame) :
    (cheatF p f).1.HasGun = p.HasGun := by
  unfold cheatF
  split_ifs <;> rfl

@[simp] theorem cheatF_blendAmount (p : Player) (f : Frame) :
    (cheatF p f).1.blendAmount = p.blendAmount := by
  unfold cheatF
  split_ifs <;> rfl

@[simp] theorem cheatF_charState (p : Player) (f : Frame) :
    (cheatF p f).1.charState = p.charState := by
  unfold cheatF
  split_ifs <;> rfl

@[simp] theorem cheatF_Gun_Cooldown (p : Player) (f : Frame) :
    (cheatF p f).1.Gun_Cooldown = p.Gun_Cooldown := by
  unfold cheatF
  split_ifs <;> rfl

@[simp] theorem cheatF_Velocity (p : Player) (f : Frame) :
    (cheatF p f).1.Velocity = p.Velocity := by
  unfold cheatF
  split_ifs <;> rfl

@[simp] theorem cheatF_CamArea_wRotation (p : Player) (f : Frame) :
    (cheatF p f).1.CamArea_wRotation = p.CamArea_wRotation := by
  unfold cheatF
  split_ifs <;> rfl

@[simp] theorem cheatF_DeadAnimation (p : Player) (f : Frame) :
    (cheatF p f).1.DeadAnimation = p.DeadAnimation := by
  unfold cheatF
  split_ifs <;> rfl


end Player

end BPlayer

namespace BPlayer

namespace Player

/-! ## `Animate` touches the animation fields only -/

theorem Animate_frame (p : Player) (f : Frame) :
    (Animate p f).1.Health = p.Health ∧ (Animate p f).1.Dead = p.Dead ∧
    (Animate p f).1.HasGun = p.HasGun ∧ (Animate p f).1.Gun_Cooldown = p.Gun_Cooldown ∧
    (Animate p f).1.Velocity = p.Velocity ∧
    (Animate p f).1.CamArea_wRotation = p.CamArea_wRotation ∧
    (Animate p f).1.DeadTimer = p.DeadTimer ∧ (Animate p f).1.Destroy = p.Destroy := by
  unfold Animate animSwitch blendStep selectClips
  simp only []
  split <;> split_ifs <;> simp

@[simp] theorem Animate_Health (p : Player) (f : Frame) :
    (Animate p f).1.Health = p.Health := (Animate_frame p f).1

@[simp] theorem Animate_Dead (p : Player) (f : Frame) :
    (Animate p f).1.Dead = p.Dead := (Animate_frame p f).2.1

@[simp] theorem Animate_HasGun (p : Player) (f : Frame) :
    (Animate p f).1.HasGun = p.HasGun := (Animate_frame p f).2.2.1

@[simp] theorem Animate_Gun_Cooldown (p : Player) (f : Frame) :
    (Animate p f).1.Gun_Cooldown = p.Gun_Cooldown := (Animate_frame p f).2.2.2.1

@[simp] theorem Animate_Velocity (p : Player) (f : Frame) :
    (Animate p f).1.Velocity = p.Velocity := (Animate_frame p f).2.2.2.2.1

@[simp] theorem Animate_CamArea_wRotation (p : Player) (f : Frame) :
    (Animate p f).1.CamArea_wRotation = p.CamArea_wRotation :=
  (Animate_frame p f).2.2.2.2.2.1

/-! ## Health and death -/

/-- The collision block takes one point of health exactly when the capsule
reports an enemy bullet. -/
theorem collide_Health (p : Player) (f : Frame) :
    (collide p f).1.Health =
      if f.isCollided = true ∧ f.Other.bullet = some Team.Enemy then p.Health - 1
      else p.Health := by
  unfold collide
  rcases hb : f.Other.bullet with _ | t
  · simp only []; split_ifs <;> simp_all
  · cases t <;> simp only [] <;> split_ifs <;> simp_all

/-- The collision block kills the player exactly when an enemy bullet takes the
last point of health. -/
theorem collide_Dead (p : Player) (f : Frame) :
    (collide p f).1.Dead =
      if f.isCollided = true ∧ f.Other.bullet = some Team.Enemy ∧ p.Health - 1 ≤ 0 then true
      else p.Dead := by
  unfold collide
  rcases hb : f.Other.bullet with _ | t
  · simp only []; split_ifs <;> simp_all
  · cases t <;> simp only [] <;> split_ifs <;> simp_all

/-- An enemy bullet that hits the capsule is flagged for destruction. -/
theorem collide_Other (p : Player) (f : Frame) (h : f.isCollided = true)
    (hb : f.Other.bullet = some Team.Enemy) :
    (collide p f).2.1.Destroy = true := by
  unfold collide
  simp [h, hb]
  split_ifs <;> rfl

theorem Update_Behavior_Health (p : Player) (f : Frame) :
    (Update_Behavior p f).1.Health =
      if f.isCollided = true ∧ f.Other.bullet = some Team.Enemy then p.Health - 1
      else p.Health := by
  simp [Update_Behavior, collide_Health]

theorem Update_Behavior_Dead (p : Player) (f : Frame) :
    (Update_Behavior p f).1.Dead =
      if f.KEY_F = true then true
      else if f.isCollided = true ∧ f.Other.bullet = some Team.Enemy ∧ p.Health - 1 ≤ 0
      then true else p.Dead := by
  simp only [Update_Behavior]
  unfold cheatF
  split_ifs <;> simp_all [collide_Dead]

theorem Update_Behavior_Other (p : Player) (f : Frame) (h : f.isCollided = true)
    (hb : f.Other.bullet = some Team.Enemy) :
    (Update_Behavior p f).2.Other.Destroy = true := by
  simp only [Update_Behavior]
  exact collide_Other _ f h hb

/-- A dead player's frame: only the timer and the destruction flag move. -/
theorem Update_of_Dead (p : Player) (f : Frame) (h : p.Dead = true) :
    p.Update f =
      ({ p with DeadTimer := p.DeadTimer - f.Deltatime,
                Destroy := if p.DeadTimer - f.Deltatime < 0 then true else p.Destroy },
       { plays := [], bullets := [], Other := f.Other }) := by
  unfold Update
  simp only [h, if_true]
  split_ifs <;> rfl

/-- A living player's frame is `Animate` followed by `Update_Behavior`. -/
theorem Update_of_alive (p : Player) (f : Frame) (h : p.Dead = false) :
    (p.Update f).1 = (Update_Behavior (Animate p f).1 f).1 ∧
    (p.Update f).2.bullets = (Update_Behavior (Animate p f).1 f).2.bullets ∧
    (p.Update f).2.Other = (Update_Behavior (Animate p f).1 f).2.Other := by
  unfold Update
  simp [h]

theorem Update_Health (p : Player) (f : Frame) :
    (p.Update f).1.Health =
      if p.Dead = false ∧ f.isCollided = true ∧ f.Other.bullet = some Team.Enemy
      then p.Health - 1 else p.Health := by
  cases h : p.Dead
  · rw [(Update_of_alive p f h).1, Update_Behavior_Health]; simp
  · rw [Update_of_Dead p f h]; simp

theorem Update_Dead (p : Player) (f : Frame) :
    (p.Update f).1.Dead =
      if p.Dead = true then true
      else if f.KEY_F = true then true
      else if f.isCollided = true ∧ f.Other.bullet = some Team.Enemy ∧ p.Health - 1 ≤ 0
      then true else false := by
  cases h : p.Dead
  · rw [(Update_of_alive p f h).1, Update_Behavior_Dead]; simp [h]
  · rw [Update_of_Dead p f h]; simp [h]

theorem HealthInv_Update (p : Player) (f : Frame) (h : HealthInv p) :
    HealthInv (p.Update f).1 := by
  obtain ⟨h0, h3, h1⟩ := h
  unfold HealthInv
  rw [Update_Health, Update_Dead]
  cases hd : p.Dead
  · have := h1 hd
    simp only [true_and, Bool.false_eq_true, if_false]
    split_ifs <;> simp_all <;> omega
  · simp [h0, h3]

theorem HealthInv_run (fs : List Frame) : ∀ p : Player, HealthInv p → HealthInv (p.run fs) := by
  induction fs with
  | nil => intro p h; exact h
  | cons f fs ih => intro p h; exact ih _ (HealthInv_Update p f h)

theorem Update_Health_le (p : Player) (f : Frame) : (p.Update f).1.Health ≤ p.Health := by
  rw [Update_Health]
  split_ifs <;> omega

theorem fresh_Initial : fresh.Initial := by
  simp [Initial, fresh]

end Player

end BPlayer

namespace BPlayer

/-! ## Claims on health and death -/

/-- C1: from an initial player (Health 3, not Dead), after any sequence of
frames with arbitrary inputs and collision events, Health lies in `[0, 3]`, and
one more `Player::Update` never increases it. -/
theorem C1_health_bounded_nonincreasing (p : Player) (h : p.Initial) (fs : List Frame) :
    0 ≤ (p.run fs).Health ∧ (p.run fs).Health ≤ 3 ∧
    ∀ f : Frame, ((p.run fs).Update f).1.Health ≤ (p.run fs).Health := by
  have hinv : Player.HealthInv p := by
    obtain ⟨hd, -, -, hh, -⟩ := h
    refine ⟨?_, ?_, fun _ => ?_⟩ <;> omega
  have := Player.HealthInv_run fs p hinv
  exact ⟨this.1, this.2.1, fun f => Player.Update_Health_le _ f⟩

/-- Witness of C1: a fresh player hit by two enemy bullets and then left alone;
a third bullet does not raise the health. -/
theorem C1_health_bounded_nonincreasing_witness :
    Player.fresh.Initial ∧
    0 ≤ (Player.fresh.run [Frame.enemyBullet (1/60), Frame.enemyBullet (1/60),
      Frame.quiet (1/60)]).Health ∧
    (Player.fresh.run [Frame.enemyBullet (1/60), Frame.enemyBullet (1/60),
      Frame.quiet (1/60)]).Health ≤ 3 ∧
    ((Player.fresh.run [Frame.enemyBullet (1/60), Frame.enemyBullet (1/60),
      Frame.quiet (1/60)]).Update (Frame.enemyBullet (1/60))).1.Health ≤
      (Player.fresh.run [Frame.enemyBullet (1/60), Frame.enemyBullet (1/60),
      Frame.quiet (1/60)]).Health :=
  ⟨Player.fresh_Initial,
   (C1_health_bounded_nonincreasing Player.fresh Player.fresh_Initial _).1,
   (C1_health_bounded_nonincreasing Player.fresh Player.fresh_Initial _).2.1,
   (C1_health_bounded_nonincreasing Player.fresh Player.fresh_Initial _).2.2 _⟩

/-- C2: three frames that each report a collision with an enemy bullet (the
cheat key F not held on the first two) take an initial player's Health through
3, 2, 1, 0; every hit flags the bullet for destruction; Dead is false after the
first and the second hit and true after the third. -/
theorem C2_three_enemy_hits (p : Player) (h : p.Initial) (f1 f2 f3 : Frame)
    (c1 : f1.isCollided = true) (b1 : f1.Other.bullet = some Team.Enemy)
    (c2 : f2.isCollided = true) (b2 : f2.Other.bullet = some Team.Enemy)
    (c3 : f3.isCollided = true) (b3 : f3.Other.bullet = some Team.Enemy)
    (k1 : f1.KEY_F = false) (k2 : f2.KEY_F = false) :
    p.Health = 3 ∧ p.Dead = false ∧
    (p.run [f1]).Health = 2 ∧ (p.run [f1]).Dead = false ∧
    (p.run [f1, f2]).Health = 1 ∧ (p.run [f1, f2]).Dead = false ∧
    (p.run [f1, f2, f3]).Health = 0 ∧ (p.run [f1, f2, f3]).Dead = true ∧
    (p.Update f1).2.Other.Destroy = true ∧
    ((p.run [f1]).Update f2).2.Other.Destroy = true ∧
    ((p.run [f1, f2]).Update f3).2.Other.Destroy = true := by
  obtain ⟨hd, -, -, hh, -⟩ := h
  have e1 : (p.Update f1).1.Health = 2 := by
    rw [Player.Update_Health]; simp [hd, c1, b1, hh]
  have d1 : (p.Update f1).1.Dead = false := by
    rw [Player.Update_Dead]; simp [hd, c1, b1, hh, k1]
  have e2 : ((p.Update f1).1.Update f2).1.Health = 1 := by
    rw [Player.Update_Health]; simp [d1, c2, b2, e1]
  have d2 : ((p.Update f1).1.Update f2).1.Dead = false := by
    rw [Player.Update_Dead]; simp [d1, c2, b2, e1, k2]
  have e3 : (((p.Update f1).1.Update f2).1.Update f3).1.Health = 0 := by
    rw [Player.Update_Health]; simp [d2, c3, b3, e2]
  have d3 : (((p.Update f1).1.Update f2).1.Update f3).1.Dead = true := by
    rw [Player.Update_Dead]; simp [d2, c3, b3, e2]
  have o : ∀ (q : Player) (f : Frame), q.Dead = false → f.isCollided = true →
      f.Other.bullet = some Team.Enemy → (q.Update f).2.Other.Destroy = true := by
    intro q f hq hc hb
    rw [(Player.Update_of_alive q f hq).2.2]
    exact Player.Update_Behavior_Other _ f hc hb
  simp only [Player.run]
  exact ⟨hh, hd, e1, d1, e2, d2, e3, d3, o p f1 hd c1 b1, o _ f2 d1 c2 b2, o _ f3 d2 c3 b3⟩

/-- Witness of C2: a fresh player and three quiet frames with an enemy bullet
in the capsule. -/
theorem C2_three_enemy_hits_witness :
    Player.fresh.Health = 3 ∧ Player.fresh.Dead = false ∧
    (Player.fresh.run [Frame.enemyBullet (1/60)]).Health = 2 ∧
    (Player.fresh.run [Frame.enemyBullet (1/60)]).Dead = false ∧
    (Player.fresh.run [Frame.enemyBullet (1/60), Frame.enemyBullet (1/60)]).Health = 1 ∧
    (Player.fresh.run [Frame.enemyBullet (1/60), Frame.enemyBullet (1/60)]).Dead = false ∧
    (Player.fresh.run [Frame.enemyBullet (1/60), Frame.enemyBullet (1/60),
      Frame.enemyBullet (1/60)]).Health = 0 ∧
    (Player.fresh.run [Frame.enemyBullet (1/60), Frame.enemyBullet (1/60),
      Frame.enemyBullet (1/60)]).Dead = true ∧
    (Player.fresh.Update (Frame.enemyBullet (1/60))).2.Other.Destroy = true ∧
    ((Player.fresh.run [Frame.enemyBullet (1/60)]).Update
      (Frame.enemyBullet (1/60))).2.Other.Destroy = true ∧
    ((Player.fresh.run [Frame.enemyBullet (1/60), Frame.enemyBullet (1/60)]).Update
      (Frame.enemyBullet (1/60))).2.Other.Destroy = true :=
  C2_three_enemy_hits Player.fresh Player.fresh_Initial
    (Frame.enemyBullet (1/60)) (Frame.enemyBullet (1/60)) (Frame.enemyBullet (1/60))
    rfl rfl rfl rfl rfl rfl rfl rfl

end BPlayer

namespace BPlayer

namespace Player

/-! ## The death countdown -/

/-- A run of dead frames of constant length `d`: the player stays dead, the
timer has lost `d` per frame, and the destruction flag is up exactly when it
was up before or the timer has become negative. -/
theorem run_dead (d : ℚ) (hd : 0 ≤ d) (fs : List Frame) :
    ∀ p : Player, p.Dead = true → (∀ f ∈ fs, f.Deltatime = d) →
      (p.run fs).Dead = true ∧
      (p.run fs).DeadTimer = p.DeadTimer - fs.length * d ∧
      ((p.run fs).Destroy = true ↔
        p.Destroy = true ∨ (fs ≠ [] ∧ p.DeadTimer - fs.length * d < 0)) := by
  induction fs with
  | nil => intro p hp _; simp [run, hp]
  | cons f fs ih =>
    intro p hp hfs
    have hf : f.Deltatime = d := hfs f (List.mem_cons_self _ _)
    have hrest : ∀ g ∈ fs, g.Deltatime = d := fun g hg => hfs g (List.mem_cons_of_mem _ hg)
    have hlen : (0 : ℚ) ≤ fs.length * d := mul_nonneg (Nat.cast_nonneg _) hd
    obtain ⟨i1, i2, i3⟩ := ih (p.Update f).1 (by rw [Update_of_Dead p f hp]; exact hp) hrest
    simp only [run]
    refine ⟨i1, ?_, ?_⟩
    · rw [i2, Update_of_Dead p f hp, hf]
      simp only [List.length_cons, Nat.cast_add, Nat.cast_one]
      ring
    · rw [i3, Update_of_Dead p f hp, hf]
      simp only [List.length_cons, Nat.cast_add, Nat.cast_one, ne_eq, reduceCtorEq,
        not_false_eq_true, true_and]
      have e : p.DeadTimer - d - fs.length * d = p.DeadTimer - (fs.length + 1) * d := by ring
      rw [e]
      constructor
      · rintro (h | ⟨-, h⟩)
        · split_ifs at h with hlt
          · right; linarith
          · left; exact h
        · right; exact h
      · rintro (h | h)
        · left; split_ifs <;> simp [h]
        · by_cases hlt : p.DeadTimer - d < 0
          · left; simp [hlt]
          · right
            refine ⟨?_, h⟩
            rintro rfl
            simp at h
            exact hlt (by linarith)

/-- The dead run over `n` quiet frames of length `d`, starting unflagged. -/
theorem run_replicate_quiet_dead (d : ℚ) (hd : 0 ≤ d) (n : Nat) (p : Player)
    (hp : p.Dead = true) (hD : p.Destroy = false) :
    (p.run (List.replicate n (Frame.quiet d))).DeadTimer = p.DeadTimer - n * d ∧
    ((p.run (List.replicate n (Frame.quiet d))).Destroy = true ↔
      (n ≠ 0 ∧ p.DeadTimer - n * d < 0)) := by
  have h := run_dead d hd (List.replicate n (Frame.quiet d)) p hp
    (fun f hf => by rw [List.eq_of_mem_replicate hf]; rfl)
  simp only [List.length_replicate, hD, Bool.false_eq_true, false_or, ne_eq,
    List.replicate_eq_nil_iff] at h
  exact ⟨h.2.1, h.2.2⟩

end Player

/-- C3 (as stated) fails: a fresh player that has just died (DeadTimer 3) and
then lives 180 dead frames of 1/60 s has DeadTimer exactly 0, which is `≤ 0`,
yet is not flagged for destruction; the same after 3 dead frames of 1 s. -/
theorem C3_counterexample :
    ({ Player.fresh with Dead := true }.run
        (List.replicate 180 (Frame.quiet (1/60)))).DeadTimer ≤ 0 ∧
    ({ Player.fresh with Dead := true }.run
        (List.replicate 180 (Frame.quiet (1/60)))).Destroy = false ∧
    ({ Player.fresh with Dead := true }.run
        (List.replicate 3 (Frame.quiet 1))).DeadTimer ≤ 0 ∧
    ({ Player.fresh with Dead := true }.run
        (List.replicate 3 (Frame.quiet 1))).Destroy = false := by
  have a := Player.run_replicate_quiet_dead (1/60) (by norm_num) 180
    { Player.fresh with Dead := true } rfl rfl
  have b := Player.run_replicate_quiet_dead 1 (by norm_num) 3
    { Player.fresh with Dead := true } rfl rfl
  refine ⟨?_, ?_, ?_, ?_⟩
  · rw [a.1]; norm_num [Player.fresh]
  · rw [Bool.eq_false_iff, ne_eq, a.2]; norm_num [Player.fresh]
  · rw [b.1]; norm_num [Player.fresh]
  · rw [Bool.eq_false_iff, ne_eq, b.2]; norm_num [Player.fresh]

/-- C3 (amended): while the player is Dead, `Player::Update` subtracts Δt from
DeadTimer and raises the Destroy flag exactly when the decremented DeadTimer is
strictly negative.  Over dead frames of constant Δt ≥ 0, starting unflagged, the
flag is up after `n` frames exactly when `n ≥ 1` and `DeadTimer - n·Δt < 0`;
from DeadTimer 3 with Δt = 1/60 that is exactly when `n ≥ 181`. -/
theorem C3_destroy_when_timer_negative (p : Player) (hp : p.Dead = true)
    (hD : p.Destroy = false) (d : ℚ) (hd : 0 ≤ d) (fs : List Frame)
    (hfs : ∀ f ∈ fs, f.Deltatime = d) :
    (∀ f : Frame, (p.Update f).1.DeadTimer = p.DeadTimer - f.Deltatime ∧
      ((p.Update f).1.Destroy = true ↔ p.DeadTimer - f.Deltatime < 0)) ∧
    (p.run fs).DeadTimer = p.DeadTimer - fs.length * d ∧
    ((p.run fs).Destroy = true ↔ (fs ≠ [] ∧ p.DeadTimer - fs.length * d < 0)) ∧
    (p.DeadTimer = 3 → d = 1/60 → ((p.run fs).Destroy = true ↔ 181 ≤ fs.length)) := by
  obtain ⟨-, h2, h3⟩ := Player.run_dead d hd fs p hp hfs
  simp only [hD, Bool.false_eq_true, false_or] at h3
  refine ⟨fun f => ?_, h2, h3, fun hT hd60 => ?_⟩
  · rw [Player.Update_of_Dead p f hp]
    simp only [hD, true_and]
    split_ifs with h <;> simp [h]
  · rw [h3, hT, hd60]
    constructor
    · rintro ⟨-, h⟩
      have : (180 : ℚ) < fs.length := by linarith
      exact_mod_cast this
    · intro h
      have h' : (181 : ℚ) ≤ fs.length := by exact_mod_cast h
      refine ⟨?_, by linarith⟩
      rintro rfl
      simp at h

/-- Witness of C3 (amended): the just-killed fresh player over 181 quiet frames
of 1/60 s. -/
theorem C3_destroy_when_timer_negative_witness :
    ({ Player.fresh with Dead := true }.run
        (List.replicate 181 (Frame.quiet (1/60)))).Destroy = true :=
  ((C3_destroy_when_timer_negative { Player.fresh with Dead := true } rfl rfl (1/60)
    (by norm_num) (List.replicate 181 (Frame.quiet (1/60)))
    (fun f hf => by rw [List.eq_of_mem_replicate hf]; rfl)).2.2.2 rfl rfl).2
    (le_of_eq (List.length_replicate _ _).symm)

/-- C4: for a Dead player and any inputs and collision event, `Player::Update`
leaves every field but DeadTimer and Destroy as it was (Health, HasGun,
Velocity, position, camera rotation, body rotation targets, both gun
cooldowns, charState, blendAmount among them); DeadTimer loses Δt, the Destroy
flag can only be raised, no bullet is spawned, no playback command is issued
and the collided object is not touched. -/
theorem C4_dead_frame_effect (p : Player) (f : Frame) (h : p.Dead = true) :
    (p.Update f).1 =
      { p with DeadTimer := p.DeadTimer - f.Deltatime,
               Destroy := (p.Update f).1.Destroy } ∧
    (p.Destroy = true → (p.Update f).1.Destroy = true) ∧
    (p.Update f).1.Health = p.Health ∧ (p.Update f).1.HasGun = p.HasGun ∧
    (p.Update f).1.Velocity = p.Velocity ∧ (p.Update f).1.wPosition = p.wPosition ∧
    (p.Update f).1.CamArea_wRotation = p.CamArea_wRotation ∧
    (p.Update f).1.BODY_RotProbe_TargetRot = p.BODY_RotProbe_TargetRot ∧
    (p.Update f).1.BODY_TargetRot = p.BODY_TargetRot ∧
    (p.Update f).1.Gun_Cooldown = p.Gun_Cooldown ∧
    (p.Update f).1.Gun_AnimCooldown = p.Gun_AnimCooldown ∧
    (p.Update f).1.charState = p.charState ∧
    (p.Update f).1.blendAmount = p.blendAmount ∧
    (p.Update f).2.bullets = [] ∧ (p.Update f).2.plays = [] ∧
    (p.Update f).2.Other = f.Other := by
  rw [Player.Update_of_Dead p f h]
  refine ⟨rfl, ?_, rfl, rfl, rfl, rfl, rfl, rfl, rfl, rfl, rfl, rfl, rfl, rfl, rfl, rfl⟩
  intro hD
  simp [hD]

/-- Witness of C4: the just-killed fresh player in a frame with the attack key
held. -/
theorem C4_dead_frame_effect_witness :
    ({ Player.fresh with Dead := true }.Update (Frame.attack (1/60))).1.Health = 3 ∧
    ({ Player.fresh with Dead := true }.Update (Frame.attack (1/60))).2.bullets = [] :=
  ⟨(C4_dead_frame_effect { Player.fresh with Dead := true } (Frame.attack (1/60)) rfl).2.2.1,
   (C4_dead_frame_effect { Player.fresh with Dead := true }
      (Frame.attack (1/60)) rfl).2.2.2.2.2.2.2.2.2.2.2.2.2.1⟩

end BPlayer

namespace BPlayer

/-! ## Velocity, pitch and blend bounds -/

theorem B_clamp_mem (x lo hi : ℚ) (h : lo ≤ hi) :
    lo ≤ B_clamp x lo hi ∧ B_clamp x lo hi ≤ hi := by
  unfold B_clamp
  split_ifs with h1 h2
  · exact ⟨le_refl _, h⟩
  · exact ⟨h, le_refl _⟩
  · exact ⟨not_lt.mp h1, not_lt.mp h2⟩

/-- Damping a component of magnitude at most `m` by a factor `t` in `[0, 2]`
keeps its magnitude at most `m`. -/
theorem abs_lerp_zero_le (c m t : ℚ) (hc : |c| ≤ m) (h0 : 0 ≤ t) (h2 : t ≤ 2) :
    |c + (0 - c) * t| ≤ m := by
  have e : c + (0 - c) * t = c * (1 - t) := by ring
  rw [e, abs_mul]
  have h1 : |1 - t| ≤ 1 := by rw [abs_le]; constructor <;> linarith
  calc |c| * |1 - t| ≤ |c| * 1 := mul_le_mul_of_nonneg_left h1 (abs_nonneg c)
    _ = |c| := mul_one _
    _ ≤ m := hc

namespace Player

/-- The velocity after the integration block: each component clamped to
`[-5, 5]` and then damped by `Deltatime * 4`. -/
theorem integrate_Velocity (p : Player) (f : Frame) :
    (integrate p f).Velocity =
      B_lerpVec3 ⟨B_clamp p.Velocity.x (-5) 5, B_clamp p.Velocity.y (-5) 5,
        B_clamp p.Velocity.z (-5) 5⟩ Vec3.zero (f.Deltatime * 4) := rfl

theorem Update_Behavior_Velocity (p : Player) (f : Frame) :
    (Update_Behavior p f).1.Velocity =
      B_lerpVec3 ⟨B_clamp (preVelocity p f).x (-5) 5, B_clamp (preVelocity p f).y (-5) 5,
        B_clamp (preVelocity p f).z (-5) 5⟩ Vec3.zero (f.Deltatime * 4) := by
  simp [Update_Behavior, integrate_Velocity, preVelocity]

theorem Update_Behavior_pitch (p : Player) (f : Frame) :
    -90 ≤ (Update_Behavior p f).1.CamArea_wRotation.x ∧
    (Update_Behavior p f).1.CamArea_wRotation.x ≤ 90 := by
  simp only [Update_Behavior, cheatF_CamArea_wRotation, collide_CamArea_wRotation,
    rotate_CamArea_wRotation]
  exact B_clamp_mem _ _ _ (by norm_num)

end Player

/-- C5 (as stated) fails: a player moving at Velocity (5, 0, 0) that lives a
frame of Δt = 1 with no key pressed leaves `Update_Behavior` with
Velocity.x = -15. -/
theorem C5_counterexample :
    ({ Player.fresh with Velocity := ⟨5, 0, 0⟩ }.Update_Behavior (Frame.quiet 1)).1.Velocity.x
      = -15 ∧
    ¬ |({ Player.fresh with Velocity := ⟨5, 0, 0⟩ }.Update_Behavior
        (Frame.quiet 1)).1.Velocity.x| ≤ 5 := by
  have e : ({ Player.fresh with Velocity := ⟨5, 0, 0⟩ }.Update_Behavior
      (Frame.quiet 1)).1.Velocity.x = -15 := by
    rw [Player.Update_Behavior_Velocity]
    norm_num [Player.preVelocity, Player.beginFrame, Player.fireOrMove, Player.move,
      Player.fly, Player.arrows, Player.Controls_Update, Frame.quiet, Player.fresh,
      B_lerpVec3, B_clamp, Vec3.add, Vec3.sub, Vec3.smul, Vec3.zero]
  rw [e]
  norm_num

/-- C5 (amended): for every prior state, every key combination and every Δt
with `0 ≤ Δt ≤ 1/2`, each of |Velocity.x|, |Velocity.y|, |Velocity.z| is at most 5
after `Update_Behavior`. -/
theorem C5_velocity_bounded (p : Player) (f : Frame) (h0 : 0 ≤ f.Deltatime)
    (h1 : f.Deltatime ≤ 1 / 2) :
    |(p.Update_Behavior f).1.Velocity.x| ≤ 5 ∧ |(p.Update_Behavior f).1.Velocity.y| ≤ 5 ∧
    |(p.Update_Behavior f).1.Velocity.z| ≤ 5 := by
  rw [Player.Update_Behavior_Velocity]
  have ht0 : 0 ≤ f.Deltatime * 4 := by linarith
  have ht2 : f.Deltatime * 4 ≤ 2 := by linarith
  have hc : ∀ x : ℚ, |B_clamp x (-5) 5| ≤ 5 := fun x =>
    abs_le.mpr (B_clamp_mem x (-5) 5 (by norm_num))
  simp only [B_lerpVec3, Vec3.add, Vec3.sub, Vec3.smul, Vec3.zero]
  exact ⟨abs_lerp_zero_le _ 5 _ (hc _) ht0 ht2, abs_lerp_zero_le _ 5 _ (hc _) ht0 ht2,
    abs_lerp_zero_le _ 5 _ (hc _) ht0 ht2⟩

/-- Witness of C5 (amended): the fast player of the counterexample in a frame of
1/60 s. -/
theorem C5_velocity_bounded_witness :
    |({ Player.fresh with Velocity := ⟨5, 0, 0⟩ }.Update_Behavior
        (Frame.quiet (1/60))).1.Velocity.x| ≤ 5 :=
  (C5_velocity_bounded { Player.fresh with Velocity := ⟨5, 0, 0⟩ } (Frame.quiet (1/60))
    (by norm_num [Frame.quiet]) (by norm_num [Frame.quiet])).1

namespace Player

theorem Update_pitch (p : Player) (f : Frame)
    (h : -90 ≤ p.CamArea_wRotation.x ∧ p.CamArea_wRotation.x ≤ 90) :
    -90 ≤ (p.Update f).1.CamArea_wRotation.x ∧ (p.Update f).1.CamArea_wRotation.x ≤ 90 := by
  cases hd : p.Dead
  · rw [(Update_of_alive p f hd).1]
    exact Update_Behavior_pitch _ f
  · rw [Update_of_Dead p f hd]
    exact h

theorem run_pitch (fs : List Frame) : ∀ p : Player,
    (-90 ≤ p.CamArea_wRotation.x ∧ p.CamArea_wRotation.x ≤ 90) →
    -90 ≤ (p.run fs).CamArea_wRotation.x ∧ (p.run fs).CamArea_wRotation.x ≤ 90 := by
  induction fs with
  | nil => intro p h; exact h
  | cons f fs ih => intro p h; exact ih _ (Update_pitch p f h)

end Player

/-- C6: from an initial player (pitch 0), after any sequence of frames with
arbitrary inputs (recoil values, arrow keys, mouse motion, collisions), the
pitch `CamArea.wRotation.x` lies in `[-90, 90]`; moreover a living player's
`Update_Behavior` leaves the pitch in `[-90, 90]` whatever it was before. -/
theorem C6_pitch_clamped (p : Player) (h : p.Initial) (fs : List Frame) :
    (-90 ≤ (p.run fs).CamArea_wRotation.x ∧ (p.run fs).CamArea_wRotation.x ≤ 90) ∧
    ∀ (q : Player) (f : Frame), -90 ≤ (q.Update_Behavior f).1.CamArea_wRotation.x ∧
      (q.Update_Behavior f).1.CamArea_wRotation.x ≤ 90 := by
  refine ⟨Player.run_pitch fs p ?_, Player.Update_Behavior_pitch⟩
  have e : p.CamArea_wRotation = Vec3.zero := h.2.2.2.2.2.2.2.2.2.2.2.2.2.2.2.2.1
  rw [e]
  norm_num [Vec3.zero]

end BPlayer

namespace BPlayer

/-- Witness of C6: a fresh player whose mouse is pulled by 100000 units in one
frame. -/
theorem C6_pitch_clamped_witness :
    Player.fresh.Initial ∧
    -90 ≤ (Player.fresh.run
      [{ Frame.quiet (1/60) with mousePosChange := (0, 100000) }]).CamArea_wRotation.x ∧
    (Player.fresh.run
      [{ Frame.quiet (1/60) with mousePosChange := (0, 100000) }]).CamArea_wRotation.x ≤ 90 :=
  ⟨Player.fresh_Initial, (C6_pitch_clamped Player.fresh Player.fresh_Initial _).1⟩

namespace Player

/-- One blending branch keeps `blendAmount` between 0 and 9/10. -/
theorem blendStep_blendAmount (p : Player) (f : Frame) (a b : Clip) (next : AnimState)
    (hdt : 0 ≤ f.Deltatime) (h0 : 0 ≤ p.blendAmount) :
    0 ≤ (blendStep p f a b next).1.blendAmount ∧
    (blendStep p f a b next).1.blendAmount ≤ 9 / 10 := by
  unfold blendStep
  simp only []
  split_ifs with h
  · norm_num
  · show 0 ≤ p.blendAmount + f.Deltatime * 4 ∧ p.blendAmount + f.Deltatime * 4 ≤ 9 / 10
    exact ⟨by linarith, not_lt.mp h⟩

@[simp] theorem selectClips_blendAmount (p : Player) :
    (selectClips p).blendAmount = p.blendAmount := by
  unfold selectClips
  split_ifs <;> rfl

theorem Animate_blendAmount (p : Player) (f : Frame) (hdt : 0 ≤ f.Deltatime)
    (h0 : 0 ≤ p.blendAmount) (h1 : p.blendAmount ≤ 1) :
    0 ≤ (Animate p f).1.blendAmount ∧ (Animate p f).1.blendAmount ≤ 1 := by
  have hs0 : 0 ≤ (selectClips p).blendAmount := by simpa using h0
  have hs1 : (selectClips p).blendAmount ≤ 1 := by simpa using h1
  have key : ∀ a b next, 0 ≤ (blendStep (selectClips p) f a b next).1.blendAmount ∧
      (blendStep (selectClips p) f a b next).1.blendAmount ≤ 1 := fun a b next =>
    ⟨(blendStep_blendAmount _ f a b next hdt hs0).1,
      le_trans (blendStep_blendAmount _ f a b next hdt hs0).2 (by norm_num)⟩
  simp only [Animate, animSwitch]
  split
  · split_ifs
    · norm_num
    · norm_num
    · norm_num
    · exact ⟨hs0, hs1⟩
  · exact key _ _ _
  · split_ifs <;> exact ⟨hs0, hs1⟩
  · exact key _ _ _
  · exact key _ _ _
  · split_ifs
    · exact key _ _ _
    · exact ⟨hs0, hs1⟩
  · exact key _ _ _
  · split_ifs
    · exact key _ _ _
    · exact ⟨hs0, hs1⟩

theorem Update_Behavior_blendAmount (p : Player) (f : Frame) :
    (Update_Behavior p f).1.blendAmount = p.blendAmount := by
  simp [Update_Behavior]

theorem Update_blendAmount (p : Player) (f : Frame) (hdt : 0 ≤ f.Deltatime)
    (h : 0 ≤ p.blendAmount ∧ p.blendAmount ≤ 1) :
    0 ≤ (p.Update f).1.blendAmount ∧ (p.Update f).1.blendAmount ≤ 1 := by
  cases hd : p.Dead
  · rw [(Update_of_alive p f hd).1, Update_Behavior_blendAmount]
    exact Animate_blendAmount p f hdt h.1 h.2
  · rw [Update_of_Dead p f hd]
    exact h

theorem run_blendAmount (fs : List Frame) : ∀ p : Player,
    (∀ f ∈ fs, 0 ≤ f.Deltatime) → (0 ≤ p.blendAmount ∧ p.blendAmount ≤ 1) →
    0 ≤ (p.run fs).blendAmount ∧ (p.run fs).blendAmount ≤ 1 := by
  induction fs with
  | nil => intro p _ h; exact h
  | cons f fs ih =>
    intro p hfs h
    exact ih _ (fun g hg => hfs g (List.mem_cons_of_mem _ hg))
      (Update_blendAmount p f (hfs f (List.mem_cons_self _ _)) h)

end Player

/-- C7: for every AnimState, input and Δt ≥ 0, a call of `Animate` on a player
with blendAmount in `[0, 1]` leaves blendAmount in `[0, 1]`; hence, from an
initial player (IDLE, blendAmount 0), blendAmount is in `[0, 1]` after every
frame of any sequence of frames with Δt ≥ 0. -/
theorem C7_blendAmount_unit_interval (p : Player) (f : Frame) (hdt : 0 ≤ f.Deltatime)
    (h0 : 0 ≤ p.blendAmount) (h1 : p.blendAmount ≤ 1)
    (q : Player) (hq : q.Initial) (fs : List Frame) (hfs : ∀ g ∈ fs, 0 ≤ g.Deltatime) :
    (0 ≤ (p.Animate f).1.blendAmount ∧ (p.Animate f).1.blendAmount ≤ 1) ∧
    (0 ≤ (q.run fs).blendAmount ∧ (q.run fs).blendAmount ≤ 1) := by
  refine ⟨Player.Animate_blendAmount p f hdt h0 h1, Player.run_blendAmount fs q hfs ?_⟩
  have e : q.blendAmount = 0 := hq.2.2.2.2.2.2.2.2.1
  rw [e]
  norm_num

/-- Witness of C7: a player half-way through the idle-to-walk blend, and a
fresh player over two quiet frames. -/
theorem C7_blendAmount_unit_interval_witness :
    (0 ≤ ({ Player.fresh with charState := AnimState.IDLE_WALK, blendAmount := 1/2 }.Animate
        (Frame.quiet (1/60))).1.blendAmount ∧
     ({ Player.fresh with charState := AnimState.IDLE_WALK, blendAmount := 1/2 }.Animate
        (Frame.quiet (1/60))).1.blendAmount ≤ 1) ∧
    (0 ≤ (Player.fresh.run [Frame.quiet (1/60), Frame.quiet (1/60)]).blendAmount ∧
     (Player.fresh.run [Frame.quiet (1/60), Frame.quiet (1/60)]).blendAmount ≤ 1) :=
  C7_blendAmount_unit_interval
    { Player.fresh with charState := AnimState.IDLE_WALK, blendAmount := 1/2 }
    (Frame.quiet (1/60)) (by norm_num [Frame.quiet]) (by norm_num) (by norm_num)
    Player.fresh Player.fresh_Initial [Frame.quiet (1/60), Frame.quiet (1/60)]
    (by intro g hg; simp at hg; rw [hg]; norm_num [Frame.quiet])

end BPlayer

namespace BPlayer

/-! ## Firing rate -/

namespace Player

theorem move_Gun_Cooldown (p : Player) (f : Frame) :
    (move p f).Gun_Cooldown = p.Gun_Cooldown := by
  unfold move
  simp only []
  split_ifs <;> rfl

/-- The firing block either spawns one bullet, which needs `Gun_Cooldown` above
`Gun_CooldownMax` and resets it to 0, or spawns none and leaves `Gun_Cooldown`
alone. -/
theorem fireOrMove_spawn (p : Player) (f : Frame) :
    ((fireOrMove p f).2.length = 1 ∧ (fireOrMove p f).1.Gun_Cooldown = 0 ∧
      Gun_CooldownMax < p.Gun_Cooldown ∧ p.Controls.ATK_1 = true ∧ p.HasGun = true) ∨
    ((fireOrMove p f).2 = [] ∧ (fireOrMove p f).1.Gun_Cooldown = p.Gun_Cooldown) := by
  unfold fireOrMove fire
  simp only []
  split_ifs with h1 h2 h3
  · left
    simp only [Bool.and_eq_true] at h1
    exact ⟨rfl, rfl, h2, h1.1, h1.2⟩
  · right; exact ⟨rfl, rfl⟩
  · right; exact ⟨rfl, move_Gun_Cooldown p f⟩
  · right; exact ⟨rfl, rfl⟩

/-- One frame of `Player::Update` either spawns one bullet, which needs the
accumulated `Gun_Cooldown` above `Gun_CooldownMax`, the attack control and the
gun, and resets `Gun_Cooldown` to 0; or it spawns none, and `Gun_Cooldown` has
grown by `Deltatime` (living player) or stayed (dead player). -/
theorem Update_spawn (p : Player) (f : Frame) :
    ((p.Update f).2.bullets.length = 1 ∧ (p.Update f).1.Gun_Cooldown = 0 ∧
      Gun_CooldownMax < p.Gun_Cooldown + f.Deltatime ∧
      (f.KEY_N || f.MOUSE_BUTTON_1) = true ∧ p.HasGun = true ∧ p.Dead = false) ∨
    ((p.Update f).2.bullets = [] ∧
      ((p.Update f).1.Gun_Cooldown = p.Gun_Cooldown + f.Deltatime ∨
       (p.Update f).1.Gun_Cooldown = p.Gun_Cooldown)) := by
  cases hd : p.Dead
  · obtain ⟨e1, e2, -⟩ := Update_of_alive p f hd
    rw [e1, e2]
    have hb : (Update_Behavior (Animate p f).1 f).2.bullets =
        (fireOrMove (beginFrame (Animate p f).1 f) f).2 := rfl
    have hc : (Update_Behavior (Animate p f).1 f).1.Gun_Cooldown =
        (fireOrMove (beginFrame (Animate p f).1 f) f).1.Gun_Cooldown := by
      simp [Update_Behavior]
    have hg : (beginFrame (Animate p f).1 f).Gun_Cooldown = p.Gun_Cooldown + f.Deltatime := by
      show (Animate p f).1.Gun_Cooldown + f.Deltatime = _
      rw [Animate_Gun_Cooldown]
    have ha : (beginFrame (Animate p f).1 f).Controls.ATK_1 = (f.KEY_N || f.MOUSE_BUTTON_1) := rfl
    have hh : (beginFrame (Animate p f).1 f).HasGun = p.HasGun := by
      rw [beginFrame_HasGun, Animate_HasGun]
    rw [hb, hc]
    rcases fireOrMove_spawn (beginFrame (Animate p f).1 f) f with ⟨a, b, c, d, e⟩ | ⟨a, b⟩
    · left
      rw [hg] at c
      rw [ha] at d
      rw [hh] at e
      exact ⟨a, b, c, d, e, rfl⟩
    · right
      rw [hg] at b
      exact ⟨a, Or.inl b⟩
  · rw [Update_of_Dead p f hd]
    right
    exact ⟨rfl, Or.inr rfl⟩

theorem wallTime_cons (f : Frame) (fs : List Frame) :
    wallTime (f :: fs) = f.Deltatime + wallTime fs := by
  simp [wallTime]

/-- Each bullet costs more than `Gun_CooldownMax` of accumulated time: the
bullets of a run, times 1/10 s, fit into the wall time of the run plus the
cooldown accumulated before it. -/
theorem bulletsSpawned_mul_le (fs : List Frame) : ∀ p : Player,
    (∀ f ∈ fs, 0 ≤ f.Deltatime) →
    (p.bulletsSpawned fs : ℚ) * (1 / 10) ≤ wallTime fs + max p.Gun_Cooldown 0 := by
  induction fs with
  | nil => intro p _; simp [bulletsSpawned, wallTime]
  | cons f fs ih =>
    intro p hfs
    have hf : 0 ≤ f.Deltatime := hfs f (List.mem_cons_self _ _)
    have ih' := ih (p.Update f).1 (fun g hg => hfs g (List.mem_cons_of_mem _ hg))
    have hm : p.Gun_Cooldown ≤ max p.Gun_Cooldown 0 := le_max_left _ _
    have hm0 : (0 : ℚ) ≤ max p.Gun_Cooldown 0 := le_max_right _ _
    rw [wallTime_cons]
    simp only [bulletsSpawned, Nat.cast_add]
    rcases Update_spawn p f with ⟨a, b, c, -⟩ | ⟨a, b | b⟩
    · rw [b] at ih'
      rw [a]
      simp only [max_self, add_zero, Nat.cast_one] at ih' ⊢
      unfold Gun_CooldownMax at c
      linarith
    · rw [b] at ih'
      rw [a]
      have : max (p.Gun_Cooldown + f.Deltatime) 0 ≤ max p.Gun_Cooldown 0 + f.Deltatime :=
        max_le (by linarith) (by linarith)
      simp only [List.length_nil, Nat.cast_zero, zero_add] at ih' ⊢
      linarith
    · rw [b] at ih'
      rw [a]
      simp only [List.length_nil, Nat.cast_zero, zero_add] at ih' ⊢
      linarith

theorem bulletsSpawned_le (fs : List Frame) : ∀ p : Player,
    (∀ f ∈ fs, 0 ≤ f.Deltatime) →
    p.bulletsSpawned fs ≤ ⌈wallTime fs / Gun_CooldownMax⌉₊ + 1 := by
  induction fs with
  | nil => intro p _; simp [bulletsSpawned]
  | cons f fs ih =>
    intro p hfs
    have hf : 0 ≤ f.Deltatime := hfs f (List.mem_cons_self _ _)
    have hrest : ∀ g ∈ fs, 0 ≤ g.Deltatime := fun g hg => hfs g (List.mem_cons_of_mem _ hg)
    have hW : wallTime fs / Gun_CooldownMax ≤ wallTime (f :: fs) / Gun_CooldownMax := by
      rw [wallTime_cons]
      unfold Gun_CooldownMax
      linarith
    simp only [bulletsSpawned]
    rcases Update_spawn p f with ⟨a, b, -⟩ | ⟨a, -⟩
    · have h := bulletsSpawned_mul_le fs (p.Update f).1 hrest
      rw [b] at h
      simp only [max_self, add_zero] at h
      have h2 : ((p.Update f).1.bulletsSpawned fs : ℚ) ≤ wallTime (f :: fs) / Gun_CooldownMax := by
        refine le_trans ?_ hW
        unfold Gun_CooldownMax
        linarith
      have h3 : (p.Update f).1.bulletsSpawned fs ≤ ⌈wallTime (f :: fs) / Gun_CooldownMax⌉₊ :=
        Nat.cast_le.mp (le_trans h2 (Nat.le_ceil _))
      rw [a]
      omega
    · rw [a]
      have h := ih (p.Update f).1 hrest
      have h4 := Nat.ceil_mono hW
      simp only [List.length_nil, zero_add]
      omega

end Player

/-- C8: over any run of consecutive frames with Δt ≥ 0, from any player state
and whatever the keys are (in particular with ATK held and HasGun true), the
number of bullets spawned is at most `⌈W / 0.1⌉ + 1`, `W` being the sum of the
Δt of the run.  A frame spawns at most one bullet, and only with the attack
control active, the gun in hand and `Gun_Cooldown`, accumulated since it was
last reset, above 0.1; the spawn resets `Gun_Cooldown` to 0. -/
theorem C8_firing_rate (p : Player) (fs : List Frame) (hfs : ∀ f ∈ fs, 0 ≤ f.Deltatime) :
    p.bulletsSpawned fs ≤ ⌈wallTime fs / Player.Gun_CooldownMax⌉₊ + 1 ∧
    ∀ f : Frame, (p.Update f).2.bullets.length ≤ 1 ∧
      ((p.Update f).2.bullets ≠ [] →
        (f.KEY_N || f.MOUSE_BUTTON_1) = true ∧ p.HasGun = true ∧
        Player.Gun_CooldownMax < p.Gun_Cooldown + f.Deltatime ∧
        (p.Update f).1.Gun_Cooldown = 0) := by
  refine ⟨Player.bulletsSpawned_le fs p hfs, fun f => ?_⟩
  rcases Player.Update_spawn p f with ⟨a, b, c, d, e, -⟩ | ⟨a, -⟩
  · exact ⟨le_of_eq a, fun _ => ⟨d, e, c, b⟩⟩
  · rw [a]
    exact ⟨Nat.zero_le _, fun h => absurd rfl h⟩

/-- Witness of C8: a fresh player that has picked up the gun and holds the
attack key for three frames of 1/60 s. -/
theorem C8_firing_rate_witness :
    { Player.fresh with HasGun := true }.bulletsSpawned
        (List.replicate 3 (Frame.attack (1/60))) ≤
      ⌈wallTime (List.replicate 3 (Frame.attack (1/60))) / Player.Gun_CooldownMax⌉₊ + 1 :=
  (C8_firing_rate { Player.fresh with HasGun := true }
    (List.replicate 3 (Frame.attack (1/60)))
    (fun f hf => by rw [List.eq_of_mem_replicate hf]; norm_num [Frame.attack, Frame.quiet])).1

end BPlayer

namespace BPlayer

/-! ## Bullet lifetime -/

namespace Bullet

/-- After `n` frames of constant length `d ≥ 0` the lifespan has lost `n * d`,
and the bullet is flagged exactly when it was flagged before or the lifespan
has become negative. -/
theorem frames_spec (b : Bullet) (d : ℚ) (hd : 0 ≤ d) (fwd : Vec3) (n : Nat) :
    (b.frames d fwd n).lifespan = b.lifespan - n * d ∧
    ((b.frames d fwd n).Destroy = true ↔
      b.Destroy = true ∨ (n ≠ 0 ∧ b.lifespan - n * d < 0)) := by
  induction n with
  | zero => simp [frames]
  | succ n ih =>
    obtain ⟨i1, i2⟩ := ih
    have hn : (0 : ℚ) ≤ n * d := mul_nonneg (Nat.cast_nonneg _) hd
    have e : b.lifespan - n * d - d = b.lifespan - ((n : ℚ) + 1) * d := by ring
    simp only [frames, Update, Nat.cast_add, Nat.cast_one, i1, e]
    split_ifs with h
    · simp [h]
    · refine ⟨rfl, ?_⟩
      show (b.frames d fwd n).Destroy = true ↔ _
      rw [i2]
      constructor
      · rintro (h1 | ⟨-, h1⟩)
        · left; exact h1
        · exfalso; apply h; linarith
      · rintro (h1 | ⟨-, h1⟩)
        · left; exact h1
        · exact absurd h1 h

/-- In the exact arithmetic of the embedding, a freshly spawned bullet is flagged
after `n` frames of constant length `d > 0` exactly when `n` exceeds
`0.64 / d`. -/
theorem spawn_frames_Destroy (pos fwd : Vec3) (d : ℚ) (hd : 0 < d) (n : Nat) :
    ((spawn pos).frames d fwd n).Destroy = true ↔ ⌊(64 / 100 : ℚ) / d⌋₊ + 1 ≤ n := by
  rw [(frames_spec (spawn pos) d hd.le fwd n).2]
  have h64 : (0 : ℚ) ≤ 64 / 100 / d := by positivity
  rw [Nat.add_one_le_iff, Nat.floor_lt h64, div_lt_iff₀ hd]
  simp only [spawn, Bool.false_eq_true, false_or]
  constructor
  · rintro ⟨-, h⟩; linarith
  · intro h
    refine ⟨?_, by linarith⟩
    rintro rfl
    norm_num at h

end Bullet

/-- C9 (as stated) fails: with Δt = 0.32 the bound `⌈0.64 / Δt⌉` is 2, but a
freshly spawned bullet that never collides is not flagged for destruction
after 0, 1 or 2 frames (its lifespan is exactly 0 after the second). -/
theorem C9_counterexample :
    ⌈(64 / 100 : ℚ) / (8 / 25)⌉₊ = 2 ∧
    ((Bullet.spawn Vec3.zero).frames (8 / 25) ⟨0, 0, 1⟩ 0).Destroy = false ∧
    ((Bullet.spawn Vec3.zero).frames (8 / 25) ⟨0, 0, 1⟩ 1).Destroy = false ∧
    ((Bullet.spawn Vec3.zero).frames (8 / 25) ⟨0, 0, 1⟩ 2).Destroy = false ∧
    ((Bullet.spawn Vec3.zero).frames (8 / 25) ⟨0, 0, 1⟩ 2).lifespan = 0 := by
  have e : (64 / 100 : ℚ) / (8 / 25) = ((2 : ℕ) : ℚ) := by norm_num
  have key : ∀ n : Nat, n ≤ 2 →
      ((Bullet.spawn Vec3.zero).frames (8 / 25) ⟨0, 0, 1⟩ n).Destroy = false := by
    intro n hn
    rw [Bool.eq_false_iff, ne_eq, Bullet.spawn_frames_Destroy _ _ _ (by norm_num)]
    rw [e, Nat.floor_natCast]
    omega
  refine ⟨?_, key 0 (by omega), key 1 (by omega), key 2 (by omega), ?_⟩
  · rw [e, Nat.ceil_natCast]
  · rw [(Bullet.frames_spec _ _ (by norm_num) _ 2).1]
    norm_num [Bullet.spawn]

/-- C9 (amended): for every constant Δt > 0, a freshly spawned Bullet
(lifespan 0.64) that never collides has its Destroy flag set by
`Bullet::Update` within `⌈0.64 / Δt⌉ + 1` frames of spawn: the flag is set after
that many frames and after every larger number of frames. -/
theorem C9_bullet_expires_within (pos fwd : Vec3) (d : ℚ) (hd : 0 < d) :
    ((Bullet.spawn pos).frames d fwd (⌈(64 / 100 : ℚ) / d⌉₊ + 1)).Destroy = true ∧
    ∀ n : Nat, ⌈(64 / 100 : ℚ) / d⌉₊ + 1 ≤ n →
      ((Bullet.spawn pos).frames d fwd n).Destroy = true :=
  ⟨(Bullet.spawn_frames_Destroy pos fwd d hd _).mpr
      (Nat.succ_le_succ (Nat.floor_le_ceil _)),
   fun n hn => (Bullet.spawn_frames_Destroy pos fwd d hd n).mpr
      (le_trans (Nat.succ_le_succ (Nat.floor_le_ceil _)) hn)⟩

/-- Witness of C9 (amended): at 60 frames per second. -/
theorem C9_bullet_expires_within_witness :
    ((Bullet.spawn Vec3.zero).frames (1 / 60) ⟨0, 0, 1⟩
      (⌈(64 / 100 : ℚ) / (1 / 60)⌉₊ + 1)).Destroy = true :=
  (C9_bullet_expires_within Vec3.zero ⟨0, 0, 1⟩ (1 / 60) (by norm_num)).1

/-! ## Bone attachment -/

/-- C10 (as stated) fails: for the singular model matrix `diag(0, 1, 1, 1)` (a
body scaled to zero along x), identity bone matrix and Gun_OBJ's model matrix
equal to BODY's, the computed `Gun_Matrix` is not BODY's model matrix. -/
theorem C10_counterexample :
    Player.Render_Gun_Matrix (Matrix.diagonal ![0, 1, 1, 1])
      (Matrix.diagonal ![0, 1, 1, 1]) 1 ≠ Matrix.diagonal ![0, 1, 1, 1] := by
  intro h
  have hdet : (Matrix.diagonal ![(0 : ℚ), 1, 1, 1]).det = 0 := by
    rw [Matrix.det_diagonal]
    simp [Fin.prod_univ_succ]
  have h0 : Player.Render_Gun_Matrix (Matrix.diagonal ![0, 1, 1, 1])
      (Matrix.diagonal ![0, 1, 1, 1]) 1 = 0 := by
    simp [Player.Render_Gun_Matrix, glm_inverse, hdet]
  rw [h0] at h
  have h11 := congrFun (congrFun h 1) 1
  simp at h11

/-- C10 (amended): in `Player::Render`, if the final bone matrix of the
RightHand bone is the identity and Gun_OBJ's model matrix equals that of its
parent BODY, then `Gun_Matrix = P · T · inverse(P) · C` equals BODY's model
matrix `P`, for every invertible `P` (non-zero determinant). -/
theorem C10_gun_matrix_identity_bone (P : Mat4) (hP : P.det ≠ 0) (p : Player)
    (hg : p.HasGun = true) :
    Player.Render_Gun_Matrix P P 1 = P ∧ (p.Render P P 1).Gun_Matrix = P := by
  have e : Player.Render_Gun_Matrix P P 1 = P := by
    unfold Player.Render_Gun_Matrix glm_inverse
    simp only [Matrix.mul_one, Matrix.mul_smul, Matrix.mul_adjugate, Matrix.smul_mul,
      Matrix.one_mul, smul_smul]
    rw [one_div, inv_mul_cancel₀ hP, one_smul]
  refine ⟨e, ?_⟩
  unfold Player.Render
  rw [if_pos hg]
  exact e

/-- Witness of C10 (amended): BODY scaled by 2 along every axis. -/
theorem C10_gun_matrix_identity_bone_witness :
    Player.Render_Gun_Matrix (Matrix.diagonal ![2, 2, 2, 1])
      (Matrix.diagonal ![2, 2, 2, 1]) 1 = Matrix.diagonal ![2, 2, 2, 1] :=
  (C10_gun_matrix_identity_bone (Matrix.diagonal ![2, 2, 2, 1])
    (by rw [Matrix.det_diagonal]; simp [Fin.prod_univ_succ])
    { Player.fresh with HasGun := true } rfl).1

end BPlayer

namespace BPlayer

/-! ## More frame lemmas: position, `Input` and the firing-animation lock -/

namespace Player

@[simp] theorem beginFrame_wPosition (p : Player) (f : Frame) :
    (beginFrame p f).wPosition = p.wPosition := rfl

@[simp] theorem fireOrMove_wPosition (p : Player) (f : Frame) :
    (fireOrMove p f).1.wPosition = p.wPosition := by
  unfold fireOrMove fire move
  simp only []
  split_ifs <;> rfl

@[simp] theorem fly_wPosition (p : Player) (f : Frame) :
    (fly p f).wPosition = p.wPosition := by
  unfold fly
  simp only []
  split_ifs <;> rfl

@[simp] theorem fly_Gun_AnimCooldown (p : Player) (f : Frame) :
    (fly p f).Gun_AnimCooldown = p.Gun_AnimCooldown := by
  unfold fly
  simp only []
  split_ifs <;> rfl

@[simp] theorem arrows_wPosition (p : Player) (f : Frame) :
    (arrows p f).wPosition = p.wPosition := by
  unfold arrows
  simp only []
  split_ifs <;> rfl

@[simp] theorem arrows_Input (p : Player) (f : Frame) :
    (arrows p f).Input = p.Input := by
  unfold arrows
  simp only []
  split_ifs <;> rfl

@[simp] theorem arrows_Gun_AnimCooldown (p : Player) (f : Frame) :
    (arrows p f).Gun_AnimCooldown = p.Gun_AnimCooldown := by
  unfold arrows
  simp only []
  split_ifs <;> rfl

@[simp] theorem integrate_Input (p : Player) (f : Frame) :
    (integrate p f).Input = p.Input := rfl

@[simp] theorem integrate_Gun_AnimCooldown (p : Player) (f : Frame) :
    (integrate p f).Gun_AnimCooldown = p.Gun_AnimCooldown := rfl

@[simp] theorem turn_wPosition (p : Player) :
    (turn p).wPosition = p.wPosition := rfl

@[simp] theorem turn_Input (p : Player) :
    (turn p).Input = p.Input := rfl

@[simp] theorem turn_Gun_AnimCooldown (p : Player) :
    (turn p).Gun_AnimCooldown = p.Gun_AnimCooldown := rfl

@[simp] theorem rotate_wPosition (p : Player) (f : Frame) :
    (rotate p f).wPosition = p.wPosition := by
  unfold rotate
  simp only []
  split_ifs <;> rfl

@[simp] theorem rotate_Input (p : Player) (f : Frame) :
    (rotate p f).Input = p.Input := by
  unfold rotate
  simp only []
  split_ifs <;> rfl

@[simp] theorem rotate_Gun_AnimCooldown (p : Player) (f : Frame) :
    (rotate p f).Gun_AnimCooldown = p.Gun_AnimCooldown := by
  unfold rotate
  simp only []
  split_ifs <;> rfl

@[simp] theorem collide_wPosition (p : Player) (f : Frame) :
    (collide p f).1.wPosition = p.wPosition := by
  unfold collide
  cases f.Other.bullet <;> simp only [] <;> split_ifs <;> rfl

@[simp] theorem collide_Input (p : Player) (f : Frame) :
    (collide p f).1.Input = p.Input := by
  unfold collide
  cases f.Other.bullet <;> simp only [] <;> split_ifs <;> rfl

@[simp] theorem collide_Gun_AnimCooldown (p : Player) (f : Frame) :
    (collide p f).1.Gun_AnimCooldown = p.Gun_AnimCooldown := by
  unfold collide
  cases f.Other.bullet <;> simp only [] <;> split_ifs <;> rfl

@[simp] theorem cheatF_wPosition (p : Player) (f : Frame) :
    (cheatF p f).1.wPosition = p.wPosition := by
  unfold cheatF
  split_ifs <;> rfl

@[simp] theorem cheatF_Input (p : Player) (f : Frame) :
    (cheatF p f).1.Input = p.Input := by
  unfold cheatF
  split_ifs <;> rfl

@[simp] theorem cheatF_Gun_AnimCooldown (p : Player) (f : Frame) :
    (cheatF p f).1.Gun_AnimCooldown = p.Gun_AnimCooldown := by
  unfold cheatF
  split_ifs <;> rfl

@[simp] theorem Animate_wPosition (p : Player) (f : Frame) :
    (Animate p f).1.wPosition = p.wPosition := by
  unfold Animate animSwitch blendStep selectClips
  simp only []
  split <;> split_ifs <;> rfl

@[simp] theorem Animate_Input (p : Player) (f : Frame) :
    (Animate p f).1.Input = p.Input := by
  unfold Animate animSwitch blendStep selectClips
  simp only []
  split <;> split_ifs <;> rfl

@[simp] theorem Animate_Gun_AnimCooldown (p : Player) (f : Frame) :
    (Animate p f).1.Gun_AnimCooldown = p.Gun_AnimCooldown := by
  unfold Animate animSwitch blendStep selectClips
  simp only []
  split <;> split_ifs <;> rfl

/-! ## Standing still -/

/-- Without a movement key the movement block changes nothing. -/
theorem move_of_noMove (p : Player) (f : Frame)
    (hW : p.Controls.MOVE_FWD = false) (hS : p.Controls.MOVE_BACK = false)
    (hA : p.Controls.MOVE_LFT = false) (hD : p.Controls.MOVE_RHT = false) :
    move p f = p := by
  unfold move
  simp [hW, hS, hA, hD]

/-- Without a movement key the firing-or-moving block leaves the velocity
alone, whether a bullet is fired or not. -/
theorem fireOrMove_Velocity_of_noMove (p : Player) (f : Frame)
    (hW : p.Controls.MOVE_FWD = false) (hS : p.Controls.MOVE_BACK = false)
    (hA : p.Controls.MOVE_LFT = false) (hD : p.Controls.MOVE_RHT = false) :
    (fireOrMove p f).1.Velocity = p.Velocity := by
  unfold fireOrMove fire
  rw [move_of_noMove p f hW hS hA hD]
  simp only []
  split_ifs <;> rfl

theorem fly_Velocity_of_noFly (p : Player) (f : Frame) (hE : f.KEY_E = false)
    (hQ : f.KEY_Q = false) : (fly p f).Velocity = p.Velocity := by
  unfold fly
  simp [hE, hQ]

/-- With zero velocity before the integration block, velocity and position
come out unchanged. -/
theorem integrate_of_zero (p : Player) (f : Frame) (hv : p.Velocity = Vec3.zero) :
    (integrate p f).Velocity = Vec3.zero ∧ (integrate p f).wPosition = p.wPosition := by
  have h1 : (integrate p f).Velocity = Vec3.zero := by
    rw [integrate_Velocity, hv]
    norm_num [B_lerpVec3, B_clamp, Vec3.add, Vec3.sub, Vec3.smul, Vec3.zero]
  refine ⟨h1, ?_⟩
  show p.wPosition.add ((integrate p f).Velocity.smul f.Deltatime) = p.wPosition
  rw [h1]
  simp [Vec3.add, Vec3.smul, Vec3.zero]

theorem Update_Behavior_wPosition (p : Player) (f : Frame) :
    (Update_Behavior p f).1.wPosition =
      (integrate (arrows (fly (fireOrMove (beginFrame p f) f).1 f) f) f).wPosition := by
  simp [Update_Behavior]

theorem Update_Behavior_Velocity_eq (p : Player) (f : Frame) :
    (Update_Behavior p f).1.Velocity =
      (integrate (arrows (fly (fireOrMove (beginFrame p f) f).1 f) f) f).Velocity := by
  simp [Update_Behavior]

/-- One frame of `Update_Behavior` without movement or flight keys, entered at
rest, ends at rest in the same place. -/
theorem Update_Behavior_still (p : Player) (f : Frame)
    (hW : f.KEY_W = false) (hS : f.KEY_S = false) (hA : f.KEY_A = false)
    (hD : f.KEY_D = false) (hE : f.KEY_E = false) (hQ : f.KEY_Q = false)
    (hv : p.Velocity = Vec3.zero) :
    (Update_Behavior p f).1.Velocity = Vec3.zero ∧
    (Update_Behavior p f).1.wPosition = p.wPosition := by
  have h0 : (arrows (fly (fireOrMove (beginFrame p f) f).1 f) f).Velocity = Vec3.zero := by
    rw [arrows_Velocity, fly_Velocity_of_noFly _ f hE hQ,
      fireOrMove_Velocity_of_noMove _ f hW hS hA hD, beginFrame_Velocity, hv]
  have h1 := integrate_of_zero _ f h0
  rw [Update_Behavior_wPosition, Update_Behavior_Velocity_eq]
  refine ⟨h1.1, ?_⟩
  rw [h1.2]
  simp

theorem Update_still (p : Player) (f : Frame)
    (hW : f.KEY_W = false) (hS : f.KEY_S = false) (hA : f.KEY_A = false)
    (hD : f.KEY_D = false) (hE : f.KEY_E = false) (hQ : f.KEY_Q = false)
    (hv : p.Velocity = Vec3.zero) :
    (p.Update f).1.Velocity = Vec3.zero ∧ (p.Update f).1.wPosition = p.wPosition := by
  cases hd : p.Dead
  · rw [(Update_of_alive p f hd).1]
    have h := Update_Behavior_still (Animate p f).1 f hW hS hA hD hE hQ (by simpa using hv)
    simpa using h
  · rw [Update_of_Dead p f hd]
    exact ⟨hv, rfl⟩

end Player

/-- C11: for every Δt and every number of frames, if no movement key (W, S,
A, D) and no flight key (E, Q) is pressed and Velocity is zero at the start,
then after every frame of `Player::Update` Velocity is zero and the world
position is the starting one, and `Update_Behavior` on one more such frame
leaves Velocity at zero and the position where it was; the attack key need not
even be released. -/
theorem C11_rest_is_invariant (p : Player) (hv : p.Velocity = Vec3.zero) (fs : List Frame)
    (hfs : ∀ f ∈ fs, f.KEY_W = false ∧ f.KEY_S = false ∧ f.KEY_A = false ∧
      f.KEY_D = false ∧ f.KEY_E = false ∧ f.KEY_Q = false)
    (g : Frame) (hg : g.KEY_W = false ∧ g.KEY_S = false ∧ g.KEY_A = false ∧
      g.KEY_D = false ∧ g.KEY_E = false ∧ g.KEY_Q = false) :
    (p.run fs).Velocity = Vec3.zero ∧ (p.run fs).wPosition = p.wPosition ∧
    ((p.run fs).Update_Behavior g).1.Velocity = Vec3.zero ∧
    ((p.run fs).Update_Behavior g).1.wPosition = p.wPosition := by
  have hrun : (p.run fs).Velocity = Vec3.zero ∧ (p.run fs).wPosition = p.wPosition := by
    induction fs generalizing p with
    | nil => exact ⟨hv, rfl⟩
    | cons f fs ih =>
      obtain ⟨a, b, c, d, e, k⟩ := hfs f (List.mem_cons_self _ _)
      have h := Player.Update_still p f a b c d e k hv
      have h2 := ih (p.Update f).1 h.1 (fun g hg => hfs g (List.mem_cons_of_mem _ hg))
      exact ⟨h2.1, by rw [← h.2]; exact h2.2⟩
  obtain ⟨a, b, c, d, e, k⟩ := hg
  have h := Player.Update_Behavior_still (p.run fs) g a b c d e k hrun.1
  exact ⟨hrun.1, hrun.2, h.1, by rw [h.2]; exact hrun.2⟩

/-- Witness of C11: a fresh player through a quiet frame and a frame with the
attack key held, then one more quiet frame. -/
theorem C11_rest_is_invariant_witness :
    (Player.fresh.run [Frame.quiet (1/60), Frame.attack (1/60)]).Velocity = Vec3.zero ∧
    (Player.fresh.run [Frame.quiet (1/60), Frame.attack (1/60)]).wPosition =
      Player.fresh.wPosition ∧
    ((Player.fresh.run [Frame.quiet (1/60), Frame.attack (1/60)]).Update_Behavior
      (Frame.quiet (1/60))).1.Velocity = Vec3.zero ∧
    ((Player.fresh.run [Frame.quiet (1/60), Frame.attack (1/60)]).Update_Behavior
      (Frame.quiet (1/60))).1.wPosition = Player.fresh.wPosition :=
  C11_rest_is_invariant Player.fresh rfl [Frame.quiet (1/60), Frame.attack (1/60)]
    (by intro f hf; simp at hf; rcases hf with rfl | rfl <;> simp [Frame.quiet, Frame.attack])
    (Frame.quiet (1/60)) (by simp [Frame.quiet])

end BPlayer

namespace BPlayer

namespace Player

/-! ## `Animate` as a state machine -/

@[simp] theorem selectClips_charState (p : Player) :
    (selectClips p).charState = p.charState := by
  unfold selectClips
  split_ifs <;> rfl

@[simp] theorem selectClips_Input (p : Player) :
    (selectClips p).Input = p.Input := by
  unfold selectClips
  split_ifs <;> rfl

theorem blendStep_core (p : Player) (f : Frame) (a b : Clip) (next : AnimState) :
    ((blendStep p f a b next).1.charState, (blendStep p f a b next).1.blendAmount) =
      if 9 / 10 < p.blendAmount + f.Deltatime * 4 then (next, 0)
      else (p.charState, p.blendAmount + f.Deltatime * 4) := by
  unfold blendStep
  simp only []
  split_ifs <;> rfl

/-- The projection of `Animate` on `charState` and `blendAmount` is `animNext`. -/
theorem Animate_core (p : Player) (f : Frame) :
    ((Animate p f).1.charState, (Animate p f).1.blendAmount) =
      animNext p.charState p.blendAmount p.Input f.KEY_J f.KEY_K f.Deltatime
        f.m_CurrentTime := by
  have hs := selectClips_charState p
  have hb := selectClips_blendAmount p
  have hi := selectClips_Input p
  have hblend : ∀ (a b : Clip) (next : AnimState),
      (((selectClips p).blendStep f a b next).1.charState,
        ((selectClips p).blendStep f a b next).1.blendAmount) =
      if 9 / 10 < p.blendAmount + f.Deltatime * 4 then (next, 0)
      else (p.charState, p.blendAmount + f.Deltatime * 4) := by
    intro a b next
    rw [blendStep_core, hs, hb]
  simp only [Animate, animSwitch]
  rcases hc : p.charState <;> rw [hc] at hs hblend <;> simp only [hs, animNext]
  case IDLE =>
    rw [hi]
    split_ifs <;> simp [hs, hb, hc]
  case IDLE_PUNCH => exact hblend _ _ _
  case PUNCH_IDLE =>
    by_cases h1 : 7 / 10 < f.m_CurrentTime
    · simp only [if_pos h1]
      exact hblend _ _ _
    · simp only [if_neg h1, hs, hb]
  case IDLE_KICK => exact hblend _ _ _
  case KICK_IDLE =>
    by_cases h1 : 1 < f.m_CurrentTime
    · simp only [if_pos h1]
      exact hblend _ _ _
    · simp only [if_neg h1, hs, hb]
  case IDLE_WALK => exact hblend _ _ _
  case WALK_IDLE => exact hblend _ _ _
  case WALK =>
    rw [hi]
    cases p.Input <;> simp [hs, hb, hc]

theorem Animate_charState (p : Player) (f : Frame) :
    (Animate p f).1.charState =
      (animNext p.charState p.blendAmount p.Input f.KEY_J f.KEY_K f.Deltatime
        f.m_CurrentTime).1 := by
  rw [← Animate_core]

theorem Animate_blendAmount_eq (p : Player) (f : Frame) :
    (Animate p f).1.blendAmount =
      (animNext p.charState p.blendAmount p.Input f.KEY_J f.KEY_K f.Deltatime
        f.m_CurrentTime).2 := by
  rw [← Animate_core]

end Player

end BPlayer

namespace BPlayer

namespace Player

/-! ## Settling to IDLE -/

/-- IDLE is kept as long as there is no input and neither J nor K is pressed. -/
theorem animRun_idle (fs : List Frame) : ∀ p : Player,
    p.charState = AnimState.IDLE → p.Input = false →
    (∀ f ∈ fs, f.KEY_J = false ∧ f.KEY_K = false) →
    (animRun p fs).charState = AnimState.IDLE := by
  induction fs with
  | nil => intro p h _ _; exact h
  | cons f fs ih =>
    intro p hs hi hfs
    obtain ⟨hj, hk⟩ := hfs f (List.mem_cons_self _ _)
    refine ih _ ?_ ?_ (fun g hg => hfs g (List.mem_cons_of_mem _ hg))
    · rw [Animate_charState, hs, hi, hj, hk]
      simp [animNext]
    · rw [Animate_Input, hi]

/-- A blending state `s` with successor `next`: if `m` frames of length `d`
carry the blend amount past 0.9 and `M` frames suffice to settle from `next`
with blend amount 0, then `m + M` frames suffice from `s`. -/
theorem animRun_blend (d : ℚ) (ok : Frame → Prop) (s next : AnimState)
    (M : Nat)
    (hstep : ∀ (b : ℚ) (f : Frame), ok f →
      animNext s b false f.KEY_J f.KEY_K f.Deltatime f.m_CurrentTime =
        if 9 / 10 < b + d * 4 then (next, 0) else (s, b + d * 4))
    (after : ∀ (q : Player) (gs : List Frame), q.charState = next → q.blendAmount = 0 →
      q.Input = false → (∀ f ∈ gs, ok f) → M ≤ gs.length →
      (animRun q gs).charState = AnimState.IDLE)
    (fs : List Frame) : ∀ (p : Player) (m : Nat), p.charState = s → p.Input = false →
      p.blendAmount ≤ 9 / 10 → 9 / 10 < p.blendAmount + d * 4 * m →
      (∀ f ∈ fs, ok f) → m + M ≤ fs.length →
      (animRun p fs).charState = AnimState.IDLE := by
  induction fs with
  | nil =>
    intro p m _ _ hb hm _ hlen
    have : m = 0 := by simp at hlen; omega
    subst this
    simp at hm
    linarith
  | cons f fs ih =>
    intro p m hs hi hb hm hfs hlen
    have hm1 : 1 ≤ m := by
      rcases Nat.eq_zero_or_pos m with h | h
      · subst h; simp at hm; linarith
      · exact h
    have hok := hfs f (List.mem_cons_self _ _)
    have hrest : ∀ g ∈ fs, ok g := fun g hg => hfs g (List.mem_cons_of_mem _ hg)
    have hcore := Animate_core p f
    rw [hs, hi, hstep _ f hok] at hcore
    have hi' : (Animate p f).1.Input = false := by rw [Animate_Input, hi]
    simp only [List.length_cons] at hlen
    show (animRun (Animate p f).1 fs).charState = AnimState.IDLE
    by_cases ht : 9 / 10 < p.blendAmount + d * 4
    · rw [if_pos ht] at hcore
      have h1 : (Animate p f).1.charState = next := congrArg Prod.fst hcore
      have h2 : (Animate p f).1.blendAmount = 0 := congrArg Prod.snd hcore
      exact after _ fs h1 h2 hi' hrest (by omega)
    · rw [if_neg ht] at hcore
      have h1 : (Animate p f).1.charState = s := congrArg Prod.fst hcore
      have h2 : (Animate p f).1.blendAmount = p.blendAmount + d * 4 := congrArg Prod.snd hcore
      refine ih _ (m - 1) h1 hi' (by rw [h2]; exact not_lt.mp ht) ?_ hrest (by omega)
      rw [h2]
      have hc : ((m - 1 : Nat) : ℚ) = (m : ℚ) - 1 := by
        rw [Nat.cast_sub hm1, Nat.cast_one]
      rw [hc]
      linarith

/-- The four blending states that do not look at the animator's clock. -/
theorem animNext_blend_walk (s next : AnimState) (d : ℚ)
    (h : s = AnimState.IDLE_WALK ∧ next = AnimState.WALK ∨
         s = AnimState.WALK_IDLE ∧ next = AnimState.IDLE ∨
         s = AnimState.IDLE_PUNCH ∧ next = AnimState.PUNCH_IDLE ∨
         s = AnimState.IDLE_KICK ∧ next = AnimState.KICK_IDLE)
    (b : ℚ) (i J K : Bool) (t : ℚ) :
    animNext s b i J K d t = if 9 / 10 < b + d * 4 then (next, 0) else (s, b + d * 4) := by
  rcases h with ⟨rfl, rfl⟩ | ⟨rfl, rfl⟩ | ⟨rfl, rfl⟩ | ⟨rfl, rfl⟩ <;> rfl

/-- From WALK_IDLE: `m` frames that carry the blend past 0.9 suffice. -/
theorem animRun_walk_idle (d : ℚ) (fs : List Frame) (p : Player) (m : Nat)
    (hs : p.charState = AnimState.WALK_IDLE) (hi : p.Input = false)
    (hb : p.blendAmount ≤ 9 / 10) (hm : 9 / 10 < p.blendAmount + d * 4 * m)
    (hfs : ∀ f ∈ fs, f.Deltatime = d ∧ f.KEY_J = false ∧ f.KEY_K = false)
    (hlen : m ≤ fs.length) : (animRun p fs).charState = AnimState.IDLE := by
  refine animRun_blend d (fun f => f.Deltatime = d ∧ f.KEY_J = false ∧ f.KEY_K = false)
    AnimState.WALK_IDLE AnimState.IDLE 0 ?_ ?_ fs p m hs hi hb hm hfs (by omega)
  · intro b f hf
    rw [hf.1]
    exact animNext_blend_walk _ _ d (Or.inr (Or.inl ⟨rfl, rfl⟩)) b _ _ _ _
  · intro q gs h1 _ h3 h4 _
    exact animRun_idle gs q h1 h3 (fun f hf => (h4 f hf).2)

/-- From WALK without input: one frame to WALK_IDLE, then the blend. -/
theorem animRun_walk (d : ℚ) (fs : List Frame) (p : Player) (m : Nat)
    (hs : p.charState = AnimState.WALK) (hi : p.Input = false)
    (hb : p.blendAmount ≤ 9 / 10) (hm : 9 / 10 < p.blendAmount + d * 4 * m)
    (hfs : ∀ f ∈ fs, f.Deltatime = d ∧ f.KEY_J = false ∧ f.KEY_K = false)
    (hlen : m + 1 ≤ fs.length) : (animRun p fs).charState = AnimState.IDLE := by
  cases fs with
  | nil => simp at hlen
  | cons f fs =>
    have hcore := Animate_core p f
    rw [hs, hi] at hcore
    simp only [animNext, Bool.false_eq_true, if_false] at hcore
    have h1 : (Animate p f).1.charState = AnimState.WALK_IDLE := congrArg Prod.fst hcore
    have h2 : (Animate p f).1.blendAmount = p.blendAmount := congrArg Prod.snd hcore
    simp only [List.length_cons] at hlen
    exact animRun_walk_idle d fs _ m h1 (by rw [Animate_Input, hi]) (by rw [h2]; exact hb)
      (by rw [h2]; exact hm) (fun g hg => hfs g (List.mem_cons_of_mem _ hg)) (by omega)

/-- From IDLE_WALK: the blend, the WALK frame, the blend back. -/
theorem animRun_idle_walk (d : ℚ) (fs : List Frame) (p : Player) (m N : Nat)
    (hs : p.charState = AnimState.IDLE_WALK) (hi : p.Input = false)
    (hb : p.blendAmount ≤ 9 / 10) (hm : 9 / 10 < p.blendAmount + d * 4 * m)
    (hN : 9 / 10 < d * 4 * N)
    (hfs : ∀ f ∈ fs, f.Deltatime = d ∧ f.KEY_J = false ∧ f.KEY_K = false)
    (hlen : m + (N + 1) ≤ fs.length) : (animRun p fs).charState = AnimState.IDLE := by
  refine animRun_blend d (fun f => f.Deltatime = d ∧ f.KEY_J = false ∧ f.KEY_K = false)
    AnimState.IDLE_WALK AnimState.WALK (N + 1) ?_ ?_ fs p m hs hi hb hm hfs hlen
  · intro b f hf
    rw [hf.1]
    exact animNext_blend_walk _ _ d (Or.inl ⟨rfl, rfl⟩) b _ _ _ _
  · intro q gs h1 h2 h3 h4 h5
    exact animRun_walk d gs q N h1 h3 (by rw [h2]; norm_num) (by rw [h2, zero_add]; exact hN)
      h4 h5

/-- From PUNCH_IDLE or KICK_IDLE with the animator's clock past the threshold
`c` on every frame: `m` frames that carry the blend past 0.9 suffice. -/
theorem animRun_return (d c : ℚ) (s : AnimState)
    (hsc : s = AnimState.PUNCH_IDLE ∧ c = 7 / 10 ∨ s = AnimState.KICK_IDLE ∧ c = 1)
    (fs : List Frame) (p : Player) (m : Nat)
    (hs : p.charState = s) (hi : p.Input = false)
    (hb : p.blendAmount ≤ 9 / 10) (hm : 9 / 10 < p.blendAmount + d * 4 * m)
    (hfs : ∀ f ∈ fs, (f.Deltatime = d ∧ f.KEY_J = false ∧ f.KEY_K = false) ∧
      c < f.m_CurrentTime)
    (hlen : m ≤ fs.length) : (animRun p fs).charState = AnimState.IDLE := by
  refine animRun_blend d (fun f => (f.Deltatime = d ∧ f.KEY_J = false ∧ f.KEY_K = false) ∧
      c < f.m_CurrentTime) s AnimState.IDLE 0 ?_ ?_ fs p m hs hi hb hm hfs (by omega)
  · intro b f hf
    rw [hf.1.1]
    rcases hsc with ⟨rfl, rfl⟩ | ⟨rfl, rfl⟩ <;> simp only [animNext, if_pos hf.2]
  · intro q gs h1 _ h3 h4 _
    exact animRun_idle gs q h1 h3 (fun f hf => (h4 f hf).1.2)

/-- From IDLE_PUNCH or IDLE_KICK: the blend in, then the blend back. -/
theorem animRun_strike (d c : ℚ) (s next : AnimState)
    (hsc : s = AnimState.IDLE_PUNCH ∧ next = AnimState.PUNCH_IDLE ∧ c = 7 / 10 ∨
           s = AnimState.IDLE_KICK ∧ next = AnimState.KICK_IDLE ∧ c = 1)
    (fs : List Frame) (p : Player) (m N : Nat)
    (hs : p.charState = s) (hi : p.Input = false)
    (hb : p.blendAmount ≤ 9 / 10) (hm : 9 / 10 < p.blendAmount + d * 4 * m)
    (hN : 9 / 10 < d * 4 * N)
    (hfs : ∀ f ∈ fs, (f.Deltatime = d ∧ f.KEY_J = false ∧ f.KEY_K = false) ∧
      c < f.m_CurrentTime)
    (hlen : m + N ≤ fs.length) : (animRun p fs).charState = AnimState.IDLE := by
  refine animRun_blend d (fun f => (f.Deltatime = d ∧ f.KEY_J = false ∧ f.KEY_K = false) ∧
      c < f.m_CurrentTime) s next N ?_ ?_ fs p m hs hi hb hm hfs hlen
  · intro b f hf
    rw [hf.1.1]
    rcases hsc with ⟨rfl, rfl, rfl⟩ | ⟨rfl, rfl, rfl⟩
    · exact animNext_blend_walk _ _ d (Or.inr (Or.inr (Or.inl ⟨rfl, rfl⟩))) b _ _ _ _
    · exact animNext_blend_walk _ _ d (Or.inr (Or.inr (Or.inr ⟨rfl, rfl⟩))) b _ _ _ _
  · intro q gs h1 h2 h3 h4 h5
    refine animRun_return d c next ?_ gs q N h1 h3 (by rw [h2]; norm_num)
      (by rw [h2, zero_add]; exact hN) h4 h5
    rcases hsc with ⟨-, rfl, rfl⟩ | ⟨-, rfl, rfl⟩
    · exact Or.inl ⟨rfl, rfl⟩
    · exact Or.inr ⟨rfl, rfl⟩

/-- With the clock at or below 0.7 the PUNCH_IDLE state is never left. -/
theorem animRun_punch_idle_waits (fs : List Frame) : ∀ p : Player,
    p.charState = AnimState.PUNCH_IDLE → (∀ f ∈ fs, f.m_CurrentTime ≤ 7 / 10) →
    (animRun p fs).charState = AnimState.PUNCH_IDLE := by
  induction fs with
  | nil => intro p h _; exact h
  | cons f fs ih =>
    intro p hs hfs
    refine ih _ ?_ (fun g hg => hfs g (List.mem_cons_of_mem _ hg))
    rw [Animate_charState, hs]
    simp [animNext, not_lt.mpr (hfs f (List.mem_cons_self _ _))]

/-- The number `⌈1 / (4 d)⌉` of frames of length `d` carries any blend amount
that is not negative past 0.9. -/
theorem ceil_frames_suffice (d : ℚ) (hd : 0 < d) (b : ℚ) (hb : 0 ≤ b) :
    9 / 10 < b + d * 4 * (⌈1 / (4 * d)⌉₊ : ℕ) := by
  have h1 : 1 / (4 * d) ≤ (⌈1 / (4 * d)⌉₊ : ℕ) := Nat.le_ceil _
  have h2 : 1 ≤ d * 4 * (⌈1 / (4 * d)⌉₊ : ℕ) := by
    have h3 : 0 < 4 * d := by linarith
    have := (div_le_iff₀ h3).mp h1
    linarith
  linarith

end Player

/-- C12 (as stated) fails: with the animator's clock supplied as 0 on every
frame, a player in PUNCH_IDLE (blend amount 0, no input, J and K up, Δt = 1/60,
so that `⌈1 / (4 Δt)⌉ = 15`) is still in PUNCH_IDLE after 100 `Animate` steps. -/
theorem C12_counterexample :
    ({ Player.fresh with charState := AnimState.PUNCH_IDLE }.animRun
      (List.replicate 100 (Frame.quiet (1/60)))).charState = AnimState.PUNCH_IDLE ∧
    ⌈(1 : ℚ) / (4 * (1/60))⌉₊ = 15 := by
  constructor
  · refine Player.animRun_punch_idle_waits _ _ rfl (fun f hf => ?_)
    rw [List.eq_of_mem_replicate hf]
    norm_num [Frame.quiet]
  · have e : (1 : ℚ) / (4 * (1/60)) = ((15 : ℕ) : ℚ) := by norm_num
    rw [e, Nat.ceil_natCast]

/-- C12 (amended): for every constant Δt > 0, with Input false and J and K not
pressed on any frame, from every starting AnimState with blendAmount in
`[0, 0.9]`, and with the animator's current time past 0.7 on every frame of a
run that starts in IDLE_PUNCH or PUNCH_IDLE and past 1.0 on every frame of a
run that starts in IDLE_KICK or KICK_IDLE, every run of `Animate` steps of
length at least `settleBound ⌈1/(4·Δt)⌉` ends in IDLE: `⌈1/(4·Δt)⌉` frames for
each blending state on the way (PUNCH_IDLE and KICK_IDLE included) plus one
frame for WALK. -/
theorem C12_settles_to_idle (p : Player) (d : ℚ) (hd : 0 < d) (fs : List Frame)
    (hi : p.Input = false) (hb0 : 0 ≤ p.blendAmount) (hb1 : p.blendAmount ≤ 9 / 10)
    (hfs : ∀ f ∈ fs, f.Deltatime = d ∧ f.KEY_J = false ∧ f.KEY_K = false ∧
      Player.clockPast p.charState f)
    (hlen : Player.settleBound ⌈1 / (4 * d)⌉₊ p.charState ≤ fs.length) :
    (p.animRun fs).charState = AnimState.IDLE := by
  have hm := Player.ceil_frames_suffice d hd p.blendAmount hb0
  have hN : 9 / 10 < d * 4 * (⌈1 / (4 * d)⌉₊ : ℕ) := by
    have := Player.ceil_frames_suffice d hd 0 le_rfl
    rwa [zero_add] at this
  have hplain : ∀ f ∈ fs, f.Deltatime = d ∧ f.KEY_J = false ∧ f.KEY_K = false :=
    fun f hf => ⟨(hfs f hf).1, (hfs f hf).2.1, (hfs f hf).2.2.1⟩
  rcases hs : p.charState <;> rw [hs] at hfs hlen <;>
    simp only [Player.settleBound, Player.clockPast] at hfs hlen
  case IDLE => exact Player.animRun_idle fs p hs hi (fun f hf => (hplain f hf).2)
  case IDLE_PUNCH =>
    exact Player.animRun_strike d (7 / 10) _ _ (Or.inl ⟨rfl, rfl, rfl⟩) fs p _ _ hs hi hb1 hm hN
      (fun f hf => ⟨hplain f hf, (hfs f hf).2.2.2⟩) (by omega)
  case PUNCH_IDLE =>
    exact Player.animRun_return d (7 / 10) _ (Or.inl ⟨rfl, rfl⟩) fs p _ hs hi hb1 hm
      (fun f hf => ⟨hplain f hf, (hfs f hf).2.2.2⟩) hlen
  case IDLE_KICK =>
    exact Player.animRun_strike d 1 _ _ (Or.inr ⟨rfl, rfl, rfl⟩) fs p _ _ hs hi hb1 hm hN
      (fun f hf => ⟨hplain f hf, (hfs f hf).2.2.2⟩) (by omega)
  case KICK_IDLE =>
    exact Player.animRun_return d 1 _ (Or.inr ⟨rfl, rfl⟩) fs p _ hs hi hb1 hm
      (fun f hf => ⟨hplain f hf, (hfs f hf).2.2.2⟩) hlen
  case IDLE_WALK =>
    exact Player.animRun_idle_walk d fs p _ _ hs hi hb1 hm hN hplain (by omega)
  case WALK_IDLE => exact Player.animRun_walk_idle d fs p _ hs hi hb1 hm hplain hlen
  case WALK => exact Player.animRun_walk d fs p _ hs hi hb1 hm hplain hlen

/-- Witness of C12 (amended): a player in WALK with no input, over 16 quiet
frames of 1/60 s. -/
theorem C12_settles_to_idle_witness :
    ({ Player.fresh with charState := AnimState.WALK }.animRun
      (List.replicate 16 (Frame.quiet (1/60)))).charState = AnimState.IDLE :=
  C12_settles_to_idle { Player.fresh with charState := AnimState.WALK } (1/60) (by norm_num)
    (List.replicate 16 (Frame.quiet (1/60))) rfl (by norm_num [Player.fresh])
    (by norm_num [Player.fresh])
    (fun f hf => by
      rw [List.eq_of_mem_replicate hf]
      exact ⟨rfl, rfl, rfl, trivial⟩)
    (by
      have e : (1 : ℚ) / (4 * (1/60)) = ((15 : ℕ) : ℚ) := by norm_num
      rw [e, Nat.ceil_natCast]
      simp [Player.settleBound])

end BPlayer

namespace BPlayer

/-- C20: in each of the blending states IDLE_WALK, WALK_IDLE, IDLE_PUNCH and
IDLE_KICK one `Animate` step advances blendAmount by 4·Δt; if the advanced
value exceeds 0.9 the state becomes WALK, IDLE, PUNCH_IDLE, KICK_IDLE
respectively and blendAmount is reset to 0, otherwise the state is unchanged
and blendAmount keeps the advanced value; the state changes if and only if the
advanced value exceeds 0.9.  In IDLE the exits are prioritised: Input leads to
IDLE_WALK, otherwise J to IDLE_PUNCH, otherwise K to IDLE_KICK, otherwise the
state stays IDLE. -/
theorem C20_animate_transitions (p : Player) (f : Frame) :
    (p.charState = AnimState.IDLE_WALK →
      ((p.Animate f).1.charState, (p.Animate f).1.blendAmount) =
        if 9 / 10 < p.blendAmount + 4 * f.Deltatime then (AnimState.WALK, 0)
        else (AnimState.IDLE_WALK, p.blendAmount + 4 * f.Deltatime)) ∧
    (p.charState = AnimState.WALK_IDLE →
      ((p.Animate f).1.charState, (p.Animate f).1.blendAmount) =
        if 9 / 10 < p.blendAmount + 4 * f.Deltatime then (AnimState.IDLE, 0)
        else (AnimState.WALK_IDLE, p.blendAmount + 4 * f.Deltatime)) ∧
    (p.charState = AnimState.IDLE_PUNCH →
      ((p.Animate f).1.charState, (p.Animate f).1.blendAmount) =
        if 9 / 10 < p.blendAmount + 4 * f.Deltatime then (AnimState.PUNCH_IDLE, 0)
        else (AnimState.IDLE_PUNCH, p.blendAmount + 4 * f.Deltatime)) ∧
    (p.charState = AnimState.IDLE_KICK →
      ((p.Animate f).1.charState, (p.Animate f).1.blendAmount) =
        if 9 / 10 < p.blendAmount + 4 * f.Deltatime then (AnimState.KICK_IDLE, 0)
        else (AnimState.IDLE_KICK, p.blendAmount + 4 * f.Deltatime)) ∧
    (p.charState = AnimState.IDLE_WALK ∨ p.charState = AnimState.WALK_IDLE ∨
      p.charState = AnimState.IDLE_PUNCH ∨ p.charState = AnimState.IDLE_KICK →
      ((p.Animate f).1.charState ≠ p.charState ↔
        9 / 10 < p.blendAmount + 4 * f.Deltatime)) ∧
    (p.charState = AnimState.IDLE →
      (p.Animate f).1.charState =
        if p.Input = true then AnimState.IDLE_WALK
        else if f.KEY_J = true then AnimState.IDLE_PUNCH
        else if f.KEY_K = true then AnimState.IDLE_KICK
        else AnimState.IDLE) := by
  have hcore := Player.Animate_core p f
  have hcs := Player.Animate_charState p f
  have e : f.Deltatime * 4 = 4 * f.Deltatime := mul_comm _ _
  refine ⟨fun h => ?_, fun h => ?_, fun h => ?_, fun h => ?_, fun h => ?_, fun h => ?_⟩
  · rw [hcore, h]; simp only [Player.animNext, e]
  · rw [hcore, h]; simp only [Player.animNext, e]
  · rw [hcore, h]; simp only [Player.animNext, e]
  · rw [hcore, h]; simp only [Player.animNext, e]
  · rw [hcs]
    rcases h with h | h | h | h <;> rw [h] <;> simp only [Player.animNext, e] <;>
      split_ifs with h9 <;> simp [h9]
  · rw [hcs, h]
    simp only [Player.animNext]
    split_ifs <;> rfl

/-- Witness of C20: the idle-to-walk blend at 13/15 crosses 0.9 in a frame of
1/60 s and the state becomes WALK. -/
theorem C20_animate_transitions_witness :
    (({ Player.fresh with charState := AnimState.IDLE_WALK, blendAmount := 13/15 }.Animate
        (Frame.quiet (1/60))).1.charState,
     ({ Player.fresh with charState := AnimState.IDLE_WALK, blendAmount := 13/15 }.Animate
        (Frame.quiet (1/60))).1.blendAmount) = (AnimState.WALK, 0) :=
  ((C20_animate_transitions
      { Player.fresh with charState := AnimState.IDLE_WALK, blendAmount := 13/15 }
      (Frame.quiet (1/60))).1 rfl).trans (by norm_num [Frame.quiet])

end BPlayer

namespace BPlayer

namespace Player

/-! ## The gun pickup and the `Input` flag -/

/-- The collision block gives the gun exactly when the capsule reports an
object that carries a Gun and no Bullet component. -/
theorem collide_HasGun (p : Player) (f : Frame) :
    (collide p f).1.HasGun =
      if f.isCollided = true ∧ f.Other.bullet = none ∧ f.Other.gun = true then true
      else p.HasGun := by
  unfold collide
  rcases hb : f.Other.bullet with _ | t
  · simp only []; split_ifs <;> simp_all
  · cases t <;> simp only [] <;> split_ifs <;> simp_all

/-- A gun pickup that touches the capsule is flagged for destruction. -/
theorem collide_Other_gun (p : Player) (f : Frame) (h : f.isCollided = true)
    (hb : f.Other.bullet = none) (hg : f.Other.gun = true) :
    (collide p f).2.1.Destroy = true := by
  unfold collide
  simp [h, hb, hg]

theorem Update_Behavior_HasGun (p : Player) (f : Frame) :
    (Update_Behavior p f).1.HasGun =
      if f.isCollided = true ∧ f.Other.bullet = none ∧ f.Other.gun = true then true
      else p.HasGun := by
  simp [Update_Behavior, collide_HasGun]

theorem Update_HasGun (p : Player) (f : Frame) :
    (p.Update f).1.HasGun =
      if p.Dead = false ∧ f.isCollided = true ∧ f.Other.bullet = none ∧ f.Other.gun = true
      then true else p.HasGun := by
  cases h : p.Dead
  · rw [(Update_of_alive p f h).1, Update_Behavior_HasGun]; simp
  · rw [Update_of_Dead p f h]; simp

/-- The movement block raises `Input` exactly when a movement control is on. -/
theorem move_Input (p : Player) (f : Frame) :
    (move p f).Input =
      (p.Input || p.Controls.MOVE_FWD || p.Controls.MOVE_BACK || p.Controls.MOVE_LFT ||
        p.Controls.MOVE_RHT) := by
  unfold move
  rcases h1 : p.Controls.MOVE_FWD <;> rcases h2 : p.Controls.MOVE_BACK <;>
    rcases h3 : p.Controls.MOVE_LFT <;> rcases h4 : p.Controls.MOVE_RHT <;>
    simp [h1, h2, h3, h4]

theorem move_Gun_AnimCooldown (p : Player) (f : Frame) :
    (move p f).Gun_AnimCooldown = p.Gun_AnimCooldown := by
  unfold move
  simp only []
  split_ifs <;> rfl

theorem move_Velocity (p : Player) (f : Frame) (hS : p.Controls.MOVE_BACK = false)
    (hA : p.Controls.MOVE_LFT = false) (hD : p.Controls.MOVE_RHT = false) :
    (move p f).Velocity =
      if p.Controls.MOVE_FWD = true then
        p.Velocity.add (f.forwardVector.smul (f.Deltatime * 32))
      else p.Velocity := by
  unfold move
  rcases h1 : p.Controls.MOVE_FWD <;> simp [h1, hS, hA, hD]

/-- The firing-or-moving block of an unarmed player whose lock is over is the
movement block. -/
theorem fireOrMove_of_unarmed (p : Player) (f : Frame) (hg : p.HasGun = false)
    (hc : p.Gun_AnimCooldown ≤ 0) : fireOrMove p f = (move p f, []) := by
  unfold fireOrMove
  simp [hg, hc]

theorem fly_of_noFly (p : Player) (f : Frame) (hE : f.KEY_E = false) (hQ : f.KEY_Q = false) :
    fly p f = p := by
  unfold fly
  simp [hE, hQ]

/-- The fields of interest after `Update_Behavior` in terms of the movement
block, for an unarmed player whose lock is over by the end of the frame and
with the flight keys up. -/
theorem Update_Behavior_of_unarmed (p : Player) (f : Frame) (hg : p.HasGun = false)
    (hc : p.Gun_AnimCooldown - f.Deltatime ≤ 0) (hE : f.KEY_E = false)
    (hQ : f.KEY_Q = false) :
    (Update_Behavior p f).1.Input = (move (beginFrame p f) f).Input ∧
    (Update_Behavior p f).1.Gun_AnimCooldown = p.Gun_AnimCooldown - f.Deltatime ∧
    preVelocity p f = (move (beginFrame p f) f).Velocity := by
  have h1 : fireOrMove (beginFrame p f) f = (move (beginFrame p f) f, []) :=
    fireOrMove_of_unarmed _ f (by rw [beginFrame_HasGun, hg]) hc
  refine ⟨?_, ?_, ?_⟩
  · simp [Update_Behavior, h1, fly_of_noFly _ f hE hQ]
  · simp only [Update_Behavior, cheatF_Gun_AnimCooldown, collide_Gun_AnimCooldown,
      rotate_Gun_AnimCooldown, turn_Gun_AnimCooldown, integrate_Gun_AnimCooldown,
      arrows_Gun_AnimCooldown, h1, fly_of_noFly _ f hE hQ, move_Gun_AnimCooldown]
    rfl
  · simp [preVelocity, h1, fly_of_noFly _ f hE hQ]

/-- One frame of the walking scenario: the player stays unarmed and alive,
`Input` becomes the W key, the animation fields are those of `Animate`, and the
velocity is clamped and damped after the forward push. -/
theorem Update_onlyForward (p : Player) (f : Frame) (d : ℚ) (hd0 : 0 ≤ d) (hp : Unarmed p)
    (hf : f.onlyForward d) :
    Unarmed (p.Update f).1 ∧ (p.Update f).1.Input = f.KEY_W ∧
    (p.Update f).1.charState = (Animate p f).1.charState ∧
    (p.Update f).1.blendAmount = (Animate p f).1.blendAmount ∧
    (p.Update f).1.Velocity =
      B_lerpVec3
        ⟨B_clamp (if f.KEY_W = true then
            p.Velocity.add (f.forwardVector.smul (f.Deltatime * 32)) else p.Velocity).x (-5) 5,
         B_clamp (if f.KEY_W = true then
            p.Velocity.add (f.forwardVector.smul (f.Deltatime * 32)) else p.Velocity).y (-5) 5,
         B_clamp (if f.KEY_W = true then
            p.Velocity.add (f.forwardVector.smul (f.Deltatime * 32)) else p.Velocity).z (-5) 5⟩
        Vec3.zero (f.Deltatime * 4) := by
  obtain ⟨hd, hg, hc⟩ := hp
  obtain ⟨hdt, hS, hA, hD, hE, hQ, -, -, hF, hcol⟩ := hf
  have hc' : (Animate p f).1.Gun_AnimCooldown - f.Deltatime ≤ 0 := by
    rw [Animate_Gun_AnimCooldown, hdt]; linarith
  obtain ⟨u1, u2, u3⟩ := Update_Behavior_of_unarmed (Animate p f).1 f
    (by rw [Animate_HasGun, hg]) hc' hE hQ
  have e := (Update_of_alive p f hd).1
  refine ⟨⟨?_, ?_, ?_⟩, ?_, ?_, ?_, ?_⟩
  · rw [Update_Dead]; simp [hd, hF, hcol]
  · rw [Update_HasGun]; simp [hg, hcol]
  · rw [e, u2]; exact hc'
  · rw [e, u1, move_Input]
    simp [beginFrame, Controls_Update, hS, hA, hD]
  · rw [e]; simp [Update_Behavior]
  · rw [e]; simp [Update_Behavior]
  · rw [e, Update_Behavior_Velocity, u3, move_Velocity _ f (by simp [beginFrame, Controls_Update, hS])
      (by simp [beginFrame, Controls_Update, hA]) (by simp [beginFrame, Controls_Update, hD])]
    simp [beginFrame, Controls_Update]

theorem Initial_Unarmed (p : Player) (h : p.Initial) : Unarmed p := by
  obtain ⟨h1, -, -, -, h5, -, h7, -⟩ := h
  exact ⟨h1, h7, by rw [h5]⟩

end Player

end BPlayer

namespace BPlayer

namespace Player

/-! ## The walk cycle -/

theorem animNext_walk_clock (s : AnimState)
    (hs : s = AnimState.IDLE ∨ s = AnimState.IDLE_WALK ∨ s = AnimState.WALK ∨
      s = AnimState.WALK_IDLE) (b : ℚ) (i J K : Bool) (d t : ℚ) :
    animNext s b i J K d t = animNext s b i J K d 0 := by
  rcases hs with rfl | rfl | rfl | rfl <;> rfl

theorem animNext_walk_closed (s : AnimState)
    (hs : s = AnimState.IDLE ∨ s = AnimState.IDLE_WALK ∨ s = AnimState.WALK ∨
      s = AnimState.WALK_IDLE) (b : ℚ) (i : Bool) (d t : ℚ) :
    (animNext s b i false false d t).1 = AnimState.IDLE ∨
    (animNext s b i false false d t).1 = AnimState.IDLE_WALK ∨
    (animNext s b i false false d t).1 = AnimState.WALK ∨
    (animNext s b i false false d t).1 = AnimState.WALK_IDLE := by
  rcases hs with rfl | rfl | rfl | rfl <;>
    simp only [animNext, Bool.false_eq_true, if_false] <;> split_ifs <;> simp

theorem map_eq_replicate (g : Frame → Bool) (c : Bool) (fs : List Frame)
    (h : ∀ f ∈ fs, g f = c) : fs.map g = List.replicate fs.length c := by
  induction fs with
  | nil => rfl
  | cons f fs ih =>
    rw [List.map_cons, List.length_cons, List.replicate_succ, h f (List.mem_cons_self _ _),
      ih (fun g hg => h g (List.mem_cons_of_mem _ hg))]

/-- Over frames of the walking scenario the states visited by `Player::Update`
are those of the walk cycle driven by the W key. -/
theorem charStates_walk (fs : List Frame) : ∀ p : Player, Unarmed p →
    (p.charState = AnimState.IDLE ∨ p.charState = AnimState.IDLE_WALK ∨
      p.charState = AnimState.WALK ∨ p.charState = AnimState.WALK_IDLE) →
    (∀ f ∈ fs, f.onlyForward (1 / 60)) →
    charStates p fs = walkStates p.charState p.blendAmount p.Input (fs.map Frame.KEY_W) := by
  induction fs with
  | nil => intro p _ _ _; rfl
  | cons f fs ih =>
    intro p hp hs hfs
    have hf := hfs f (List.mem_cons_self _ _)
    obtain ⟨u1, u2, u3, u4, -⟩ := Update_onlyForward p f (1 / 60) (by norm_num) hp hf
    have hcore := Animate_core p f
    rw [hf.1, hf.2.2.2.2.2.2.1, hf.2.2.2.2.2.2.2.1, animNext_walk_clock _ hs] at hcore
    have c1 : (p.Update f).1.charState =
        (animNext p.charState p.blendAmount p.Input false false (1 / 60) 0).1 := by
      rw [u3]; exact congrArg Prod.fst hcore
    have c2 : (p.Update f).1.blendAmount =
        (animNext p.charState p.blendAmount p.Input false false (1 / 60) 0).2 := by
      rw [u4]; exact congrArg Prod.snd hcore
    have hs' := animNext_walk_closed _ hs p.blendAmount p.Input (1 / 60) 0
    rw [← c1] at hs'
    have := ih (p.Update f).1 u1 hs' (fun g hg => hfs g (List.mem_cons_of_mem _ hg))
    simp only [charStates, List.map_cons, walkStates]
    rw [this, c1, c2, u2]

/-- The walk cycle of 30 frames with W down and 30 frames with W up. -/
theorem walkStates_thirty_thirty :
    walkStates AnimState.IDLE 0 false (List.replicate 30 true ++ List.replicate 30 false) =
      List.replicate 1 AnimState.IDLE ++ List.replicate 14 AnimState.IDLE_WALK ++
      List.replicate 16 AnimState.WALK ++ List.replicate 14 AnimState.WALK_IDLE ++
      List.replicate 15 AnimState.IDLE := by
  norm_num [walkStates, animNext, List.replicate]

end Player

/-- C13: with Δt = 1/60, from an initial player (IDLE, blendAmount 0, Input
false), 30 frames with MOVE_FWD held followed by 30 frames with it released
(no other steering key, no collision) give, frame by frame, the states
IDLE (1 frame), IDLE_WALK (14), WALK (16), WALK_IDLE (14), IDLE (15): no other
state is visited, WALK_IDLE is entered on frame 32, after the release, and the
final state is IDLE. -/
theorem C13_walk_in_walk_out (p : Player) (h : p.Initial) (fs1 fs2 : List Frame)
    (l1 : fs1.length = 30) (l2 : fs2.length = 30)
    (h1 : ∀ f ∈ fs1, f.onlyForward (1 / 60) ∧ f.KEY_W = true)
    (h2 : ∀ f ∈ fs2, f.onlyForward (1 / 60) ∧ f.KEY_W = false) :
    p.charState = AnimState.IDLE ∧
    p.charStates (fs1 ++ fs2) =
      List.replicate 1 AnimState.IDLE ++ List.replicate 14 AnimState.IDLE_WALK ++
      List.replicate 16 AnimState.WALK ++ List.replicate 14 AnimState.WALK_IDLE ++
      List.replicate 15 AnimState.IDLE := by
  have hs : p.charState = AnimState.IDLE := h.2.2.2.2.2.2.2.1
  have hb : p.blendAmount = 0 := h.2.2.2.2.2.2.2.2.1
  have hi : p.Input = false := h.2.2.2.2.2.2.2.2.2.2.2.2.2.2.1
  refine ⟨hs, ?_⟩
  rw [Player.charStates_walk (fs1 ++ fs2) p (Player.Initial_Unarmed p h) (Or.inl hs), hs, hb, hi,
    List.map_append, Player.map_eq_replicate _ true fs1 (fun f hf => (h1 f hf).2),
    Player.map_eq_replicate _ false fs2 (fun f hf => (h2 f hf).2), l1, l2]
  · exact Player.walkStates_thirty_thirty
  · intro f hf
    rcases List.mem_append.mp hf with hf | hf
    · exact (h1 f hf).1
    · exact (h2 f hf).1

/-- Witness of C13: a fresh player, 30 quiet frames with W held, 30 quiet
frames. -/
theorem C13_walk_in_walk_out_witness :
    Player.fresh.charStates
        (List.replicate 30 (Frame.forward (1/60)) ++ List.replicate 30 (Frame.quiet (1/60))) =
      List.replicate 1 AnimState.IDLE ++ List.replicate 14 AnimState.IDLE_WALK ++
      List.replicate 16 AnimState.WALK ++ List.replicate 14 AnimState.WALK_IDLE ++
      List.replicate 15 AnimState.IDLE :=
  (C13_walk_in_walk_out Player.fresh Player.fresh_Initial
    (List.replicate 30 (Frame.forward (1/60))) (List.replicate 30 (Frame.quiet (1/60)))
    (List.length_replicate _ _) (List.length_replicate _ _)
    (fun f hf => by
      rw [List.eq_of_mem_replicate hf]
      simp [Frame.onlyForward, Frame.forward, Frame.quiet])
    (fun f hf => by
      rw [List.eq_of_mem_replicate hf]
      simp [Frame.onlyForward, Frame.quiet])).2

end BPlayer

namespace BPlayer

/-! ## Speed after walking and coasting -/

theorem B_clamp_zero : B_clamp 0 (-5) 5 = 0 := by norm_num [B_clamp]

theorem abs_B_clamp_le (x : ℚ) : |B_clamp x (-5) 5| ≤ |x| := by
  unfold B_clamp
  split_ifs with h1 h2
  · rw [abs_of_neg (by norm_num : (-5 : ℚ) < 0), abs_of_neg (by linarith)]
    linarith
  · rw [abs_of_pos (by norm_num : (0 : ℚ) < 5), abs_of_pos (by linarith)]
    linarith
  · exact le_rfl

theorem Vec3.eq_of_components (a b : Vec3) (hx : a.x = b.x) (hy : a.y = b.y)
    (hz : a.z = b.z) : a = b := by
  cases a
  cases b
  simp_all

namespace Player

/-- The components of `velNext`: push, clamp, damping by 14/15. -/
theorem velNext_components (v u : Vec3) (w : Bool) :
    (velNext v u w).x = B_clamp (v.x + if w = true then u.x * (8 / 15) else 0) (-5) 5 * (14 / 15) ∧
    (velNext v u w).y = B_clamp (v.y + if w = true then u.y * (8 / 15) else 0) (-5) 5 * (14 / 15) ∧
    (velNext v u w).z = B_clamp (v.z + if w = true then u.z * (8 / 15) else 0) (-5) 5 * (14 / 15) := by
  have e : ∀ a : ℚ, a * (1 / 60 * 32) = a * (8 / 15) := fun a => by ring
  have k : ∀ c : ℚ, c + (0 - c) * (1 / 60 * 4) = c * (14 / 15) := fun c => by ring
  cases w <;>
    simp only [velNext, B_lerpVec3, Vec3.add, Vec3.sub, Vec3.smul, Vec3.zero,
      Bool.false_eq_true, if_false, if_true, add_zero, e, k] <;>
    try simp

theorem velNext_z (z : ℚ) (w : Bool) :
    velNext ⟨0, 0, z⟩ ⟨0, 0, 1⟩ w =
      ⟨0, 0, B_clamp (z + if w = true then 8 / 15 else 0) (-5) 5 * (14 / 15)⟩ := by
  obtain ⟨h1, h2, h3⟩ := velNext_components ⟨0, 0, z⟩ ⟨0, 0, 1⟩ w
  have hx : (velNext ⟨0, 0, z⟩ ⟨0, 0, 1⟩ w).x = 0 := by
    rw [h1]; cases w <;> simp [B_clamp_zero]
  have hy : (velNext ⟨0, 0, z⟩ ⟨0, 0, 1⟩ w).y = 0 := by
    rw [h2]; cases w <;> simp [B_clamp_zero]
  have hz : (velNext ⟨0, 0, z⟩ ⟨0, 0, 1⟩ w).z =
      B_clamp (z + if w = true then 8 / 15 else 0) (-5) 5 * (14 / 15) := by
    rw [h3]; simp
  exact Vec3.eq_of_components _ _ hx hy hz

set_option maxRecDepth 100000 in
/-- Thirty frames of pushing along `(0, 0, 1)` from rest and thirty frames of
coasting. -/
theorem velTrack_thirty_thirty :
    velTrack ⟨0, 0, 0⟩ ⟨0, 0, 1⟩ (List.replicate 30 true ++ List.replicate 30 false) =
      ⟨0, 0, 14 / 3 * (14 / 15) ^ 30⟩ := by
  simp only [List.replicate, List.cons_append, List.nil_append, velTrack, velNext_z]
  norm_num [B_clamp]

theorem velTrack_append (v u : Vec3) (a b : List Bool) :
    velTrack v u (a ++ b) = velTrack (velTrack v u a) u b := by
  induction a generalizing v with
  | nil => rfl
  | cons w a ih => exact ih _

theorem pushBound_nonneg (n : Nat) : 0 ≤ pushBound n := by
  induction n with
  | zero => exact le_rfl
  | succ n ih => simp only [pushBound]; positivity

theorem velNext_within_push (v u : Vec3) (c : ℚ) (h : v.within u c) :
    (velNext v u true).within u ((c + 8 / 15) * (14 / 15)) := by
  obtain ⟨h1, h2, h3⟩ := velNext_components v u true
  have key : ∀ a b : ℚ, |a| ≤ c * |b| →
      |B_clamp (a + b * (8 / 15)) (-5) 5 * (14 / 15)| ≤ (c + 8 / 15) * (14 / 15) * |b| := by
    intro a b hab
    rw [abs_mul, abs_of_pos (by norm_num : (0 : ℚ) < 14 / 15)]
    have t1 := abs_B_clamp_le (a + b * (8 / 15))
    have t2 : |a + b * (8 / 15)| ≤ |a| + |b| * (8 / 15) := by
      refine le_trans (abs_add _ _) ?_
      rw [abs_mul, abs_of_pos (by norm_num : (0 : ℚ) < 8 / 15)]
    nlinarith [abs_nonneg b]
  simp only [if_true] at h1 h2 h3
  refine ⟨?_, ?_, ?_⟩
  · rw [h1]; exact key _ _ h.1
  · rw [h2]; exact key _ _ h.2.1
  · rw [h3]; exact key _ _ h.2.2

theorem velNext_within_coast (v u : Vec3) (c : ℚ) (h : v.within u c) :
    (velNext v u false).within u (c * (14 / 15)) := by
  obtain ⟨h1, h2, h3⟩ := velNext_components v u false
  have key : ∀ a b : ℚ, |a| ≤ c * |b| →
      |B_clamp (a + 0) (-5) 5 * (14 / 15)| ≤ c * (14 / 15) * |b| := by
    intro a b hab
    rw [abs_mul, abs_of_pos (by norm_num : (0 : ℚ) < 14 / 15), add_zero]
    have t1 := abs_B_clamp_le a
    nlinarith [abs_nonneg b]
  simp only [Bool.false_eq_true, if_false] at h1 h2 h3
  refine ⟨?_, ?_, ?_⟩
  · rw [h1]; exact key _ _ h.1
  · rw [h2]; exact key _ _ h.2.1
  · rw [h3]; exact key _ _ h.2.2

theorem velTrack_within_push (u : Vec3) (n : Nat) : ∀ (k : Nat) (v : Vec3),
    v.within u (pushBound k) →
    (velTrack v u (List.replicate n true)).within u (pushBound (k + n)) := by
  induction n with
  | zero => intro k v h; exact h
  | succ n ih =>
    intro k v h
    have := ih (k + 1) _ (velNext_within_push v u _ h)
    rw [List.replicate_succ, velTrack]
    rw [show k + (n + 1) = k + 1 + n by omega]
    exact this

theorem velTrack_within_coast (u : Vec3) (n : Nat) : ∀ (c : ℚ) (v : Vec3),
    v.within u c →
    (velTrack v u (List.replicate n false)).within u (c * (14 / 15) ^ n) := by
  induction n with
  | zero => intro c v h; simpa using h
  | succ n ih =>
    intro c v h
    have := ih _ _ (velNext_within_coast v u _ h)
    rw [List.replicate_succ, velTrack]
    rw [show c * (14 / 15) ^ (n + 1) = c * (14 / 15) * (14 / 15) ^ n by ring]
    exact this

theorem normSq_le_of_within (v u : Vec3) (c : ℚ) (hc : 0 ≤ c) (h : v.within u c)
    (hu : u.normSq = 1) : v.normSq ≤ c ^ 2 := by
  have sq : ∀ a b : ℚ, |a| ≤ c * |b| → a * a ≤ c ^ 2 * (b * b) := by
    intro a b hab
    have h1 : |a| * |a| ≤ (c * |b|) * (c * |b|) :=
      mul_le_mul hab hab (abs_nonneg _) (mul_nonneg hc (abs_nonneg _))
    rw [abs_mul_abs_self] at h1
    have h2 : c * |b| * (c * |b|) = c ^ 2 * (|b| * |b|) := by ring
    rw [h2, abs_mul_abs_self] at h1
    exact h1
  have hx := sq _ _ h.1
  have hy := sq _ _ h.2.1
  have hz := sq _ _ h.2.2
  unfold Vec3.normSq at hu ⊢
  nlinarith

/-- Over frames of the walking scenario whose forward vector is `u` whenever W
is down, the velocity follows `velTrack`. -/
theorem run_Velocity_walk (u : Vec3) (fs : List Frame) : ∀ p : Player, Unarmed p →
    (∀ f ∈ fs, f.onlyForward (1 / 60) ∧ (f.KEY_W = true → f.forwardVector = u)) →
    (p.run fs).Velocity = velTrack p.Velocity u (fs.map Frame.KEY_W) := by
  induction fs with
  | nil => intro p _ _; rfl
  | cons f fs ih =>
    intro p hp hfs
    obtain ⟨hf, hu⟩ := hfs f (List.mem_cons_self _ _)
    obtain ⟨u1, -, -, -, u5⟩ := Update_onlyForward p f (1 / 60) (by norm_num) hp hf
    have e : (p.Update f).1.Velocity = velNext p.Velocity u f.KEY_W := by
      rw [u5, hf.1]
      unfold velNext
      rcases hw : f.KEY_W
      · simp
      · simp [hu hw]
    simp only [run, List.map_cons, velTrack]
    rw [ih _ u1 (fun g hg => hfs g (List.mem_cons_of_mem _ hg)), e]

end Player

/-- C14 (as stated) fails: with Δt = 1/60, a fresh player at rest whose
forward vector is the unit vector `(0, 0, 1)`, after 30 frames with MOVE_FWD
held and 30 frames with nothing pressed, has Velocity
`(0, 0, 14/3 · (14/15)^30)`, about 0.589 in magnitude, which is not below
0.01. -/
theorem C14_counterexample :
    (⟨0, 0, 1⟩ : Vec3).normSq = 1 ∧
    (Player.fresh.run (List.replicate 30 (Frame.forward (1/60)) ++
      List.replicate 30 (Frame.quiet (1/60)))).Velocity = ⟨0, 0, 14 / 3 * (14 / 15) ^ 30⟩ ∧
    ¬ (Player.fresh.run (List.replicate 30 (Frame.forward (1/60)) ++
      List.replicate 30 (Frame.quiet (1/60)))).Velocity.normSq < (1 / 100) ^ 2 := by
  have e : (Player.fresh.run (List.replicate 30 (Frame.forward (1/60)) ++
      List.replicate 30 (Frame.quiet (1/60)))).Velocity = ⟨0, 0, 14 / 3 * (14 / 15) ^ 30⟩ := by
    rw [Player.run_Velocity_walk ⟨0, 0, 1⟩ _ Player.fresh
      (Player.Initial_Unarmed _ Player.fresh_Initial)]
    · rw [List.map_append,
        Player.map_eq_replicate _ true (List.replicate 30 (Frame.forward (1/60)))
          (fun f hf => by rw [List.eq_of_mem_replicate hf]; rfl),
        Player.map_eq_replicate _ false (List.replicate 30 (Frame.quiet (1/60)))
          (fun f hf => by rw [List.eq_of_mem_replicate hf]; rfl),
        List.length_replicate, List.length_replicate]
      exact Player.velTrack_thirty_thirty
    · intro f hf
      rcases List.mem_append.mp hf with hf | hf <;> rw [List.eq_of_mem_replicate hf] <;>
        simp [Frame.onlyForward, Frame.forward, Frame.quiet]
  refine ⟨by norm_num [Vec3.normSq], e, ?_⟩
  rw [e]
  norm_num [Vec3.normSq]

/-- C14 (amended): with Δt = 1/60, zero initial Velocity and BODY_RotProbe's
forward vector a fixed unit vector, holding MOVE_FWD for 30 frames and then
pressing nothing for 30 frames leaves a final Velocity whose magnitude is below
0.83 (squared magnitude below 0.83²). -/
theorem C14_final_speed_bound (p : Player) (h : p.Initial) (hv : p.Velocity = Vec3.zero)
    (u : Vec3) (hu : u.normSq = 1) (fs1 fs2 : List Frame)
    (l1 : fs1.length = 30) (l2 : fs2.length = 30)
    (h1 : ∀ f ∈ fs1, f.onlyForward (1 / 60) ∧ f.KEY_W = true ∧ f.forwardVector = u)
    (h2 : ∀ f ∈ fs2, f.onlyForward (1 / 60) ∧ f.KEY_W = false) :
    (p.run (fs1 ++ fs2)).Velocity.normSq < (83 / 100) ^ 2 := by
  have e : (p.run (fs1 ++ fs2)).Velocity =
      Player.velTrack (Player.velTrack Vec3.zero u (List.replicate 30 true)) u
        (List.replicate 30 false) := by
    rw [Player.run_Velocity_walk u _ p (Player.Initial_Unarmed p h), hv, List.map_append,
      Player.map_eq_replicate _ true fs1 (fun f hf => (h1 f hf).2.1),
      Player.map_eq_replicate _ false fs2 (fun f hf => (h2 f hf).2), l1, l2,
      Player.velTrack_append]
    intro f hf
    rcases List.mem_append.mp hf with hf | hf
    · exact ⟨(h1 f hf).1, fun _ => (h1 f hf).2.2⟩
    · refine ⟨(h2 f hf).1, fun hw => ?_⟩
      rw [(h2 f hf).2] at hw
      exact absurd hw (by simp)
  have w0 : Vec3.zero.within u (Player.pushBound 0) := by
    simp [Vec3.within, Vec3.zero, Player.pushBound]
  have w1 := Player.velTrack_within_push u 30 0 _ w0
  have w2 := Player.velTrack_within_coast u 30 _ _ w1
  rw [← e] at w2
  have hc : (0 : ℚ) ≤ Player.pushBound (0 + 30) * (14 / 15) ^ 30 :=
    mul_nonneg (Player.pushBound_nonneg _) (by positivity)
  refine lt_of_le_of_lt (Player.normSq_le_of_within _ u _ hc w2 hu) ?_
  norm_num [Player.pushBound]

/-- Witness of C14 (amended): a fresh player pushed along `(0, 0, 1)`. -/
theorem C14_final_speed_bound_witness :
    (Player.fresh.run (List.replicate 30 (Frame.forward (1/60)) ++
      List.replicate 30 (Frame.quiet (1/60)))).Velocity.normSq < (83 / 100) ^ 2 :=
  C14_final_speed_bound Player.fresh Player.fresh_Initial rfl ⟨0, 0, 1⟩
    (by norm_num [Vec3.normSq])
    (List.replicate 30 (Frame.forward (1/60))) (List.replicate 30 (Frame.quiet (1/60)))
    (List.length_replicate _ _) (List.length_replicate _ _)
    (fun f hf => by
      rw [List.eq_of_mem_replicate hf]
      simp [Frame.onlyForward, Frame.forward, Frame.quiet])
    (fun f hf => by
      rw [List.eq_of_mem_replicate hf]
      simp [Frame.onlyForward, Frame.quiet])

end BPlayer

namespace BPlayer

namespace Player

/-! ## Picking up the gun and firing -/

end Player

end BPlayer

namespace BPlayer

namespace Player

/-! ## The pitch after a hard pull on the mouse -/

@[simp] theorem fireOrMove_Controls (p : Player) (f : Frame) :
    (fireOrMove p f).1.Controls = p.Controls := by
  unfold fireOrMove fire move
  simp only []
  split_ifs <;> rfl

@[simp] theorem fly_Controls (p : Player) (f : Frame) :
    (fly p f).Controls = p.Controls := by
  unfold fly
  simp only []
  split_ifs <;> rfl

@[simp] theorem arrows_Controls (p : Player) (f : Frame) :
    (arrows p f).Controls = p.Controls := by
  unfold arrows
  simp only []
  split_ifs <;> rfl

@[simp] theorem integrate_Controls (p : Player) (f : Frame) :
    (integrate p f).Controls = p.Controls := rfl

@[simp] theorem turn_Controls (p : Player) :
    (turn p).Controls = p.Controls := rfl

@[simp] theorem rotate_Controls (p : Player) (f : Frame) :
    (rotate p f).Controls = p.Controls := by
  unfold rotate
  simp only []
  split_ifs <;> rfl

@[simp] theorem collide_Controls (p : Player) (f : Frame) :
    (collide p f).1.Controls = p.Controls := by
  unfold collide
  cases f.Other.bullet <;> simp only [] <;> split_ifs <;> rfl

@[simp] theorem cheatF_Controls (p : Player) (f : Frame) :
    (cheatF p f).1.Controls = p.Controls := by
  unfold cheatF
  split_ifs <;> rfl

theorem B_clamp_of_gt (x lo hi : ℚ) (h : lo ≤ hi) (hx : hi < x) : B_clamp x lo hi = hi := by
  unfold B_clamp
  rw [if_neg (by linarith), if_pos hx]

/-- The firing block changes the pitch by the recoil or not at all. -/
theorem fireOrMove_pitch (p : Player) (f : Frame) :
    (fireOrMove p f).1.CamArea_wRotation.x = p.CamArea_wRotation.x ∨
    (fireOrMove p f).1.CamArea_wRotation.x = p.CamArea_wRotation.x - (f.irand_pitch : ℚ) := by
  have hm : (move p f).CamArea_wRotation = p.CamArea_wRotation := by
    unfold move
    simp only []
    split_ifs <;> rfl
  unfold fireOrMove fire
  simp only []
  split_ifs
  · right; rfl
  · left; rfl
  · left; rw [hm]
  · left; rfl

/-- The arrow keys change the pitch by `64·Δt` up or down or not at all. -/
theorem arrows_pitch (p : Player) (f : Frame) :
    (arrows p f).CamArea_wRotation.x = p.CamArea_wRotation.x ∨
    (arrows p f).CamArea_wRotation.x = p.CamArea_wRotation.x - 64 * f.Deltatime ∨
    (arrows p f).CamArea_wRotation.x = p.CamArea_wRotation.x + 64 * f.Deltatime := by
  unfold arrows
  simp only []
  split_ifs
  all_goals first
    | (left; rfl)
    | (right; left; rfl)
    | (right; right; rfl)

/-- The pitch after `Update_Behavior`: the pitch left by recoil and arrow
keys, plus a quarter of `TURN_X`, clamped to `[-90, 90]`. -/
theorem Update_Behavior_pitch_eq (p : Player) (f : Frame) :
    (Update_Behavior p f).1.CamArea_wRotation.x =
      B_clamp ((arrows (fly (fireOrMove (beginFrame p f) f).1 f) f).CamArea_wRotation.x +
        25 / 100 * f.mousePosChange.2) (-90) 90 := by
  simp only [Update_Behavior, cheatF_CamArea_wRotation, collide_CamArea_wRotation,
    rotate_CamArea_wRotation]
  show B_clamp ((integrate (arrows (fly (fireOrMove (beginFrame p f) f).1 f) f) f).CamArea_wRotation.x
    + 25 / 100 * (integrate (arrows (fly (fireOrMove (beginFrame p f) f).1 f) f) f).Controls.TURN_X)
    (-90) 90 = _
  rw [integrate_CamArea_wRotation, integrate_Controls, arrows_Controls, fly_Controls,
    fireOrMove_Controls]
  rfl

/-- A pull of 100000 on the mouse pins the pitch to 90, provided the pitch was
at least -90, the recoil at most 5 and the frame at most 387 s long. -/
theorem Update_Behavior_pitch_pinned (p : Player) (f : Frame)
    (hp : -90 ≤ p.CamArea_wRotation.x) (hturn : f.mousePosChange.2 = 100000)
    (hdt0 : 0 ≤ f.Deltatime) (hdt1 : f.Deltatime ≤ 387) (hr : f.irand_pitch ≤ 5) :
    (Update_Behavior p f).1.CamArea_wRotation.x = 90 := by
  rw [Update_Behavior_pitch_eq, hturn]
  apply B_clamp_of_gt _ _ _ (by norm_num)
  have hr' : (f.irand_pitch : ℚ) ≤ 5 := by exact_mod_cast hr
  have h1 := fireOrMove_pitch (beginFrame p f) f
  have h2 := arrows_pitch (fly (fireOrMove (beginFrame p f) f).1 f) f
  rw [fly_CamArea_wRotation] at h2
  have h0 : (beginFrame p f).CamArea_wRotation.x = p.CamArea_wRotation.x := by
    rw [beginFrame_CamArea_wRotation]
  rw [h0] at h1
  rcases h1 with h1 | h1 <;> rcases h2 with h2 | h2 | h2 <;> rw [h2, h1] <;> linarith

end Player

/-- C16: for every player state reachable from an initial one that is not
Dead, one frame with TURN_X = +100000 leaves CamArea's pitch at exactly +90
after `Update_Behavior`, and hence after `Player::Update`, whatever the keys
are and whether or not a bullet with recoil is fired, for a recoil value
`B_irand(-2, 5)` of at most 5 and a frame of at most 387 s. -/
theorem C16_pitch_pinned_at_90 (p0 : Player) (h : p0.Initial) (fs : List Frame)
    (hd : (p0.run fs).Dead = false) (f : Frame) (hturn : f.mousePosChange.2 = 100000)
    (hdt0 : 0 ≤ f.Deltatime) (hdt1 : f.Deltatime ≤ 387) (hr : f.irand_pitch ≤ 5) :
    ((p0.run fs).Update_Behavior f).1.CamArea_wRotation.x = 90 ∧
    ((p0.run fs).Update f).1.CamArea_wRotation.x = 90 := by
  have hp0 : -90 ≤ p0.CamArea_wRotation.x ∧ p0.CamArea_wRotation.x ≤ 90 := by
    have e : p0.CamArea_wRotation = Vec3.zero := h.2.2.2.2.2.2.2.2.2.2.2.2.2.2.2.2.1
    rw [e]
    norm_num [Vec3.zero]
  have hp := (Player.run_pitch fs p0 hp0).1
  refine ⟨Player.Update_Behavior_pitch_pinned _ f hp hturn hdt0 hdt1 hr, ?_⟩
  rw [(Player.Update_of_alive _ f hd).1]
  exact Player.Update_Behavior_pitch_pinned _ f (by simpa using hp) hturn hdt0 hdt1 hr

/-- Witness of C16: a fresh player after a quiet frame, then a frame with the
mouse pulled by 100000. -/
theorem C16_pitch_pinned_at_90_witness :
    ((Player.fresh.run [Frame.quiet (1/60)]).Update_Behavior
      { Frame.quiet (1/60) with mousePosChange := (0, 100000) }).1.CamArea_wRotation.x = 90 :=
  (C16_pitch_pinned_at_90 Player.fresh Player.fresh_Initial [Frame.quiet (1/60)]
    (by
      show ((Player.fresh.Update (Frame.quiet (1/60))).1).Dead = false
      rw [Player.Update_Dead]
      simp [Player.fresh, Frame.quiet])
    { Frame.quiet (1/60) with mousePosChange := (0, 100000) } rfl
    (by norm_num [Frame.quiet]) (by norm_num [Frame.quiet]) (by norm_num [Frame.quiet])).1

end BPlayer

namespace BPlayer

/-! ## The gun stays -/

/-- C17 (as stated) fails: a Dead player whose capsule reports a Gun pickup
does not get the gun from `Player::Update`, and the pickup is not flagged for
destruction. -/
theorem C17_counterexample :
    ({ Player.fresh with Dead := true }.Update (Frame.gunPickup (1/60))).1.HasGun = false ∧
    ({ Player.fresh with Dead := true }.Update (Frame.gunPickup (1/60))).2.Other.Destroy
      = false := by
  rw [Player.Update_of_Dead _ _ rfl]
  exact ⟨rfl, rfl⟩

/-- C17 (amended): HasGun is monotonic: for every input and collision event,
if HasGun is true before `Player::Update` it is true after it; and a frame of a
player that is not Dead whose collision event reports a Gun pickup (an object
carrying a Gun and no Bullet component) sets HasGun to true and marks the
pickup's Destroy flag. -/
theorem C17_HasGun_monotone (p : Player) (f : Frame) :
    (p.HasGun = true → (p.Update f).1.HasGun = true) ∧
    (p.Dead = false → f.isCollided = true → f.Other.bullet = none → f.Other.gun = true →
      (p.Update f).1.HasGun = true ∧ (p.Update f).2.Other.Destroy = true) := by
  constructor
  · intro h
    rw [Player.Update_HasGun, h]
    simp
  · intro hd hc hb hg
    constructor
    · rw [Player.Update_HasGun]
      simp [hd, hc, hb, hg]
    · rw [(Player.Update_of_alive p f hd).2.2]
      simp only [Player.Update_Behavior]
      exact Player.collide_Other_gun _ f hc hb hg

/-- Witness of C17 (amended): a fresh player picks up the gun, and keeps it on
a quiet frame. -/
theorem C17_HasGun_monotone_witness :
    ((Player.fresh.Update (Frame.gunPickup (1/60))).1.HasGun = true ∧
      (Player.fresh.Update (Frame.gunPickup (1/60))).2.Other.Destroy = true) ∧
    ({ Player.fresh with HasGun := true }.Update (Frame.quiet (1/60))).1.HasGun = true :=
  ⟨(C17_HasGun_monotone Player.fresh (Frame.gunPickup (1/60))).2 rfl rfl rfl rfl,
   (C17_HasGun_monotone { Player.fresh with HasGun := true } (Frame.quiet (1/60))).1 rfl⟩

end BPlayer

namespace BPlayer

/-! ## Counting guns -/

namespace GunEvent

theorem mem_living (es : List GunEvent) (i : Nat) :
    i ∈ living es ↔ Init i ∈ es ∧ Destruct i ∉ es := by
  unfold living
  rw [Finset.mem_filter, List.mem_toFinset, List.mem_map]
  constructor
  · rintro ⟨-, h⟩; exact h
  · intro h; exact ⟨⟨Init i, h.1, rfl⟩, h⟩

/-- After an admissible `Init` the instance joins the living ones. -/
theorem living_snoc_Init (past : List GunEvent) (i : Nat) (hnew : Init i ∉ past)
    (hpast : ∀ j, Destruct j ∈ past → Init j ∈ past) :
    living (past ++ [Init i]) = insert i (living past) ∧ i ∉ living past := by
  constructor
  · ext j
    rw [mem_living, Finset.mem_insert, mem_living]
    simp only [List.mem_append, List.mem_singleton, Init.injEq, reduceCtorEq, or_false]
    constructor
    · rintro ⟨h1 | h1, h2⟩
      · right; exact ⟨h1, h2⟩
      · left; exact h1
    · rintro (h | ⟨h1, h2⟩)
      · subst h
        exact ⟨Or.inr rfl, fun hd => hnew (hpast _ hd)⟩
      · exact ⟨Or.inl h1, h2⟩
  · rw [mem_living]
    exact fun h => hnew h.1

/-- After an admissible `Destruct` the instance leaves the living ones. -/
theorem living_snoc_Destruct (past : List GunEvent) (i : Nat) (hinit : Init i ∈ past)
    (hnot : Destruct i ∉ past) :
    living (past ++ [Destruct i]) = (living past).erase i ∧ i ∈ living past := by
  constructor
  · ext j
    rw [mem_living, Finset.mem_erase, mem_living]
    simp only [List.mem_append, List.mem_singleton, reduceCtorEq, or_false, Destruct.injEq,
      not_or]
    constructor
    · rintro ⟨h1, h2, h3⟩; exact ⟨h3, h1, h2⟩
    · rintro ⟨h3, h1, h2⟩; exact ⟨h1, h2, h3⟩
  · rw [mem_living]
    exact ⟨hinit, hnot⟩

theorem living_snoc_Update (past : List GunEvent) (i : Nat) (dt : ℚ) :
    living (past ++ [Update i dt]) = living past := by
  ext j
  rw [mem_living, mem_living]
  simp

end GunEvent

namespace GunWorld

/-- `Gun::Update` leaves the counter alone. -/
theorem step_Update_GunCount (w : GunWorld) (i : Nat) (dt : ℚ) :
    (w.step (GunEvent.Update i dt)).GunCount = w.GunCount := rfl

/-- Along a well-formed continuation of a history in which every destructed
gun had been initialised, the counter keeps counting the living guns. -/
theorem run_GunCount (es : List GunEvent) : ∀ (past : List GunEvent) (w : GunWorld),
    (∀ j, GunEvent.Destruct j ∈ past → GunEvent.Init j ∈ past) →
    GunEvent.WellFormedFrom past es →
    w.GunCount = ((GunEvent.living past).card : ℤ) →
    (w.run es).GunCount = ((GunEvent.living (past ++ es)).card : ℤ) := by
  induction es with
  | nil => intro past w _ _ h; simpa [run] using h
  | cons e es ih =>
    intro past w hpast hwf hw
    obtain ⟨hadm, hrest⟩ := hwf
    have hassoc : past ++ e :: es = (past ++ [e]) ++ es := by simp
    rw [hassoc]
    show ((w.step e).run es).GunCount = _
    cases e with
    | Init i =>
      obtain ⟨h1, h2⟩ := GunEvent.living_snoc_Init past i hadm hpast
      refine ih _ _ ?_ hrest ?_
      · intro j hj
        simp only [List.mem_append, List.mem_singleton, reduceCtorEq, or_false] at hj
        exact List.mem_append_left _ (hpast j hj)
      · rw [h1, Finset.card_insert_of_not_mem h2]
        show w.GunCount + 1 = _
        rw [hw]
        push_cast
        ring
    | Update i dt =>
      refine ih _ _ ?_ hrest ?_
      · intro j hj
        simp only [List.mem_append, List.mem_singleton, reduceCtorEq, or_false] at hj
        exact List.mem_append_left _ (hpast j hj)
      · rw [GunEvent.living_snoc_Update]
        exact hw
    | Destruct i =>
      obtain ⟨h1, h2⟩ := GunEvent.living_snoc_Destruct past i hadm.1 hadm.2
      refine ih _ _ ?_ hrest ?_
      · intro j hj
        simp only [List.mem_append, List.mem_singleton, GunEvent.Destruct.injEq] at hj
        rcases hj with hj | hj
        · exact List.mem_append_left _ (hpast j hj)
        · subst hj
          exact List.mem_append_left _ hadm.1
      · rw [h1, Finset.card_erase_of_mem h2]
        show w.GunCount - 1 = _
        rw [hw]
        have hpos : 1 ≤ (GunEvent.living past).card := Finset.card_pos.mpr ⟨i, h2⟩
        rw [Nat.cast_sub hpos]
        simp

end GunWorld

/-- C18: for every sequence of Gun lifecycle events in which each instance
receives Init once and Destruct at most once and only after its Init,
GunCount (initially 0) equals the number of Gun instances that have been
initialised and not yet destructed, hence is never negative; and
`Gun::Update` never changes it. -/
theorem C18_GunCount_counts_living (es : List GunEvent) (h : GunEvent.WellFormed es) :
    (GunWorld.start.run es).GunCount = ((GunEvent.living es).card : ℤ) ∧
    0 ≤ (GunWorld.start.run es).GunCount ∧
    (∀ (w : GunWorld) (i : Nat) (dt : ℚ),
      (w.step (GunEvent.Update i dt)).GunCount = w.GunCount) ∧
    (∀ (c : ℤ) (g : Gun) (dt : ℚ), (Gun.Update c g dt).1 = c) := by
  have e := GunWorld.run_GunCount es [] GunWorld.start (by simp) h (by simp [GunEvent.living,
    GunWorld.start])
  rw [List.nil_append] at e
  refine ⟨e, ?_, fun w i dt => rfl, fun c g dt => rfl⟩
  rw [e]
  exact Int.natCast_nonneg _

/-- Witness of C18: gun 0 is created, gun 1 is created, gun 0 spins and is
picked up; one gun is left. -/
theorem C18_GunCount_counts_living_witness :
    (GunWorld.start.run [GunEvent.Init 0, GunEvent.Init 1, GunEvent.Update 0 (1/60),
      GunEvent.Destruct 0]).GunCount =
      ((GunEvent.living [GunEvent.Init 0, GunEvent.Init 1, GunEvent.Update 0 (1/60),
        GunEvent.Destruct 0]).card : ℤ) :=
  (C18_GunCount_counts_living [GunEvent.Init 0, GunEvent.Init 1, GunEvent.Update 0 (1/60),
    GunEvent.Destruct 0]
    (by simp [GunEvent.WellFormed, GunEvent.WellFormedFrom, GunEvent.admissible])).1

end BPlayer

namespace BPlayer

namespace Player

/-! ## Blend weights handed to the animator -/

theorem debugPlays_blend (p : Player) (f : Frame) :
    ∀ c ∈ debugPlays p f, c.blend = 0 := by
  intro c hc
  unfold debugPlays at hc
  simp only [List.mem_append] at hc
  rcases hc with ((hc | hc) | hc) | hc <;> split_ifs at hc <;> simp at hc <;> rw [hc]

/-- The two commands of a blending branch carry the advanced blend amount and
0. -/
theorem blendStep_plays (p : Player) (f : Frame) (a b : Clip) (next : AnimState) :
    ∀ c ∈ (blendStep p f a b next).2,
      c.blend = p.blendAmount + f.Deltatime * 4 ∨ c.blend = 0 := by
  intro c hc
  unfold blendStep at hc
  simp only [] at hc
  split_ifs at hc <;> simp at hc
  · rcases hc with hc | hc <;> rw [hc]
    · left; rfl
    · right; rfl
  · rw [hc]; left; rfl

/-- Every command of `Animate` carries 0, the blend amount before the call or
the blend amount advanced by `4·Δt`. -/
theorem Animate_plays (p : Player) (f : Frame) :
    ∀ c ∈ (Animate p f).2,
      c.blend = 0 ∨ c.blend = p.blendAmount ∨ c.blend = p.blendAmount + f.Deltatime * 4 := by
  intro c hc
  simp only [Animate, List.mem_append] at hc
  rcases hc with hc | hc
  · left; exact debugPlays_blend p f c hc
  · have hb := selectClips_blendAmount p
    have key : ∀ (a b : Clip) (next : AnimState), c ∈ ((selectClips p).blendStep f a b next).2 →
        c.blend = 0 ∨ c.blend = p.blendAmount ∨ c.blend = p.blendAmount + f.Deltatime * 4 := by
      intro a b next h
      rcases blendStep_plays _ f a b next c h with h | h
      · right; right; rw [h, hb]
      · left; exact h
    unfold animSwitch at hc
    split at hc
    · split_ifs at hc <;> simp at hc <;> (left; rw [hc])
    · exact key _ _ _ hc
    · split_ifs at hc <;> simp at hc <;> (right; left; rw [hc])
    · exact key _ _ _ hc
    · exact key _ _ _ hc
    · split_ifs at hc
      · exact key _ _ _ hc
      · simp at hc
    · exact key _ _ _ hc
    · split_ifs at hc
      · exact key _ _ _ hc
      · simp at hc

/-- In IDLE_WALK the blend of the idle clip into the run clip is handed over
with the advanced blend amount. -/
theorem Animate_idle_walk_play (p : Player) (f : Frame) (hs : p.charState = AnimState.IDLE_WALK)
    (hg : p.HasGun = false) :
    (⟨Clip.idleAnimation_NOGUN, some Clip.runAnimation_NOGUN, f.m_CurrentTime,
      f.m_CurrentTime2, p.blendAmount + f.Deltatime * 4⟩ : PlayCmd) ∈ (Animate p f).2 := by
  simp only [Animate, List.mem_append]
  right
  have h1 : (selectClips p).charState = AnimState.IDLE_WALK := by
    rw [selectClips_charState, hs]
  unfold animSwitch
  rw [h1]
  simp only [blendStep, selectClips, hg, Bool.false_eq_true, if_false]
  split_ifs <;> simp

/-- The blend amount stays between 0 and 0.9 under `Animate`. -/
theorem Animate_blendAmount_le (p : Player) (f : Frame) (hdt : 0 ≤ f.Deltatime)
    (h0 : 0 ≤ p.blendAmount) (h1 : p.blendAmount ≤ 9 / 10) :
    0 ≤ (Animate p f).1.blendAmount ∧ (Animate p f).1.blendAmount ≤ 9 / 10 := by
  rw [Animate_blendAmount_eq]
  rcases p.charState <;> simp only [animNext] <;> split_ifs with k1 k2 <;>
    first
      | exact ⟨le_rfl, by norm_num⟩
      | exact ⟨h0, h1⟩
      | exact ⟨add_nonneg h0 (mul_nonneg hdt (by norm_num)), not_lt.mp k1⟩
      | exact ⟨add_nonneg h0 (mul_nonneg hdt (by norm_num)), not_lt.mp k2⟩

theorem run_blendAmount_le (fs : List Frame) : ∀ p : Player,
    (∀ f ∈ fs, 0 ≤ f.Deltatime) → (0 ≤ p.blendAmount ∧ p.blendAmount ≤ 9 / 10) →
    0 ≤ (p.run fs).blendAmount ∧ (p.run fs).blendAmount ≤ 9 / 10 := by
  induction fs with
  | nil => intro p _ h; exact h
  | cons f fs ih =>
    intro p hfs h
    refine ih _ (fun g hg => hfs g (List.mem_cons_of_mem _ hg)) ?_
    cases hd : p.Dead
    · rw [(Update_of_alive p f hd).1, Update_Behavior_blendAmount]
      exact Animate_blendAmount_le p f (hfs f (List.mem_cons_self _ _)) h.1 h.2
    · rw [Update_of_Dead p f hd]
      exact h

end Player

/-- C19 (as stated) fails: with Δt = 0.3, a fresh player that holds W is in
IDLE_WALK with blend amount 0 after two frames, and on the third frame
`Animate` hands the animator the idle-into-run blend with weight 1.2. -/
theorem C19_counterexample :
    (⟨Clip.idleAnimation_NOGUN, some Clip.runAnimation_NOGUN, 0, 0, 6 / 5⟩ : PlayCmd) ∈
      ((Player.fresh.run [Frame.forward (3/10), Frame.forward (3/10)]).Animate
        (Frame.forward (3/10))).2 ∧
    ¬ ((6 / 5 : ℚ) ≤ 1) := by
  have hf : (Frame.forward (3/10)).onlyForward (3/10) := by
    simp [Frame.onlyForward, Frame.forward, Frame.quiet]
  have u0 := Player.Initial_Unarmed _ Player.fresh_Initial
  obtain ⟨a1, a2, a3, a4, -⟩ :=
    Player.Update_onlyForward Player.fresh (Frame.forward (3/10)) (3/10) (by norm_num) u0 hf
  have s1 : (Player.fresh.Update (Frame.forward (3/10))).1.charState = AnimState.IDLE := by
    rw [a3, Player.Animate_charState]; rfl
  obtain ⟨b1, -, b3, b4, -⟩ :=
    Player.Update_onlyForward (Player.fresh.Update (Frame.forward (3/10))).1
      (Frame.forward (3/10)) (3/10) (by norm_num) a1 hf
  have s2 : ((Player.fresh.Update (Frame.forward (3/10))).1.Update
      (Frame.forward (3/10))).1.charState = AnimState.IDLE_WALK := by
    rw [b3, Player.Animate_charState, s1, a2]; rfl
  have t2 : ((Player.fresh.Update (Frame.forward (3/10))).1.Update
      (Frame.forward (3/10))).1.blendAmount = 0 := by
    rw [b4, Player.Animate_blendAmount_eq, s1, a2]; rfl
  have key := Player.Animate_idle_walk_play
    ((Player.fresh.Update (Frame.forward (3/10))).1.Update (Frame.forward (3/10))).1
    (Frame.forward (3/10)) s2 b1.2.1
  rw [t2] at key
  have e : (0 : ℚ) + (Frame.forward (3/10)).Deltatime * 4 = 6 / 5 := by
    norm_num [Frame.forward, Frame.quiet]
  rw [e] at key
  exact ⟨key, by norm_num⟩

/-- C19 (amended): from an initial player, after any sequence of frames with
Δt ≥ 0, every playback command that `Animate` hands to the animator on a frame
with `0 ≤ Δt ≤ 1/40` carries a blend weight in `[0, 1]`; for any Δt ≥ 0 the
weight lies in `[0, 0.9 + 4·Δt]`. -/
theorem C19_blend_weight_bounded (p : Player) (h : p.Initial) (fs : List Frame)
    (hfs : ∀ g ∈ fs, 0 ≤ g.Deltatime) (f : Frame) (hdt : 0 ≤ f.Deltatime) (c : PlayCmd)
    (hc : c ∈ ((p.run fs).Animate f).2) :
    (0 ≤ c.blend ∧ c.blend ≤ 9 / 10 + 4 * f.Deltatime) ∧
    (f.Deltatime ≤ 1 / 40 → 0 ≤ c.blend ∧ c.blend ≤ 1) := by
  have hb : p.blendAmount = 0 := h.2.2.2.2.2.2.2.2.1
  obtain ⟨r0, r1⟩ := Player.run_blendAmount_le fs p hfs (by rw [hb]; norm_num)
  have main : 0 ≤ c.blend ∧ c.blend ≤ 9 / 10 + 4 * f.Deltatime := by
    rcases Player.Animate_plays _ f c hc with e | e | e <;> rw [e] <;>
      constructor <;> linarith
  exact ⟨main, fun h40 => ⟨main.1, by linarith [main.2]⟩⟩

/-- Witness of C19 (amended): the command of a fresh player's walking frame at
1/60 s, two frames after W went down. -/
theorem C19_blend_weight_bounded_witness :
    0 ≤ (⟨Clip.idleAnimation_NOGUN, some Clip.runAnimation_NOGUN, 0, 0, 1 / 15⟩ :
      PlayCmd).blend ∧
    (⟨Clip.idleAnimation_NOGUN, some Clip.runAnimation_NOGUN, 0, 0, 1 / 15⟩ :
      PlayCmd).blend ≤ 1 :=
  (C19_blend_weight_bounded Player.fresh Player.fresh_Initial
    [Frame.forward (1/60), Frame.forward (1/60)]
    (by intro g hg; simp at hg; rw [hg]; norm_num [Frame.forward, Frame.quiet])
    (Frame.forward (1/60)) (by norm_num [Frame.forward, Frame.quiet])
    ⟨Clip.idleAnimation_NOGUN, some Clip.runAnimation_NOGUN, 0, 0, 1 / 15⟩
    (by
      have hf : (Frame.forward (1/60)).onlyForward (1/60) := by
        simp [Frame.onlyForward, Frame.forward, Frame.quiet]
      have u0 := Player.Initial_Unarmed _ Player.fresh_Initial
      obtain ⟨a1, a2, a3, a4, -⟩ :=
        Player.Update_onlyForward Player.fresh (Frame.forward (1/60)) (1/60) (by norm_num) u0 hf
      have s1 : (Player.fresh.Update (Frame.forward (1/60))).1.charState = AnimState.IDLE := by
        rw [a3, Player.Animate_charState]; rfl
      obtain ⟨b1, -, b3, b4, -⟩ :=
        Player.Update_onlyForward (Player.fresh.Update (Frame.forward (1/60))).1
          (Frame.forward (1/60)) (1/60) (by norm_num) a1 hf
      have s2 : ((Player.fresh.Update (Frame.forward (1/60))).1.Update
          (Frame.forward (1/60))).1.charState = AnimState.IDLE_WALK := by
        rw [b3, Player.Animate_charState, s1, a2]; rfl
      have t2 : ((Player.fresh.Update (Frame.forward (1/60))).1.Update
          (Frame.forward (1/60))).1.blendAmount = 0 := by
        rw [b4, Player.Animate_blendAmount_eq, s1, a2]; rfl
      have key := Player.Animate_idle_walk_play
        ((Player.fresh.Update (Frame.forward (1/60))).1.Update (Frame.forward (1/60))).1
        (Frame.forward (1/60)) s2 b1.2.1
      rw [t2] at key
      have e : (0 : ℚ) + (Frame.forward (1/60)).Deltatime * 4 = 1 / 15 := by
        norm_num [Frame.forward, Frame.quiet]
      rw [e] at key
      exact key)).2 (by norm_num [Frame.forward, Frame.quiet])

end BPlayer

namespace BPlayer

namespace Player

/-! ## The `Input` flag -/

theorem fire_Input (p : Player) (f : Frame) : (fire p f).1.Input = p.Input := by
  unfold fire
  simp only []
  split_ifs <;> rfl

/-- The flight keys raise `Input`. -/
theorem fly_Input_eq (p : Player) (f : Frame) :
    (fly p f).Input = (p.Input || f.KEY_E || f.KEY_Q) := by
  unfold fly
  rcases hE : f.KEY_E <;> rcases hQ : f.KEY_Q <;> simp

/-- The firing-or-moving block raises `Input` exactly when it reaches the
movement block, that is on a frame that does not fire and with the
firing-animation lock over, and a movement control is on. -/
theorem fireOrMove_Input_iff (p : Player) (f : Frame) :
    (fireOrMove p f).1.Input = true ↔
      p.Input = true ∨
      (¬ (p.Controls.ATK_1 = true ∧ p.HasGun = true) ∧ p.Gun_AnimCooldown ≤ 0 ∧
        (p.Controls.MOVE_FWD = true ∨ p.Controls.MOVE_BACK = true ∨
          p.Controls.MOVE_LFT = true ∨ p.Controls.MOVE_RHT = true)) := by
  unfold fireOrMove
  by_cases hfire : (p.Controls.ATK_1 && p.HasGun) = true
  · rw [if_pos hfire, fire_Input]
    have h : p.Controls.ATK_1 = true ∧ p.HasGun = true := by
      simpa [Bool.and_eq_true] using hfire
    constructor
    · intro hi; exact Or.inl hi
    · rintro (hi | ⟨hn, -⟩)
      · exact hi
      · exact absurd h hn
  · rw [if_neg hfire]
    have h : ¬ (p.Controls.ATK_1 = true ∧ p.HasGun = true) := by
      simpa [Bool.and_eq_true] using hfire
    by_cases hlock : p.Gun_AnimCooldown ≤ 0
    · rw [if_pos hlock]
      show (move p f).Input = true ↔ _
      rw [move_Input]
      simp only [Bool.or_eq_true]
      constructor
      · rintro ((((hi | h1) | h2) | h3) | h4)
        · exact Or.inl hi
        · exact Or.inr ⟨h, hlock, Or.inl h1⟩
        · exact Or.inr ⟨h, hlock, Or.inr (Or.inl h2)⟩
        · exact Or.inr ⟨h, hlock, Or.inr (Or.inr (Or.inl h3))⟩
        · exact Or.inr ⟨h, hlock, Or.inr (Or.inr (Or.inr h4))⟩
      · rintro (hi | ⟨-, -, h1 | h2 | h3 | h4⟩)
        · exact Or.inl (Or.inl (Or.inl (Or.inl hi)))
        · exact Or.inl (Or.inl (Or.inl (Or.inr h1)))
        · exact Or.inl (Or.inl (Or.inr h2))
        · exact Or.inl (Or.inr h3)
        · exact Or.inr h4
    · rw [if_neg hlock]
      constructor
      · intro hi; exact Or.inl hi
      · rintro (hi | ⟨-, hl, -⟩)
        · exact hi
        · exact absurd hl hlock

/-- The `Input` flag after `Update_Behavior`: a flight key is down, or the
frame neither fires nor falls inside the firing-animation lock and a movement
key is down. -/
theorem Update_Behavior_Input_iff (p : Player) (f : Frame) :
    (Update_Behavior p f).1.Input = true ↔
      (f.KEY_E = true ∨ f.KEY_Q = true) ∨
      (¬ ((f.KEY_N || f.MOUSE_BUTTON_1) = true ∧ p.HasGun = true) ∧
        p.Gun_AnimCooldown - f.Deltatime ≤ 0 ∧
        (f.KEY_W = true ∨ f.KEY_S = true ∨ f.KEY_A = true ∨ f.KEY_D = true)) := by
  have e : (Update_Behavior p f).1.Input =
      (fly (fireOrMove (beginFrame p f) f).1 f).Input := by
    simp [Update_Behavior]
  have h0 : (beginFrame p f).Input = false := rfl
  have h1 : (beginFrame p f).Controls = Controls_Update f := rfl
  have h2 : (beginFrame p f).HasGun = p.HasGun := rfl
  have h3 : (beginFrame p f).Gun_AnimCooldown = p.Gun_AnimCooldown - f.Deltatime := rfl
  rw [e, fly_Input_eq, Bool.or_eq_true, Bool.or_eq_true, fireOrMove_Input_iff, h0, h1, h2, h3]
  have c1 : (Controls_Update f).ATK_1 = (f.KEY_N || f.MOUSE_BUTTON_1) := rfl
  have c2 : (Controls_Update f).MOVE_FWD = f.KEY_W := rfl
  have c3 : (Controls_Update f).MOVE_BACK = f.KEY_S := rfl
  have c4 : (Controls_Update f).MOVE_LFT = f.KEY_A := rfl
  have c5 : (Controls_Update f).MOVE_RHT = f.KEY_D := rfl
  rw [c1, c2, c3, c4, c5]
  generalize (f.KEY_N || f.MOUSE_BUTTON_1) = atk
  constructor
  · rintro ((h | hE) | hQ)
    · rcases h with h | h
      · exact absurd h (by simp)
      · exact Or.inr h
    · exact Or.inl (Or.inl hE)
    · exact Or.inl (Or.inr hQ)
  · rintro ((hE | hQ) | h)
    · exact Or.inl (Or.inr hE)
    · exact Or.inr hQ
    · exact Or.inl (Or.inl (Or.inr h))

end Player

/-- C21 (as stated) fails: with W held and E and Q up, a living player with
the gun that holds the attack key ends `Update_Behavior` with Input false, and
so does a living player inside the firing-animation lock
(`Gun_AnimCooldown` = 0.25 before a frame of 1/60 s). -/
theorem C21_counterexample :
    ({ Frame.forward (1/60) with KEY_N := true } : Frame).KEY_W = true ∧
    ({ Player.fresh with HasGun := true }.Update_Behavior
      { Frame.forward (1/60) with KEY_N := true }).1.Input = false ∧
    (Frame.forward (1/60)).KEY_W = true ∧
    ({ Player.fresh with HasGun := true, Gun_AnimCooldown := 1/4 }.Update_Behavior
      (Frame.forward (1/60))).1.Input = false := by
  refine ⟨rfl, ?_, rfl, ?_⟩
  · rw [Bool.eq_false_iff, ne_eq, Player.Update_Behavior_Input_iff]
    simp [Frame.forward, Frame.quiet]
  · rw [Bool.eq_false_iff, ne_eq, Player.Update_Behavior_Input_iff]
    norm_num [Frame.forward, Frame.quiet]

/-- C21 (amended): for every player state and every key combination with the
flight keys E and Q not pressed, after `Update_Behavior` the Input flag is true
if and only if at least one of the movement keys MOVE_FWD, MOVE_BACK, MOVE_LFT,
MOVE_RHT was active this frame and the frame reached the movement block: ATK is
not held with HasGun true, and the firing-animation lock is over
(`Gun_AnimCooldown - Δt ≤ 0`).  On frames on which ATK is held with HasGun true
and on frames inside the lock the Input flag is false whatever the movement
keys are. -/
theorem C21_Input_flag (p : Player) (f : Frame) (hE : f.KEY_E = false)
    (hQ : f.KEY_Q = false) :
    ((p.Update_Behavior f).1.Input = true ↔
      (f.KEY_W = true ∨ f.KEY_S = true ∨ f.KEY_A = true ∨ f.KEY_D = true) ∧
      ¬ ((f.KEY_N || f.MOUSE_BUTTON_1) = true ∧ p.HasGun = true) ∧
      p.Gun_AnimCooldown - f.Deltatime ≤ 0) ∧
    ((f.KEY_N || f.MOUSE_BUTTON_1) = true ∧ p.HasGun = true →
      (p.Update_Behavior f).1.Input = false) ∧
    (0 < p.Gun_AnimCooldown - f.Deltatime → (p.Update_Behavior f).1.Input = false) := by
  have key : (p.Update_Behavior f).1.Input = true ↔
      (f.KEY_W = true ∨ f.KEY_S = true ∨ f.KEY_A = true ∨ f.KEY_D = true) ∧
      ¬ ((f.KEY_N || f.MOUSE_BUTTON_1) = true ∧ p.HasGun = true) ∧
      p.Gun_AnimCooldown - f.Deltatime ≤ 0 := by
    rw [Player.Update_Behavior_Input_iff, hE, hQ]
    constructor
    · rintro ((h | h) | ⟨h1, h2, h3⟩)
      · exact absurd h (by simp)
      · exact absurd h (by simp)
      · exact ⟨h3, h1, h2⟩
    · rintro ⟨h3, h1, h2⟩
      exact Or.inr ⟨h1, h2, h3⟩
  refine ⟨key, fun hfire => ?_, fun hlock => ?_⟩
  · rw [Bool.eq_false_iff, ne_eq, key]
    exact fun h => h.2.1 hfire
  · rw [Bool.eq_false_iff, ne_eq, key]
    exact fun h => absurd h.2.2 (not_le.mpr hlock)

/-- Witness of C21 (amended): a fresh player with W held gets Input true. -/
theorem C21_Input_flag_witness :
    (Player.fresh.Update_Behavior (Frame.forward (1/60))).1.Input = true :=
  (C21_Input_flag Player.fresh (Frame.forward (1/60)) rfl rfl).1.mpr
    ⟨Or.inl rfl, by simp [Player.fresh], by norm_num [Player.fresh, Frame.forward, Frame.quiet]⟩

end BPlayer
